import Mathlib

/-!
# Raycraft: voxel world storage and block-breaking controller

A shallow embedding of `src/Raycraft/World.hpp`, `src/Raycraft/World.cpp` and, of
`src/Raycraft/Character.cpp`, the block interaction, the block raycast, and the collision
and physics step.

Modelling conventions.

* C++ `int` is `Int`; the code only divides, takes remainders and compares, so no
  overflow arises.  `/` and `%` on `int` truncate toward zero: `Int.tdiv`, `Int.tmod`.
* `float` values are rationals (`ℚ`).  `floorf` is `Int.floor`, the cast `(int)f` is
  truncation toward zero, `(float)i` is the cast `Int → ℚ`.  A single arithmetic
  operation is taken exactly.  The two sums that the statements below follow over many
  iterations, `breakTimer += GetFrameTime()` and `traveled += stepSize`, round to
  binary32 after every addition, as the C++ `float` addition does (`fadd32`).
* `unsigned char` is a `Nat`; the cast `(unsigned char)i` reduces modulo 256.
* A `std::vector` of fixed size `n` that is never resized is a function on `Fin n`.
* An out-of-range `std::array` read is a failure: the function returns `Option`.
-/

namespace Raycraft

/-! ## World.hpp -/

/-- `const int WORLD_HEIGHT = 64;` -/
abbrev WORLD_HEIGHT : Int := 64

/-- `const int CHUNK_SIZE = 16;` -/
abbrev CHUNK_SIZE : Int := 16

/-- `OptimizedWorld::CHUNK_COUNT_X` -/
abbrev CHUNK_COUNT_X : Int := 4

/-- `OptimizedWorld::CHUNK_COUNT_Z` -/
abbrev CHUNK_COUNT_Z : Int := 4

/-! `enum BlockType : unsigned char` -/

abbrev BLOCK_AIR : Nat := 0
abbrev BLOCK_GRASS : Nat := 1
abbrev BLOCK_DIRT : Nat := 2
abbrev BLOCK_STONE : Nat := 3
abbrev BLOCK_WOOD : Nat := 4
abbrev BLOCK_LEAVES : Nat := 5
abbrev BLOCK_WATER : Nat := 6
abbrev BLOCK_SAND : Nat := 7
abbrev BLOCK_COUNT : Nat := 8

/-- The cast `(unsigned char)i` of an `int`. -/
def toUChar (i : Int) : Nat := (i % 256).toNat

/-- The raylib type `Color`.  The palette names `BLANK`, `GREEN`, `BROWN`, `GRAY` are
raylib constants whose component values are not part of this repository; they are kept
as names. -/
inductive Color where
  | BLANK
  | GREEN
  | BROWN
  | GRAY
  | rgba (r g b a : Nat)
deriving DecidableEq, Repr

/-- The raylib type `Vector3`, three `float` components. -/
structure Vector3 where
  x : ℚ
  y : ℚ
  z : ℚ
deriving DecidableEq

/-- The vector `{ (float)x, (float)y, (float)z }` of three `int`s. -/
def Vector3.ofInt (x y z : Int) : Vector3 := ⟨(x : ℚ), (y : ℚ), (z : ℚ)⟩

/-- `struct Block`: one byte. -/
structure Block where
  type : Nat
deriving DecidableEq, Repr

/-- The table `colors` inside `Block::GetColor`, a `std::array<Color, BLOCK_COUNT>`. -/
def Block.colors : List Color :=
  [ Color.BLANK,
    Color.GREEN,
    Color.BROWN,
    Color.GRAY,
    Color.rgba 139 69 19 255,
    Color.rgba 34 139 34 200,
    Color.rgba 0 105 148 150,
    Color.rgba 194 178 128 255 ]

/-- `Block::GetColor`: `colors[type]`; the read is out of range, hence `none`, when
`type ≥ BLOCK_COUNT`. -/
def Block.GetColor (b : Block) : Option Color := Block.colors.get? b.type

/-- `Block::IsTransparent` -/
def Block.IsTransparent (b : Block) : Bool :=
  b.type == BLOCK_AIR || b.type == BLOCK_LEAVES || b.type == BLOCK_WATER

/-- `Block::IsSolid` -/
def Block.IsSolid (b : Block) : Bool :=
  b.type != BLOCK_AIR && b.type != BLOCK_WATER

/-- Number of cells of a chunk, `CHUNK_SIZE * WORLD_HEIGHT * CHUNK_SIZE`. -/
abbrev CHUNK_CELLS : Nat := 16 * 64 * 16

/-- `struct Chunk`.  `blocks` is the vector sized once by the constructor; `mesh` and
`model` are never assigned and are left out. -/
structure Chunk where
  x : Int
  z : Int
  blocks : Fin CHUNK_CELLS → Block
  dirty : Bool
  initialized : Bool

/-- `class OptimizedWorld`.  `chunks` is the grid of owned chunks, `CHUNK_COUNT_X` by
`CHUNK_COUNT_Z`. -/
structure OptimizedWorld where
  chunks : Fin 4 → Fin 4 → Chunk
  seed : Int
  visibleBlocks : List (Vector3 × Color × Bool)
  cacheDirty : Bool

/-! ## World.cpp: chunks -/

/-- `Chunk::Chunk(int chunkX, int chunkZ)` -/
def Chunk.new (chunkX chunkZ : Int) : Chunk :=
  { x := chunkX, z := chunkZ, blocks := fun _ => ⟨BLOCK_AIR⟩, dirty := true,
    initialized := false }

/-- The index `(y * CHUNK_SIZE + z) * CHUNK_SIZE + x` of a cell, as a key of `blocks`;
it is in range whenever the bounds test of `Chunk::GetBlock` / `Chunk::SetBlock` passes. -/
def Chunk.index (x y z : Int)
    (h : ¬ (x < 0 ∨ x ≥ CHUNK_SIZE ∨ y < 0 ∨ y ≥ WORLD_HEIGHT ∨ z < 0 ∨ z ≥ CHUNK_SIZE)) :
    Fin CHUNK_CELLS :=
  ⟨((y * CHUNK_SIZE + z) * CHUNK_SIZE + x).toNat, by
    simp only [CHUNK_SIZE, WORLD_HEIGHT, CHUNK_CELLS] at *
    omega⟩

/-- `Chunk::GetBlock` -/
def Chunk.GetBlock (c : Chunk) (x y z : Int) : Block :=
  if h : x < 0 ∨ x ≥ CHUNK_SIZE ∨ y < 0 ∨ y ≥ WORLD_HEIGHT ∨ z < 0 ∨ z ≥ CHUNK_SIZE then
    ⟨BLOCK_AIR⟩
  else
    c.blocks (Chunk.index x y z h)

/-- `Chunk::SetBlock` -/
def Chunk.SetBlock (c : Chunk) (x y z : Int) (block : Block) : Chunk :=
  if h : x < 0 ∨ x ≥ CHUNK_SIZE ∨ y < 0 ∨ y ≥ WORLD_HEIGHT ∨ z < 0 ∨ z ≥ CHUNK_SIZE then
    c
  else
    { c with
      blocks := Function.update c.blocks (Chunk.index x y z h) block
      dirty := true }

/-- `Chunk::GenerateMesh` -/
def Chunk.GenerateMesh (c : Chunk) : Chunk := { c with dirty := false }

/-! ## World.cpp: coordinate helpers -/

/-- `OptimizedWorld::WorldToChunkPos` -/
def WorldToChunkPos (worldX worldZ : Int) : Int × Int :=
  (Int.tdiv worldX CHUNK_SIZE, Int.tdiv worldZ CHUNK_SIZE)

/-- `OptimizedWorld::WorldToLocalPos` -/
def WorldToLocalPos (worldX worldY worldZ : Int) : Int × Int × Int :=
  (Int.tmod worldX CHUNK_SIZE, worldY, Int.tmod worldZ CHUNK_SIZE)

/-- `OptimizedWorld::GetChunk`.  The returned pointer is the chunk's place in the grid;
`none` is `nullptr`. -/
def GetChunk (worldX worldZ : Int) : Option (Fin 4 × Fin 4) :=
  let (chunkX, chunkZ) := WorldToChunkPos worldX worldZ
  if h : chunkX < 0 ∨ chunkX ≥ CHUNK_COUNT_X ∨ chunkZ < 0 ∨ chunkZ ≥ CHUNK_COUNT_Z then
    none
  else
    some (⟨chunkX.toNat, by simp only [CHUNK_COUNT_X, CHUNK_COUNT_Z] at h; omega⟩,
          ⟨chunkZ.toNat, by simp only [CHUNK_COUNT_X, CHUNK_COUNT_Z] at h; omega⟩)

/-! ## World.cpp: block access -/

/-- `OptimizedWorld::GetBlock` -/
def OptimizedWorld.GetBlock (w : OptimizedWorld) (worldPos : Vector3) : Block :=
  let x : Int := ⌊worldPos.x⌋
  let y : Int := ⌊worldPos.y⌋
  let z : Int := ⌊worldPos.z⌋
  if y < 0 ∨ y ≥ WORLD_HEIGHT then ⟨BLOCK_AIR⟩
  else
    match GetChunk x z with
    | none => ⟨BLOCK_AIR⟩
    | some (cx, cz) =>
      let (localX, localY, localZ) := WorldToLocalPos x y z
      (w.chunks cx cz).GetBlock localX localY localZ

/-- `OptimizedWorld::SetBlock` -/
def OptimizedWorld.SetBlock (w : OptimizedWorld) (worldPos : Vector3) (block : Block) :
    OptimizedWorld :=
  let x : Int := ⌊worldPos.x⌋
  let y : Int := ⌊worldPos.y⌋
  let z : Int := ⌊worldPos.z⌋
  if y < 0 ∨ y ≥ WORLD_HEIGHT then w
  else
    match GetChunk x z with
    | none => w
    | some (cx, cz) =>
      let (localX, localY, localZ) := WorldToLocalPos x y z
      { w with
        chunks := Function.update w.chunks cx
          (Function.update (w.chunks cx) cz
            ((w.chunks cx cz).SetBlock localX localY localZ block))
        cacheDirty := true }

/-- `OptimizedWorld::PlaceBlock` -/
def OptimizedWorld.PlaceBlock (w : OptimizedWorld) (position : Vector3) (blockType : Int) :
    OptimizedWorld :=
  let blockPos : Vector3 :=
    ⟨(⌊position.x⌋ : Int), (⌊position.y⌋ : Int), (⌊position.z⌋ : Int)⟩
  w.SetBlock blockPos ⟨toUChar blockType⟩

/-- `OptimizedWorld::BreakBlock` -/
def OptimizedWorld.BreakBlock (w : OptimizedWorld) (position : Vector3) : OptimizedWorld :=
  let blockPos : Vector3 :=
    ⟨(⌊position.x⌋ : Int), (⌊position.y⌋ : Int), (⌊position.z⌋ : Int)⟩
  w.SetBlock blockPos ⟨BLOCK_AIR⟩

/-- `OptimizedWorld::IsBlockAt` -/
def OptimizedWorld.IsBlockAt (w : OptimizedWorld) (position : Vector3) : Bool :=
  (w.GetBlock position).IsSolid

/-- `OptimizedWorld::GetWorldSize` -/
def GetWorldSize : Int := CHUNK_COUNT_X * CHUNK_SIZE

/-! ## World.cpp: loops -/

/-- The values `lo, lo + 1, ..., hi` taken by `i` in `for (int i = lo; i <= hi; i++)`. -/
def intRange (lo hi : Int) : List Int :=
  (List.range (hi + 1 - lo).toNat).map (fun (i : Nat) => lo + (i : Int))

/-- A loop whose body appends entries to a vector and may fail: the entries appended over
all iterations, in order, or `none` once an iteration fails. -/
def pushLoop {α β : Type} (body : α → Option (List β)) : List α → Option (List β)
  | [] => some []
  | a :: rest =>
    match body a with
    | none => none
    | some es =>
      match pushLoop body rest with
      | none => none
      | some more => some (es ++ more)

/-- The cast `(int)f` of a `float`: truncation toward zero. -/
def truncToInt (f : ℚ) : Int := if 0 ≤ f then ⌊f⌋ else ⌈f⌉

/-! ## World.cpp: visible-block cache -/

/-- The body of the innermost loop of `OptimizedWorld::UpdateVisibleBlocks` for the cell
`(x, y, z)`: the entries it pushes. -/
def visibleCell (w : OptimizedWorld) (x z y : Int) : Option (List (Vector3 × Color × Bool)) :=
  let pos : Vector3 := ⟨(x : ℚ) + 1 / 2, (y : ℚ) + 1 / 2, (z : ℚ) + 1 / 2⟩
  let block := w.GetBlock ⟨(x : ℚ), (y : ℚ), (z : ℚ)⟩
  if block.type = BLOCK_AIR then some []
  else
    let visible :=
      (w.GetBlock ⟨(x : ℚ) + 1, (y : ℚ), (z : ℚ)⟩).IsTransparent ||
      (w.GetBlock ⟨(x : ℚ) - 1, (y : ℚ), (z : ℚ)⟩).IsTransparent ||
      (w.GetBlock ⟨(x : ℚ), (y : ℚ) + 1, (z : ℚ)⟩).IsTransparent ||
      (w.GetBlock ⟨(x : ℚ), (y : ℚ) - 1, (z : ℚ)⟩).IsTransparent ||
      (w.GetBlock ⟨(x : ℚ), (y : ℚ), (z : ℚ) + 1⟩).IsTransparent ||
      (w.GetBlock ⟨(x : ℚ), (y : ℚ), (z : ℚ) - 1⟩).IsTransparent
    if visible then
      match block.GetColor with
      | none => none
      | some color => some [(pos, color, block.type == BLOCK_WATER)]
    else some []

/-- The three nested loops of `OptimizedWorld::UpdateVisibleBlocks`: the list rebuilt for
the player position `playerPos` from the blocks of `w`. -/
def scanVisible (w : OptimizedWorld) (playerPos : Vector3) :
    Option (List (Vector3 × Color × Bool)) :=
  let worldSize := GetWorldSize
  let renderDistance : Int := 24
  let minX := max 0 (truncToInt playerPos.x - renderDistance)
  let maxX := min (worldSize - 1) (truncToInt playerPos.x + renderDistance)
  let minZ := max 0 (truncToInt playerPos.z - renderDistance)
  let maxZ := min (worldSize - 1) (truncToInt playerPos.z + renderDistance)
  pushLoop (fun x =>
    pushLoop (fun z =>
      pushLoop (fun y => visibleCell w x z y) (intRange 0 (WORLD_HEIGHT - 1)))
      (intRange minZ maxZ))
    (intRange minX maxX)

/-- `OptimizedWorld::UpdateVisibleBlocks` -/
def OptimizedWorld.UpdateVisibleBlocks (w : OptimizedWorld) (playerPos : Vector3) :
    Option OptimizedWorld :=
  if !w.cacheDirty then some w
  else
    match scanVisible w playerPos with
    | none => none
    | some entries => some { w with visibleBlocks := entries, cacheDirty := false }

/-- `OptimizedWorld::Update` -/
def OptimizedWorld.Update (w : OptimizedWorld) (playerPos : Vector3) : Option OptimizedWorld :=
  match w.UpdateVisibleBlocks playerPos with
  | none => none
  | some w1 =>
    some { w1 with
      chunks := fun i j =>
        if (w1.chunks i j).dirty then (w1.chunks i j).GenerateMesh else w1.chunks i j }

/-! ## World.cpp: terrain generation

`GetNoise` is built from `sinf` and `cosf`; it enters as the parameter `noise`.
`rand` is the sequence of values `rand()` returns after `srand(seed)`; the number of
draws made so far is threaded through. -/

/-- `OptimizedWorld::AddTree`.  The test `sqrtf(dx*dx + dz*dz + dy*dy) <= radius` on small
integers is the test `dx*dx + dz*dz + dy*dy <= radius*radius`. -/
def OptimizedWorld.AddTree (w : OptimizedWorld) (rand : Nat → Nat) (drawn : Nat)
    (worldX worldY worldZ : Int) : OptimizedWorld × Nat :=
  let trunkHeight : Int := 3 + ((rand drawn % 3 : Nat) : Int)
  let w1 := (intRange 0 (trunkHeight - 1)).foldl
    (fun acc i => acc.SetBlock (Vector3.ofInt worldX (worldY + i) worldZ) ⟨BLOCK_WOOD⟩) w
  let leavesStart := worldY + trunkHeight - 1
  let w2 := (intRange 0 2).foldl
    (fun acc dy =>
      let radius : Int := if dy = 0 then 2 else if dy = 1 then 3 else 2
      (intRange (-radius) radius).foldl
        (fun acc dx =>
          (intRange (-radius) radius).foldl
            (fun acc dz =>
              if dx * dx + dz * dz + dy * dy ≤ radius * radius then
                acc.SetBlock (Vector3.ofInt (worldX + dx) (leavesStart + dy) (worldZ + dz))
                  ⟨BLOCK_LEAVES⟩
              else acc)
            acc)
        acc)
    w1
  (w2, drawn + 1)

/-- The body of the fill loop of `OptimizedWorld::GenerateTerrain` for the cell
`(x, y, z)` of a column of height `height`. -/
def fillCell (w : OptimizedWorld) (x z height y : Int) : OptimizedWorld :=
  let pos := Vector3.ofInt x y z
  if y > height then w.SetBlock pos ⟨BLOCK_AIR⟩
  else if y = height then
    if height < 22 then w.SetBlock pos ⟨BLOCK_SAND⟩
    else if height > 30 then w.SetBlock pos ⟨BLOCK_STONE⟩
    else w.SetBlock pos ⟨BLOCK_GRASS⟩
  else if y > height - 4 then w.SetBlock pos ⟨BLOCK_DIRT⟩
  else w.SetBlock pos ⟨BLOCK_STONE⟩

/-- The body of the water loop of `OptimizedWorld::GenerateTerrain`. -/
def waterCell (w : OptimizedWorld) (x z height y : Int) : OptimizedWorld :=
  let pos := Vector3.ofInt x y z
  if y < height ∧ (w.GetBlock pos).type = BLOCK_AIR then w.SetBlock pos ⟨BLOCK_WATER⟩
  else w

/-- The body of the two outer loops of `OptimizedWorld::GenerateTerrain` for the column
`(x, z)`: fill, tree, water. -/
def generateColumn (noise : ℚ → ℚ → ℚ) (rand : Nat → Nat) (st : OptimizedWorld × Nat)
    (x z : Int) : OptimizedWorld × Nat :=
  let height : Int := 20 + truncToInt (noise ((x : ℚ) * (5 / 100)) ((z : ℚ) * (5 / 100)) * 15)
  let w1 := (intRange 0 (WORLD_HEIGHT - 1)).foldl (fun acc y => fillCell acc x z height y) st.1
  let st2 : OptimizedWorld × Nat :=
    if height ≥ 22 ∧ height ≤ 30 then
      if rand st.2 % 100 < 8 then w1.AddTree rand (st.2 + 1) x (height + 1) z
      else (w1, st.2 + 1)
    else (w1, st.2)
  ((intRange 0 15).foldl (fun acc y => waterCell acc x z height y) st2.1, st2.2)

/-- `OptimizedWorld::GenerateTerrain` -/
def OptimizedWorld.GenerateTerrain (noise : ℚ → ℚ → ℚ) (rand : Nat → Nat)
    (w : OptimizedWorld) : OptimizedWorld :=
  let worldSize := GetWorldSize
  let st := (intRange 0 (worldSize - 1)).foldl
    (fun acc x =>
      (intRange 0 (worldSize - 1)).foldl (fun acc z => generateColumn noise rand acc x z) acc)
    (w, 0)
  { st.1 with cacheDirty := true }

/-- The state of `OptimizedWorld::OptimizedWorld` before it calls `GenerateTerrain`: every
chunk freshly constructed. -/
def OptimizedWorld.init (worldSeed : Int) : OptimizedWorld :=
  { chunks := fun x z => Chunk.new (x.val : Int) (z.val : Int)
    seed := worldSeed
    visibleBlocks := []
    cacheDirty := true }

/-- `OptimizedWorld::OptimizedWorld(int worldSeed)`; `rand` is the sequence `srand(seed)`
selects. -/
def OptimizedWorld.new (noise : ℚ → ℚ → ℚ) (rand : Nat → Nat) (worldSeed : Int) :
    OptimizedWorld :=
  OptimizedWorld.GenerateTerrain noise rand (OptimizedWorld.init worldSeed)

/-! ## raymath

Library functions the controller calls; their code is raymath's, outside the repository. -/

/-- raymath `Vector3Equals`: componentwise comparison up to `EPSILON = 0.000001f`, scaled
by the larger magnitude. -/
def Vector3Equals (p q : Vector3) : Bool :=
  decide (|p.x - q.x| ≤ (1 / 1000000) * max 1 (max |p.x| |q.x|)) &&
  decide (|p.y - q.y| ≤ (1 / 1000000) * max 1 (max |p.y| |q.y|)) &&
  decide (|p.z - q.z| ≤ (1 / 1000000) * max 1 (max |p.z| |q.z|))

/-- raymath `Vector3DistanceSqr`.  `Vector3Distance(a, b) > d` for `d ≥ 0` is the test
`Vector3DistanceSqr a b > d * d`. -/
def Vector3DistanceSqr (v1 v2 : Vector3) : ℚ :=
  (v2.x - v1.x) * (v2.x - v1.x) + (v2.y - v1.y) * (v2.y - v1.y) +
    (v2.z - v1.z) * (v2.z - v1.z)

/-! ## Binary32 addition

The C++ type `float` is IEEE 754 binary32: 24 significant bits, normal exponents from -126
up.  The sum of two `float`s is the exact sum rounded to the nearest binary32 value, a tie
going to the value with even significand.  Sums beyond the largest finite value (about
`3.4e38`) are not modelled. -/

/-- The integer nearest to `x`, the even one of the two when `x` lies halfway. -/
def roundEven (x : ℚ) : Int :=
  let f : Int := ⌊x⌋
  if x - f < 1 / 2 then f
  else if x - f > 1 / 2 then f + 1
  else if f % 2 = 0 then f else f + 1

/-- The binary exponent of the binary32 values around `x ≠ 0`: `e` with
`2 ^ e ≤ |x| < 2 ^ (e + 1)`, and -126 for the subnormal range below `2 ^ (-126)`. -/
def float32Exponent (x : ℚ) : Int := max (Int.log 2 |x|) (-126)

/-- The binary32 value nearest to `x`, ties to even: around `x` the binary32 values are the
integer multiples of `2 ^ (e - 23)`, `e` the exponent of `x`. -/
def roundF32 (x : ℚ) : ℚ :=
  if x = 0 then 0
  else
    (roundEven (x / (2 : ℚ) ^ (float32Exponent x - 23)) : ℚ) *
      (2 : ℚ) ^ (float32Exponent x - 23)

/-- The `float` sum `a + b`. -/
def fadd32 (a b : ℚ) : ℚ := roundF32 (a + b)

/-! ## Character.hpp / Character.cpp: block interaction

The controller fields the interaction code reads or writes.  The movement part of
`HandleInput` (mouse look, keys, jump, flying), `UpdateCamera`, `UpdatePhysics` and
`UpdateCameraBobbing` read and write position, velocity, camera and movement flags only;
they call no world mutator and touch no break field.  Of their effect only the position
they leave is kept, as the frame input `moved`. -/

/-- The interaction fields of `class Character`, and `position`. -/
structure Character where
  position : Vector3
  selectedBlockType : Int
  reachDistance : ℚ
  breakProgress : ℚ
  breakTimer : ℚ
  isBreaking : Bool
  breakingBlock : Vector3

/-- `Character::Character`.  The constructor does not initialise `breakingBlock`; its
indeterminate value is the parameter `junk`. -/
def Character.new (startPos : Vector3) (junk : Vector3) : Character :=
  { position := startPos
    selectedBlockType := 1
    reachDistance := 6
    breakProgress := 0
    breakTimer := 0
    isBreaking := false
    breakingBlock := junk }

/-- The three out-parameters of a `Character::RaycastBlock` call that returns `true`. -/
structure RayHit where
  hitPos : Vector3
  normal : Vector3
  blockPos : Vector3

/-- What one frame reads from outside the interaction code: key and mouse state, the frame
time, the result `RaycastBlock` gives for this frame's camera as a function of the world
and of `maxDistance` (`none` when it returns `false`), and the position movement and
physics leave. -/
structure FrameInput where
  keyOne : Bool
  keyTwo : Bool
  keyThree : Bool
  keyFour : Bool
  keyFive : Bool
  leftDown : Bool
  leftReleased : Bool
  rightPressed : Bool
  frameTime : ℚ
  raycast : OptimizedWorld → ℚ → Option RayHit
  moved : Vector3

/-- A call the controller makes on the world through its pointer. -/
inductive WorldCall where
  | BreakBlock (position : Vector3)
  | PlaceBlock (position : Vector3) (blockType : Int)

/-- The controller together with the world it points to; `calls` records, oldest first,
the world mutators the controller has called. -/
structure Game where
  character : Character
  world : OptimizedWorld
  calls : List WorldCall

/-- `world->BreakBlock(position)` -/
def Game.BreakBlock (g : Game) (position : Vector3) : Game :=
  { g with
    world := g.world.BreakBlock position
    calls := g.calls ++ [WorldCall.BreakBlock position] }

/-- `world->PlaceBlock(position, blockType)` -/
def Game.PlaceBlock (g : Game) (position : Vector3) (blockType : Int) : Game :=
  { g with
    world := g.world.PlaceBlock position blockType
    calls := g.calls ++ [WorldCall.PlaceBlock position blockType] }

/-- `Character::HandleInput`, block selection. -/
def Character.selectBlock (c : Character) (inp : FrameInput) : Character :=
  let c1 := if inp.keyOne then { c with selectedBlockType := 1 } else c
  let c2 := if inp.keyTwo then { c1 with selectedBlockType := 2 } else c1
  let c3 := if inp.keyThree then { c2 with selectedBlockType := 3 } else c2
  let c4 := if inp.keyFour then { c3 with selectedBlockType := 4 } else c3
  if inp.keyFive then { c4 with selectedBlockType := 5 } else c4

/-- `Character::HandleInput`, the left mouse button. -/
def Game.handleBreakInput (g : Game) (inp : FrameInput) : Game :=
  let c := g.character
  if inp.leftDown then
    match inp.raycast g.world c.reachDistance with
    | some hit =>
      if !c.isBreaking || !Vector3Equals c.breakingBlock hit.blockPos then
        { g with character :=
            { c with isBreaking := true, breakingBlock := hit.blockPos, breakTimer := 0 } }
      else g
    | none =>
      { g with character := { c with isBreaking := false, breakProgress := 0 } }
  else if inp.leftReleased then
    let g1 := if c.isBreaking && decide (c.breakProgress ≥ 1) then g.BreakBlock c.breakingBlock
      else g
    { g1 with character :=
        { c with isBreaking := false, breakProgress := 0, breakTimer := 0 } }
  else g

/-- `Character::HandleInput`, the right mouse button. -/
def Game.handlePlaceInput (g : Game) (inp : FrameInput) : Game :=
  let c := g.character
  if inp.rightPressed then
    match inp.raycast g.world c.reachDistance with
    | some hit =>
      let placePos : Vector3 :=
        ⟨hit.blockPos.x + hit.normal.x, hit.blockPos.y + hit.normal.y,
          hit.blockPos.z + hit.normal.z⟩
      let playerPos := c.position
      if Vector3DistanceSqr placePos playerPos > (3 / 2) * (3 / 2) then
        g.PlaceBlock placePos c.selectedBlockType
      else g
    | none => g
  else g

/-- `Character::HandleInput`, from block selection on. -/
def Game.HandleInput (g : Game) (inp : FrameInput) : Game :=
  let g1 := { g with character := g.character.selectBlock inp }
  (g1.handleBreakInput inp).handlePlaceInput inp

/-- `Character::Update`.  `breakTimer += GetFrameTime()` is a `float` addition. -/
def Game.Update (g : Game) (inp : FrameInput) : Game :=
  let g1 := g.HandleInput inp
  let g2 := { g1 with character := { g1.character with position := inp.moved } }
  let c := g2.character
  if c.isBreaking then
    let breakTimer := fadd32 c.breakTimer inp.frameTime
    let breakProgress := breakTimer / 1
    if breakTimer ≥ 1 then
      let g3 := g2.BreakBlock c.breakingBlock
      { g3 with character :=
          { c with isBreaking := false, breakProgress := 0, breakTimer := 0 } }
    else
      { g2 with character := { c with breakTimer := breakTimer, breakProgress := breakProgress } }
  else g2

/-- The frames `inputs` played in order. -/
def Game.run (g : Game) (inputs : List FrameInput) : Game :=
  inputs.foldl Game.Update g

/-- Frame time accumulated over the first `n` frames of `inputs`, summed exactly. -/
def accumulated (inputs : List FrameInput) (n : Nat) : ℚ :=
  ((inputs.take n).map (fun inp => inp.frameTime)).sum

/-- The value a `float` timer holds after frame `n - 1` when it was 0 before frame `k` and
each of the frames `k .. n - 1` added its frame time to it with `+=`. -/
def timerAfter (inputs : List FrameInput) (k n : Nat) : ℚ :=
  (((inputs.take n).drop k).map (fun inp => inp.frameTime)).foldl fadd32 0

/-- The `BreakBlock` calls among `calls`, in order. -/
def breakCalls (calls : List WorldCall) : List Vector3 :=
  calls.filterMap (fun c =>
    match c with
    | WorldCall.BreakBlock p => some p
    | WorldCall.PlaceBlock _ _ => none)

/-- States of controller and world the program can be in at a frame boundary: a controller
freshly constructed on some world, then any number of `Character::Update` calls and
`OptimizedWorld::Update` calls. -/
inductive Game.Reachable : Game → Prop where
  | construct (w : OptimizedWorld) (startPos junk : Vector3) :
      Game.Reachable ⟨Character.new startPos junk, w, []⟩
  | update (g : Game) (inp : FrameInput) :
      Game.Reachable g → Game.Reachable (g.Update inp)
  | worldUpdate (g : Game) (playerPos : Vector3) (w1 : OptimizedWorld) :
      Game.Reachable g → g.world.Update playerPos = some w1 →
      Game.Reachable { g with world := w1 }

/-! ## Vocabulary of the statements -/

/-- In-bounds integer block coordinates: each of `x`, `y`, `z` in `0..63`. -/
def InWorld (x y z : Int) : Prop :=
  0 ≤ x ∧ x < 64 ∧ 0 ≤ y ∧ y < 64 ∧ 0 ≤ z ∧ z < 64

instance (x y z : Int) : Decidable (InWorld x y z) := by
  unfold InWorld; infer_instance

/-- Centre of the cell `(x, y, z)`. -/
def cellCenter (x y z : Int) : Vector3 :=
  ⟨(x : ℚ) + 1 / 2, (y : ℚ) + 1 / 2, (z : ℚ) + 1 / 2⟩

/-- The window of columns around the player: `x` and `z` within 24 of the player's
truncated coordinates, clamped to `0..63`. -/
def InWindow (playerPos : Vector3) (x z : Int) : Prop :=
  max 0 (truncToInt playerPos.x - 24) ≤ x ∧ x ≤ min 63 (truncToInt playerPos.x + 24) ∧
  max 0 (truncToInt playerPos.z - 24) ≤ z ∧ z ≤ min 63 (truncToInt playerPos.z + 24)

instance (playerPos : Vector3) (x z : Int) : Decidable (InWindow playerPos x z) := by
  unfold InWindow; infer_instance

/-- The cell `(x, y, z)` is transparent: outside the world, or AIR, LEAVES or WATER. -/
def TransparentAt (w : OptimizedWorld) (x y z : Int) : Prop :=
  ¬ InWorld x y z ∨
  (w.GetBlock (Vector3.ofInt x y z)).type = BLOCK_AIR ∨
  (w.GetBlock (Vector3.ofInt x y z)).type = BLOCK_LEAVES ∨
  (w.GetBlock (Vector3.ofInt x y z)).type = BLOCK_WATER

instance (w : OptimizedWorld) (x y z : Int) : Decidable (TransparentAt w x y z) := by
  unfold TransparentAt; infer_instance

/-- At least one of the six axis neighbours of `(x, y, z)` is transparent. -/
def Exposed (w : OptimizedWorld) (x y z : Int) : Prop :=
  TransparentAt w (x + 1) y z ∨ TransparentAt w (x - 1) y z ∨
  TransparentAt w x (y + 1) z ∨ TransparentAt w x (y - 1) z ∨
  TransparentAt w x y (z + 1) ∨ TransparentAt w x y (z - 1)

instance (w : OptimizedWorld) (x y z : Int) : Decidable (Exposed w x y z) := by
  unfold Exposed; infer_instance

/-- The cell `(x, y, z)` belongs in the cache rebuilt for `playerPos`: in the window, `y`
in `0..63`, not AIR, and exposed. -/
def Shown (w : OptimizedWorld) (playerPos : Vector3) (x y z : Int) : Prop :=
  InWindow playerPos x z ∧ 0 ≤ y ∧ y < 64 ∧
  (w.GetBlock (Vector3.ofInt x y z)).type ≠ BLOCK_AIR ∧ Exposed w x y z

instance (w : OptimizedWorld) (playerPos : Vector3) (x y z : Int) :
    Decidable (Shown w playerPos x y z) := by
  unfold Shown; infer_instance

/-- Every stored block of the world has a type below `BLOCK_COUNT`. -/
def AllTypesValid (w : OptimizedWorld) : Prop :=
  ∀ (i j : Fin 4) (k : Fin CHUNK_CELLS), ((w.chunks i j).blocks k).type < BLOCK_COUNT

instance (w : OptimizedWorld) : Decidable (AllTypesValid w) := by
  unfold AllTypesValid; infer_instance

/-- The entries of all cells of the window in loop order, a cell whose body fails
contributing none. -/
def windowEntries (w : OptimizedWorld) (playerPos : Vector3) : List (Vector3 × Color × Bool) :=
  (intRange (max 0 (truncToInt playerPos.x - 24)) (min 63 (truncToInt playerPos.x + 24))).flatMap
    (fun x =>
      (intRange (max 0 (truncToInt playerPos.z - 24))
        (min 63 (truncToInt playerPos.z + 24))).flatMap
        (fun z => (intRange 0 63).flatMap (fun y => (visibleCell w x z y).getD [])))

/-- World states the public operations reach from construction.  The second component
is the player position of the last call of `Update` that rebuilt the cache, `none` when
there has been none. -/
inductive OptimizedWorld.Reach : OptimizedWorld → Option Vector3 → Prop where
  | construct (noise : ℚ → ℚ → ℚ) (rand : Nat → Nat) (worldSeed : Int) :
      OptimizedWorld.Reach (OptimizedWorld.new noise rand worldSeed) none
  | setBlock (w : OptimizedWorld) (last : Option Vector3) (p : Vector3) (b : Block) :
      OptimizedWorld.Reach w last → OptimizedWorld.Reach (w.SetBlock p b) last
  | placeBlock (w : OptimizedWorld) (last : Option Vector3) (p : Vector3) (t : Int) :
      OptimizedWorld.Reach w last → OptimizedWorld.Reach (w.PlaceBlock p t) last
  | breakBlock (w : OptimizedWorld) (last : Option Vector3) (p : Vector3) :
      OptimizedWorld.Reach w last → OptimizedWorld.Reach (w.BreakBlock p) last
  | update (w : OptimizedWorld) (last : Option Vector3) (q : Vector3) (w1 : OptimizedWorld) :
      OptimizedWorld.Reach w last → w.Update q = some w1 →
      OptimizedWorld.Reach w1 (if w.cacheDirty then some q else last)

/-- World states reached from construction by `SetBlock`, `PlaceBlock` and `BreakBlock`
calls whose block argument is one of the eight block types. -/
inductive OptimizedWorld.ReachValid : OptimizedWorld → Prop where
  | construct (noise : ℚ → ℚ → ℚ) (rand : Nat → Nat) (worldSeed : Int) :
      OptimizedWorld.ReachValid (OptimizedWorld.new noise rand worldSeed)
  | setBlock (w : OptimizedWorld) (p : Vector3) (b : Block) :
      OptimizedWorld.ReachValid w → b.type < BLOCK_COUNT →
      OptimizedWorld.ReachValid (w.SetBlock p b)
  | placeBlock (w : OptimizedWorld) (p : Vector3) (t : Int) :
      OptimizedWorld.ReachValid w → toUChar t < BLOCK_COUNT →
      OptimizedWorld.ReachValid (w.PlaceBlock p t)
  | breakBlock (w : OptimizedWorld) (p : Vector3) :
      OptimizedWorld.ReachValid w → OptimizedWorld.ReachValid (w.BreakBlock p)

/-- In each of the frames `0..n` of `inputs`, played from `g0`, the primary action is held
and the raycast for that frame, on the world as it then is, hits the block `target`. -/
def HeldOn (g0 : Game) (target : Vector3) (inputs : List FrameInput) (n : Nat) : Prop :=
  ∀ k inp, k ≤ n → inputs[k]? = some inp →
    inp.leftDown = true ∧
    ∃ hit, inp.raycast (g0.run (inputs.take k)).world
        (g0.run (inputs.take k)).character.reachDistance = some hit ∧
      hit.blockPos = target

/-- None of the frames `0..n` of `inputs` has a place action. -/
def NoPlace (inputs : List FrameInput) (n : Nat) : Prop :=
  ∀ k inp, k ≤ n → inputs[k]? = some inp → inp.rightPressed = false

instance (inputs : List FrameInput) (n : Nat) : Decidable (NoPlace inputs n) :=
  decidable_of_iff (∀ k, k < n + 1 → ∀ inp, inputs[k]? = some inp → inp.rightPressed = false)
    ⟨fun h k inp hk hg => h k (Nat.lt_succ_of_le hk) inp hg,
      fun h k hk inp hg => h k inp (Nat.le_of_lt_succ hk) hg⟩

/-- A sample frame: the primary action held for 3/8 of a second, the raycast hitting the
top face of the block `(30, 20, 30)`. -/
def sampleHeldFrame : FrameInput :=
  { keyOne := false, keyTwo := false, keyThree := false, keyFour := false, keyFive := false
    leftDown := true
    leftReleased := false
    rightPressed := false
    frameTime := 3 / 8
    raycast := fun _ _ => some ⟨⟨30 + 1 / 2, 20 + 9 / 10, 30 + 1 / 2⟩, ⟨0, 1, 0⟩, ⟨30, 20, 30⟩⟩
    moved := ⟨32, 40, 32⟩ }

/-- A sample frame: the primary action released. -/
def sampleReleaseFrame : FrameInput :=
  { sampleHeldFrame with leftDown := false, leftReleased := true, frameTime := 1 / 64 }

/-- A sample start of the game: the controller constructed at `(32, 40, 32)` on a freshly
generated flat world. -/
def sampleGame : Game :=
  ⟨Character.new ⟨32, 40, 32⟩ ⟨0, 0, 0⟩, OptimizedWorld.new (fun _ _ => 0) (fun _ => 0) 1337, []⟩

/-! ## raymath: vector arithmetic -/

/-- raymath `Vector3Add`. -/
def Vector3Add (v1 v2 : Vector3) : Vector3 := ⟨v1.x + v2.x, v1.y + v2.y, v1.z + v2.z⟩

/-- raymath `Vector3Subtract`. -/
def Vector3Subtract (v1 v2 : Vector3) : Vector3 := ⟨v1.x - v2.x, v1.y - v2.y, v1.z - v2.z⟩

/-- raymath `Vector3Scale`. -/
def Vector3Scale (v : Vector3) (scalar : ℚ) : Vector3 :=
  ⟨v.x * scalar, v.y * scalar, v.z * scalar⟩

/-! ## Character.cpp: RaycastBlock

`rayStart` is `camera.position` and `rayDir` the result of `GetForwardVector` (built from
`cosf` and `sinf`); `collisionHit` is the field `hit` of the result of raylib's
`GetRayCollisionBox` on the world's bounding box. -/

/-- The face selection of `Character::RaycastBlock`: the normal chosen from the offset
`diff` of the hit point from the block centre. -/
def hitNormal (diff : Vector3) : Vector3 :=
  let absX := |diff.x|
  let absY := |diff.y|
  let absZ := |diff.z|
  if absX > absY ∧ absX > absZ then
    ⟨if diff.x > 0 then 1 else -1, 0, 0⟩
  else if absY > absX ∧ absY > absZ then
    ⟨0, if diff.y > 0 then 1 else -1, 0⟩
  else
    ⟨0, 0, if diff.z > 0 then 1 else -1⟩

/-- The constant `stepSize = 0.1f` of `Character::RaycastBlock`: the binary32 value
nearest to 0.1, `13421773 * 2 ^ (-27)`. -/
def stepSize : ℚ := 13421773 / 134217728

/-- The `while (traveled < maxDistance)` loop of `Character::RaycastBlock`, entered with
the given value of `traveled`; `traveled += stepSize` is a `float` addition.  `fuel` bounds
the number of iterations: the result is `none` when the loop has not ended after `fuel`
iterations (once `traveled` is so large that adding `0.1f` rounds back to it, the sum stops
growing), `some none` is the `return false` after the loop, and `some (some hit)` is the
`return true` with its three out-parameters. -/
def RaycastBlock.march (w : OptimizedWorld) (rayStart rayDir : Vector3) (maxDistance : ℚ) :
    Nat → ℚ → Option (Option RayHit)
  | 0, _ => none
  | fuel + 1, traveled =>
    if traveled < maxDistance then
      let currentPos := Vector3Add rayStart (Vector3Scale rayDir traveled)
      let checkPos : Vector3 :=
        ⟨(⌊currentPos.x⌋ : Int), (⌊currentPos.y⌋ : Int), (⌊currentPos.z⌋ : Int)⟩
      if w.IsBlockAt checkPos then
        let blockCenter := Vector3Add checkPos ⟨1 / 2, 1 / 2, 1 / 2⟩
        let diff := Vector3Subtract currentPos blockCenter
        some (some ⟨currentPos, hitNormal diff, checkPos⟩)
      else
        RaycastBlock.march w rayStart rayDir maxDistance fuel (fadd32 traveled stepSize)
    else some none

/-- `Character::RaycastBlock`, its loop run for at most `fuel` iterations. -/
def RaycastBlock (w : OptimizedWorld) (rayStart rayDir : Vector3) (collisionHit : Bool)
    (maxDistance : ℚ) (fuel : Nat) : Option (Option RayHit) :=
  if collisionHit then RaycastBlock.march w rayStart rayDir maxDistance fuel 0 else some none

/-! ## Character.cpp: collision and physics -/

/-- The fields of `class Character` that `CheckCollision`, `ResolveCollision` and
`UpdatePhysics` read or write. -/
structure Motion where
  position : Vector3
  velocity : Vector3
  size : Vector3
  gravity : ℚ
  isGrounded : Bool
  isFlying : Bool
  isJumping : Bool

/-- The values `Character::Character` gives these fields. -/
def Motion.new (startPos : Vector3) : Motion :=
  { position := startPos
    velocity := ⟨0, 0, 0⟩
    size := ⟨3 / 5, 9 / 5, 3 / 5⟩
    gravity := 20
    isGrounded := false
    isFlying := false
    isJumping := false }

/-- The nine `checkPoints` of `Character::CheckCollision`. -/
def Motion.checkPoints (m : Motion) (newPos : Vector3) : List Vector3 :=
  let halfSize := Vector3Scale m.size (1 / 2)
  let newBoxMin : Vector3 := ⟨newPos.x - halfSize.x, newPos.y, newPos.z - halfSize.z⟩
  let newBoxMax : Vector3 :=
    ⟨newPos.x + halfSize.x, newPos.y + m.size.y, newPos.z + halfSize.z⟩
  [ newBoxMin,
    ⟨newBoxMax.x, newBoxMin.y, newBoxMin.z⟩,
    ⟨newBoxMin.x, newBoxMin.y, newBoxMax.z⟩,
    ⟨newBoxMax.x, newBoxMin.y, newBoxMax.z⟩,
    ⟨newBoxMin.x, newBoxMax.y, newBoxMin.z⟩,
    ⟨newBoxMax.x, newBoxMax.y, newBoxMin.z⟩,
    ⟨newBoxMin.x, newBoxMax.y, newBoxMax.z⟩,
    newBoxMax,
    ⟨newPos.x, newPos.y + m.size.y / 2, newPos.z⟩ ]

/-- `Character::CheckCollision`; the `world` pointer is not null. -/
def Motion.CheckCollision (m : Motion) (w : OptimizedWorld) (newPos : Vector3) : Bool :=
  (m.checkPoints newPos).any (fun point => w.IsBlockAt point)

/-- The position `Character::ResolveCollision` holds in `resolvedPos` after its X and Z
tries. -/
def Motion.resolveXZ (m : Motion) (w : OptimizedWorld) (newPos : Vector3) : Vector3 :=
  let resolvedPos := m.position
  let testPosX : Vector3 := { resolvedPos with x := newPos.x }
  let resolvedPos : Vector3 :=
    if !m.CheckCollision w testPosX then { resolvedPos with x := newPos.x } else resolvedPos
  let testPosZ : Vector3 := { resolvedPos with z := newPos.z }
  if !m.CheckCollision w testPosZ then { resolvedPos with z := newPos.z } else resolvedPos

/-- Whether `Character::ResolveCollision` takes its ground-snap branch: the Y try collides
and `newPos.y` is below the current `y`. -/
def Motion.groundSnapTaken (m : Motion) (w : OptimizedWorld) (newPos : Vector3) : Bool :=
  let resolvedPos := m.resolveXZ w newPos
  let testPosY : Vector3 := { resolvedPos with y := newPos.y }
  m.CheckCollision w testPosY && decide (newPos.y < resolvedPos.y)

/-- `Character::ResolveCollision` -/
def Motion.ResolveCollision (m : Motion) (w : OptimizedWorld) (newPos : Vector3) : Vector3 :=
  let resolvedPos := m.resolveXZ w newPos
  let testPosY : Vector3 := { resolvedPos with y := newPos.y }
  if !m.CheckCollision w testPosY then { resolvedPos with y := newPos.y }
  else if newPos.y < resolvedPos.y then
    { resolvedPos with y := ((⌊newPos.y⌋ : Int) : ℚ) + 101 / 100 }
  else resolvedPos

/-- `Character::UpdatePhysics`, gravity: `velocity.y -= gravity * GetFrameTime()` unless
flying. -/
def Motion.applyGravity (m : Motion) (frameTime : ℚ) : Motion :=
  if !m.isFlying then
    { m with velocity := { m.velocity with y := m.velocity.y - m.gravity * frameTime } }
  else m

/-- `Character::UpdatePhysics`, the candidate position `newPos`: the position advanced by
velocity times frame time. -/
def Motion.candidate (m : Motion) (frameTime : ℚ) : Vector3 :=
  ⟨m.position.x + m.velocity.x * frameTime, m.position.y + m.velocity.y * frameTime,
    m.position.z + m.velocity.z * frameTime⟩

/-- `Character::UpdatePhysics`, the collision test on `newPos` and its two branches. -/
def Motion.moveTo (m : Motion) (w : OptimizedWorld) (newPos : Vector3) : Motion :=
  if m.CheckCollision w newPos then
    let resolvedPos := m.ResolveCollision w newPos
    let m1 : Motion := { m with position := resolvedPos }
    let belowPos : Vector3 := { m1.position with y := m1.position.y - 1 / 10 }
    let m2 : Motion :=
      if m1.CheckCollision w belowPos then
        { m1 with
          isGrounded := true, velocity := { m1.velocity with y := 0 }, isJumping := false }
      else { m1 with isGrounded := false }
    let m3 : Motion :=
      if |resolvedPos.x - newPos.x| > 1 / 100 then
        { m2 with velocity := { m2.velocity with x := 0 } }
      else m2
    if |resolvedPos.z - newPos.z| > 1 / 100 then
      { m3 with velocity := { m3.velocity with z := 0 } }
    else m3
  else
    { m with position := newPos, isGrounded := false }

/-- `Character::UpdatePhysics`, ground friction: horizontal velocity times `0.8f` when
grounded and not flying. -/
def Motion.applyFriction (m : Motion) : Motion :=
  if m.isGrounded && !m.isFlying then
    { m with velocity := { m.velocity with x := m.velocity.x * (4 / 5), z := m.velocity.z * (4 / 5) } }
  else m

/-- `Character::UpdatePhysics`, the fall safety net. -/
def Motion.fallReset (m : Motion) : Motion :=
  if m.position.y < -10 then
    { m with position := { m.position with y := 20 }, velocity := ⟨0, 0, 0⟩ }
  else m

/-- `Character::UpdatePhysics` -/
def Motion.UpdatePhysics (m : Motion) (w : OptimizedWorld) (frameTime : ℚ) : Motion :=
  let m1 := m.applyGravity frameTime
  let newPos := m1.candidate frameTime
  ((m1.moveTo w newPos).applyFriction).fallReset

/-! ## World.cpp: parts of terrain generation -/

/-- The fill loop of `OptimizedWorld::GenerateTerrain` for the column `(x, z)` of height
`height`: the loop over `y` that `generateColumn` runs first. -/
def fillColumn (w : OptimizedWorld) (x z height : Int) : OptimizedWorld :=
  (intRange 0 (WORLD_HEIGHT - 1)).foldl (fun acc y => fillCell acc x z height y) w

/-- The trunk height `OptimizedWorld::AddTree` draws: `3 + (rand() % 3)`. -/
def trunkHeightDrawn (rand : Nat → Nat) (drawn : Nat) : Int :=
  3 + ((rand drawn % 3 : Nat) : Int)

/-- The block the fill loop of `OptimizedWorld::GenerateTerrain` writes at height `y` of a
column of height `height`: the branches of `fillCell`, without the write. -/
def columnBlock (height y : Int) : Block :=
  if y > height then ⟨BLOCK_AIR⟩
  else if y = height then
    if height < 22 then ⟨BLOCK_SAND⟩
    else if height > 30 then ⟨BLOCK_STONE⟩
    else ⟨BLOCK_GRASS⟩
  else if y > height - 4 then ⟨BLOCK_DIRT⟩
  else ⟨BLOCK_STONE⟩

/-! ## Vocabulary and fixtures of the controller statements -/

/-- A sample frame: a place action whose raycast hits the top face of the block
`(31, 20, 32)`. -/
def samplePlaceFrame : FrameInput :=
  { keyOne := false, keyTwo := false, keyThree := false, keyFour := false, keyFive := false
    leftDown := false
    leftReleased := false
    rightPressed := true
    frameTime := 1 / 64
    raycast := fun _ _ => some ⟨⟨31 + 1 / 2, 20 + 9 / 10, 32 + 1 / 2⟩, ⟨0, 1, 0⟩, ⟨31, 20, 32⟩⟩
    moved := ⟨32 + 1 / 2, 21, 32 + 1 / 2⟩ }

/-- A sample state: the controller standing at `(32.5, 21, 32.5)` on a freshly generated
flat world, block type 1 selected. -/
def sampleStanding : Game :=
  ⟨Character.new ⟨32 + 1 / 2, 21, 32 + 1 / 2⟩ ⟨0, 0, 0⟩,
    OptimizedWorld.new (fun _ _ => 0) (fun _ => 0) 1337, []⟩

/-- The sample point of the ray at distance `t`. -/
def raySample (rayStart rayDir : Vector3) (t : ℚ) : Vector3 :=
  Vector3Add rayStart (Vector3Scale rayDir t)

/-- The vector of the three floors of a position, as `floorf` gives it. -/
def floorVec (p : Vector3) : Vector3 := ⟨(⌊p.x⌋ : Int), (⌊p.y⌋ : Int), (⌊p.z⌋ : Int)⟩

/-- The value of `traveled` at the start of iteration `n` of the loop of
`Character::RaycastBlock`: 0, then `stepSize` added `n` times with `+=`. -/
def traveledAt : Nat → ℚ
  | 0 => 0
  | n + 1 => fadd32 (traveledAt n) stepSize

/-- A fixture: the empty grid of chunks with one STONE block written at `(x, y, z)`. -/
def sampleBlockWorld (x y z : Int) : OptimizedWorld :=
  (OptimizedWorld.init 1337).SetBlock (Vector3.ofInt x y z) ⟨BLOCK_STONE⟩

/-- A sample start of the game: the controller constructed at `(32.5, 21, 30.5)`, so with
its eye at `(32.5, 22.6, 30.5)`, on a world whose only block is a STONE block at
`(30, 20, 30)`. -/
def sampleBlockGame : Game :=
  ⟨Character.new ⟨32 + 1 / 2, 21, 30 + 1 / 2⟩ ⟨0, 0, 0⟩, sampleBlockWorld 30 20 30, []⟩

/-- A sample frame: the primary action held for 3/8 of a second, the raycast hitting the
top face of the block `(30, 20, 30)` at `(30.5, 20.9, 30.5)`, the controller staying at
`(32.5, 21, 30.5)`. -/
def sampleNearFrame : FrameInput :=
  { sampleHeldFrame with moved := ⟨32 + 1 / 2, 21, 30 + 1 / 2⟩ }

/-- A sample frame: the primary action held for 3/8 of a second and the place action
pressed, the raycast hitting the top face of the block `(30, 20, 30)`. -/
def sampleHeldPlaceFrame : FrameInput := { sampleNearFrame with rightPressed := true }

/-- A sample frame: the primary action released and the place action pressed, the raycast
hitting the top face of the block `(30, 20, 30)`. -/
def sampleReleasePlaceFrame : FrameInput :=
  { sampleNearFrame with
    leftDown := false, leftReleased := true, rightPressed := true, frameTime := 1 / 64 }

/-- A sample state: the controller in the air at `(30.9, 21.95, 30.9)`, its feet inside
the cell `(30, 21, 30)`, above the only block of the world, at `(30, 20, 30)`. -/
def sampleAirborne : Game :=
  ⟨Character.new ⟨30 + 9 / 10, 21 + 19 / 20, 30 + 9 / 10⟩ ⟨0, 0, 0⟩,
    sampleBlockWorld 30 20 30, []⟩

/-- A sample frame: a place action whose raycast hits the top face of the block
`(30, 20, 30)`. -/
def sampleDownPlaceFrame : FrameInput :=
  { sampleHeldFrame with
    leftDown := false, rightPressed := true, frameTime := 1 / 64
    moved := ⟨30 + 9 / 10, 21 + 19 / 20, 30 + 9 / 10⟩ }

/-- A sample frame: the primary action held for half a second on the block
`(30, 20, 30)`. -/
def sampleHalfFrame : FrameInput := { sampleNearFrame with frameTime := 1 / 2 }

/-- A sample frame: the primary action held on the block `(30, 20, 30)` for
`0.5 - 2 ^ (-25)` seconds, the largest binary32 value below one half. -/
def sampleShortHalfFrame : FrameInput :=
  { sampleNearFrame with frameTime := 1 / 2 - 1 / 33554432 }

/-- A sample frame: the primary action held on the block `(30, 20, 30)` for
`(float)(1.0 / 60)` second, the binary32 value nearest to 1/60 (it lies above 1/60). -/
def sampleSixtiethFrame : FrameInput :=
  { sampleNearFrame with frameTime := 8947849 / 536870912 }

/-- Sixty-one frames at 60 frames per second, the primary action held throughout. -/
def sixtyOneFrames : List FrameInput := List.replicate 61 sampleSixtiethFrame

/-! ## World.cpp: where a cell is stored -/

/-- The chunk and the index into its `blocks` that `OptimizedWorld::GetBlock` and
`OptimizedWorld::SetBlock` reach for the integer coordinates `(x, y, z)`: the height test,
`GetChunk`, `WorldToLocalPos`, then the index `(y * CHUNK_SIZE + z) * CHUNK_SIZE + x` of
`Chunk::GetBlock` / `Chunk::SetBlock` on the local coordinates; `none` when the height test
or the chunk lookup or the chunk's own bounds test refuses the coordinates. -/
def cellAddress (x y z : Int) : Option ((Fin 4 × Fin 4) × Int) :=
  if y < 0 ∨ y ≥ WORLD_HEIGHT then none
  else
    match GetChunk x z with
    | none => none
    | some c =>
      let (localX, localY, localZ) := WorldToLocalPos x y z
      if localX < 0 ∨ localX ≥ CHUNK_SIZE ∨ localY < 0 ∨ localY ≥ WORLD_HEIGHT ∨ localZ < 0 ∨
          localZ ≥ CHUNK_SIZE then none
      else some (c, (localY * CHUNK_SIZE + localZ) * CHUNK_SIZE + localX)

/-! ## World.cpp: the noise function

`OptimizedWorld::GetNoise` over any ordered field `R`, with `sinf` and `cosf` as
parameters: for `R = ℝ` they can be the real sine and cosine, for `R = ℚ` any rational
approximation.  The terrain definitions above take the resulting function on `ℚ` as their
parameter `noise`. -/

/-- `OptimizedWorld::GetNoise` -/
def GetNoise {R : Type} [Field R] (sinf cosf : R → R) (x z : R) : R :=
  let noise : R := 0
  let noise := noise + sinf (x * (1 / 10)) * cosf (z * (1 / 10)) * (1 / 2)
  let noise := noise + sinf (x * (3 / 10) + 1) * cosf (z * (3 / 10) + 1) * (1 / 4)
  let noise := noise + sinf (x * (9 / 10) + 2) * cosf (z * (9 / 10) + 2) * (1 / 8)
  (noise + 1) * (1 / 2)

/-- The cast `(int)f` over an ordered field with a floor: truncation toward zero. -/
def truncTo {R : Type} [LinearOrderedField R] [FloorRing R] (f : R) : Int :=
  if 0 ≤ f then ⌊f⌋ else ⌈f⌉

/-- The surface height `20 + (int)(noise * 15.0f)` that `OptimizedWorld::GenerateTerrain`
computes for the column `(x, z)`, with `noise = GetNoise(x * 0.05f, z * 0.05f)`. -/
def surfaceHeight {R : Type} [LinearOrderedField R] [FloorRing R] (sinf cosf : R → R)
    (x z : Int) : Int :=
  20 + truncTo (GetNoise sinf cosf ((x : R) * (5 / 100)) ((z : R) * (5 / 100)) * 15)

/-! ## World.cpp: the column passes of terrain generation -/

/-- The surface height `OptimizedWorld::GenerateTerrain` computes for the column `(x, z)`:
`20 + (int)(noise * 15.0f)` with `noise = GetNoise(x * 0.05f, z * 0.05f)`. -/
def columnHeight (noise : ℚ → ℚ → ℚ) (x z : Int) : Int :=
  20 + truncToInt (noise ((x : ℚ) * (5 / 100)) ((z : ℚ) * (5 / 100)) * 15)

/-- The body of the two outer loops of `OptimizedWorld::GenerateTerrain` for the column
`(x, z)` up to the water loop: the fill loop, then the tree. -/
def fillAndTree (noise : ℚ → ℚ → ℚ) (rand : Nat → Nat) (st : OptimizedWorld × Nat)
    (x z : Int) : OptimizedWorld × Nat :=
  let height : Int := columnHeight noise x z
  let w1 := fillColumn st.1 x z height
  if height ≥ 22 ∧ height ≤ 30 then
    if rand st.2 % 100 < 8 then w1.AddTree rand (st.2 + 1) x (height + 1) z
    else (w1, st.2 + 1)
  else (w1, st.2)

/-- The columns `(x, z)` in the order the two outer loops of
`OptimizedWorld::GenerateTerrain` visit them: `x` ascending, and `z` ascending within one
`x`. -/
def columnOrder : List (Int × Int) :=
  (intRange 0 (GetWorldSize - 1)).flatMap
    (fun x => (intRange 0 (GetWorldSize - 1)).map (fun z => (x, z)))

/-- The state of `OptimizedWorld::GenerateTerrain`, world and number of `rand()` draws
made, after the columns `cols` were processed in order from the state `st`. -/
def generateColumns (noise : ℚ → ℚ → ℚ) (rand : Nat → Nat) (st : OptimizedWorld × Nat)
    (cols : List (Int × Int)) : OptimizedWorld × Nat :=
  cols.foldl (fun acc c => generateColumn noise rand acc c.1 c.2) st

/-! ## Vocabulary of the terrain statements -/

/-- No stored block of the world is WATER. -/
def NoWater (w : OptimizedWorld) : Prop :=
  ∀ (i j : Fin 4) (k : Fin CHUNK_CELLS), ((w.chunks i j).blocks k).type ≠ BLOCK_WATER

instance (w : OptimizedWorld) : Decidable (NoWater w) := by
  unfold NoWater; infer_instance

/-- The cell `(qx, qy, qz)` is one the trunk loop of `AddTree(x, y, z)` stores WOOD in,
for the trunk height `t`. -/
def trunkCell (t x y z qx qy qz : Int) : Prop :=
  ∃ i ∈ intRange 0 (t - 1), InWorld x (y + i) z ∧ qx = x ∧ qy = y + i ∧ qz = z

/-- The cell `(qx, qy, qz)` is one the leaves loop of `AddTree(x, y, z)` stores LEAVES in,
for the trunk height `t`. -/
def leafCell (t x y z qx qy qz : Int) : Prop :=
  ∃ dy ∈ intRange 0 2,
    ∃ dx ∈ intRange (-(if dy = 0 then 2 else if dy = 1 then 3 else 2))
        (if dy = 0 then 2 else if dy = 1 then 3 else 2),
    ∃ dz ∈ intRange (-(if dy = 0 then 2 else if dy = 1 then 3 else 2))
        (if dy = 0 then 2 else if dy = 1 then 3 else 2),
      dx * dx + dz * dz + dy * dy ≤
          (if dy = 0 then 2 else if dy = 1 then 3 else 2) *
            (if dy = 0 then 2 else if dy = 1 then 3 else 2) ∧
        InWorld (x + dx) (y + t - 1 + dy) (z + dz) ∧
        qx = x + dx ∧ qy = y + t - 1 + dy ∧ qz = z + dz

instance (t x y z qx qy qz : Int) : Decidable (trunkCell t x y z qx qy qz) := by
  unfold trunkCell; infer_instance

instance (t x y z qx qy qz : Int) : Decidable (leafCell t x y z qx qy qz) := by
  unfold leafCell; infer_instance

/-- The tree `OptimizedWorld::GenerateTerrain` places at the column `(x, z)` when it
processes that column from the state `st` (world and number of `rand()` draws made): the
height is in `22..30`, the draw `rand() % 100` is below 8, and `(qx, qy, qz)` is a cell
the call `AddTree(x, height + 1, z)` stores WOOD or LEAVES in. -/
def treeStores (noise : ℚ → ℚ → ℚ) (rand : Nat → Nat) (st : OptimizedWorld × Nat)
    (x z qx qy qz : Int) : Prop :=
  22 ≤ columnHeight noise x z ∧ columnHeight noise x z ≤ 30 ∧ rand st.2 % 100 < 8 ∧
  (leafCell (trunkHeightDrawn rand (st.2 + 1)) x (columnHeight noise x z + 1) z qx qy qz ∨
    trunkCell (trunkHeightDrawn rand (st.2 + 1)) x (columnHeight noise x z + 1) z qx qy qz)

instance (noise : ℚ → ℚ → ℚ) (rand : Nat → Nat) (st : OptimizedWorld × Nat)
    (x z qx qy qz : Int) : Decidable (treeStores noise rand st x z qx qy qz) := by
  unfold treeStores; infer_instance

/-! ## Vocabulary of the break-timer statements -/

/-- The frame `inp`, played from `g`, acquires the target `p`: the primary action is held,
the raycast hits the block `p`, and the controller is idle or is breaking a block that
`Vector3Equals` tells apart from `p`. -/
def Acquires (g : Game) (inp : FrameInput) (p : Vector3) : Prop :=
  inp.leftDown = true ∧
  ∃ hit, inp.raycast g.world g.character.reachDistance = some hit ∧ hit.blockPos = p ∧
    (g.character.isBreaking = false ∨
      Vector3Equals g.character.breakingBlock hit.blockPos = false)

/-- The frame `inp`, played from `g`, keeps counting toward the target `p`: the primary
action is held and the raycast hits a block `Vector3Equals` does not tell apart from `p`;
or the button is neither down nor released in this frame, in which case `HandleInput` does
not touch the break fields (raylib reports a button that was down in the previous frame
and is not down now as released, so this does not happen while a block is being broken). -/
def KeepsTarget (g : Game) (inp : FrameInput) (p : Vector3) : Prop :=
  (inp.leftDown = true ∧
    ∃ hit, inp.raycast g.world g.character.reachDistance = some hit ∧
      Vector3Equals p hit.blockPos = true) ∨
  (inp.leftDown = false ∧ inp.leftReleased = false)

/-- Over the frames `k .. n - 1` of `inputs`, played from `g0`, time is counted toward the
target `p` from 0: frame `k` acquires `p` and each later frame keeps it. -/
def CountedOn (g0 : Game) (inputs : List FrameInput) (p : Vector3) (k n : Nat) : Prop :=
  (∃ inpk, inputs[k]? = some inpk ∧ Acquires (g0.run (inputs.take k)) inpk p) ∧
  ∀ i inpi, k < i → i < n → inputs[i]? = some inpi →
    KeepsTarget (g0.run (inputs.take i)) inpi p

/-! ## Truncating division by the chunk size -/

/-- Truncating division by 16 in terms of floor division. -/
theorem tdiv_chunk (x : Int) :
    Int.tdiv x 16 = if 0 ≤ x then x / 16 else -((-x) / 16) := by
  split
  · exact Int.tdiv_eq_ediv (by assumption) (by decide)
  · have h : x = -(-x) := by omega
    conv_lhs => rw [h]
    rw [Int.neg_tdiv, Int.tdiv_eq_ediv (by omega) (by decide)]

/-- Truncating remainder modulo 16 in terms of the floor remainder. -/
theorem tmod_chunk (x : Int) :
    Int.tmod x 16 = if 0 ≤ x then x % 16 else -((-x) % 16) := by
  rw [Int.tmod_def, tdiv_chunk]
  split <;> omega

/-- The chunk lookup misses exactly when `x` or `z` is at most -16 or at least 64. -/
theorem getChunk_eq_none {x z : Int} :
    GetChunk x z = none ↔ ¬ (-16 < x ∧ x < 64 ∧ -16 < z ∧ z < 64) := by
  unfold GetChunk WorldToChunkPos
  simp only [CHUNK_SIZE, CHUNK_COUNT_X, CHUNK_COUNT_Z, tdiv_chunk]
  split_ifs <;> simp <;> omega

/-- A chunk lookup that hits returns the truncated quotients, and both coordinates lie in `-15..63`. -/
theorem getChunk_eq_some {x z : Int} {cx cz : Fin 4} (h : GetChunk x z = some (cx, cz)) :
    (cx.val : Int) = Int.tdiv x 16 ∧ (cz.val : Int) = Int.tdiv z 16 ∧
      -16 < x ∧ x < 64 ∧ -16 < z ∧ z < 64 := by
  unfold GetChunk WorldToChunkPos at h
  simp only [CHUNK_SIZE, CHUNK_COUNT_X, CHUNK_COUNT_Z] at h
  split_ifs at h with hc
  simp only [Option.some.injEq, Prod.mk.injEq] at h
  obtain ⟨h1, h2⟩ := h
  subst h1 h2
  simp only [tdiv_chunk] at hc ⊢
  split_ifs at hc ⊢ <;> omega

/-- Within a chunk, a write at in-range local coordinates is read back. -/
theorem chunk_getBlock_setBlock_same (c : Chunk) (x y z : Int) (b : Block)
    (h : 0 ≤ x ∧ x < 16 ∧ 0 ≤ y ∧ y < 64 ∧ 0 ≤ z ∧ z < 16) :
    (c.SetBlock x y z b).GetBlock x y z = b := by
  have hb : ¬ (x < 0 ∨ x ≥ CHUNK_SIZE ∨ y < 0 ∨ y ≥ WORLD_HEIGHT ∨ z < 0 ∨ z ≥ CHUNK_SIZE) := by
    simp only [CHUNK_SIZE, WORLD_HEIGHT]; omega
  simp only [Chunk.SetBlock, Chunk.GetBlock, dif_neg hb, Function.update_same]

/-- Within a chunk, a write leaves every other cell, and every cell when it is out of range, as it was. -/
theorem chunk_getBlock_setBlock_other (c : Chunk) (x y z x' y' z' : Int) (b : Block)
    (h : ¬ ((0 ≤ x ∧ x < 16 ∧ 0 ≤ y ∧ y < 64 ∧ 0 ≤ z ∧ z < 16) ∧ x' = x ∧ y' = y ∧ z' = z)) :
    (c.SetBlock x y z b).GetBlock x' y' z' = c.GetBlock x' y' z' := by
  unfold Chunk.SetBlock
  by_cases hb : x < 0 ∨ x ≥ CHUNK_SIZE ∨ y < 0 ∨ y ≥ WORLD_HEIGHT ∨ z < 0 ∨ z ≥ CHUNK_SIZE
  · rw [dif_pos hb]
  · rw [dif_neg hb]
    unfold Chunk.GetBlock
    by_cases hb' : x' < 0 ∨ x' ≥ CHUNK_SIZE ∨ y' < 0 ∨ y' ≥ WORLD_HEIGHT ∨ z' < 0 ∨ z' ≥ CHUNK_SIZE
    · rw [dif_pos hb', dif_pos hb']
    · rw [dif_neg hb', dif_neg hb']
      apply Function.update_noteq
      simp only [Chunk.index, ne_eq, Fin.mk.injEq]
      simp only [CHUNK_SIZE, WORLD_HEIGHT] at hb hb' ⊢
      omega

/-- A world write whose floored position is in bounds is read back at every position with the same floor. -/
theorem world_getBlock_setBlock_same (w : OptimizedWorld) (p q : Vector3) (b : Block)
    (hp : InWorld ⌊p.x⌋ ⌊p.y⌋ ⌊p.z⌋)
    (hq : ⌊q.x⌋ = ⌊p.x⌋ ∧ ⌊q.y⌋ = ⌊p.y⌋ ∧ ⌊q.z⌋ = ⌊p.z⌋) :
    (w.SetBlock p b).GetBlock q = b := by
  unfold OptimizedWorld.SetBlock OptimizedWorld.GetBlock
  unfold InWorld at hp
  simp only [hq.1, hq.2.1, hq.2.2]
  generalize ⌊p.x⌋ = x at hp ⊢
  generalize ⌊p.y⌋ = y at hp ⊢
  generalize ⌊p.z⌋ = z at hp ⊢
  have hy : ¬ (y < 0 ∨ y ≥ WORLD_HEIGHT) := by simp only [WORLD_HEIGHT]; omega
  rw [if_neg hy, if_neg hy]
  cases hc : GetChunk x z with
  | none => exact absurd hp (by have := getChunk_eq_none.mp hc; omega)
  | some cc =>
    obtain ⟨cx, cz⟩ := cc
    simp only [hc, WorldToLocalPos, Function.update_same]
    apply chunk_getBlock_setBlock_same
    simp only [CHUNK_SIZE, tmod_chunk]
    split_ifs <;> omega

/-- A world write changes no read except at its own in-bounds cell. -/
theorem world_getBlock_setBlock_other (w : OptimizedWorld) (p q : Vector3) (b : Block)
    (h : ¬ (InWorld ⌊p.x⌋ ⌊p.y⌋ ⌊p.z⌋ ∧ ⌊q.x⌋ = ⌊p.x⌋ ∧ ⌊q.y⌋ = ⌊p.y⌋ ∧ ⌊q.z⌋ = ⌊p.z⌋)) :
    (w.SetBlock p b).GetBlock q = w.GetBlock q := by
  unfold OptimizedWorld.SetBlock
  unfold InWorld at h
  simp only []
  by_cases hy : ⌊p.y⌋ < 0 ∨ ⌊p.y⌋ ≥ WORLD_HEIGHT
  · rw [if_pos hy]
  · rw [if_neg hy]
    cases hc : GetChunk ⌊p.x⌋ ⌊p.z⌋ with
    | none => rfl
    | some cc =>
      obtain ⟨cx, cz⟩ := cc
      have hxz := getChunk_eq_some hc
      unfold OptimizedWorld.GetBlock
      simp only []
      generalize ⌊p.x⌋ = x at *
      generalize ⌊p.y⌋ = y at *
      generalize ⌊p.z⌋ = z at *
      generalize ⌊q.x⌋ = x' at *
      generalize ⌊q.y⌋ = y' at *
      generalize ⌊q.z⌋ = z' at *
      by_cases hy' : y' < 0 ∨ y' ≥ WORLD_HEIGHT
      · simp only [if_pos hy']
      · simp only [if_neg hy']
        cases hc' : GetChunk x' z' with
        | none => rfl
        | some cc' =>
          obtain ⟨cx', cz'⟩ := cc'
          have hxz' := getChunk_eq_some hc'
          simp only [WorldToLocalPos, Function.update_apply]
          simp only [WORLD_HEIGHT, CHUNK_SIZE, tdiv_chunk, tmod_chunk] at *
          by_cases ex : cx' = cx
          · by_cases ez : cz' = cz
            · subst ex ez
              simp only [if_true, Function.update_same]
              apply chunk_getBlock_setBlock_other
              split_ifs at * <;> omega
            · simp only [ex, if_true, Function.update_noteq ez]
          · simp only [ex, if_false]

/-- Flooring the vector of three integers gives the integers back. -/
theorem floor_ofInt (x y z : Int) :
    ⌊(Vector3.ofInt x y z).x⌋ = x ∧ ⌊(Vector3.ofInt x y z).y⌋ = y ∧
      ⌊(Vector3.ofInt x y z).z⌋ = z := by
  simp [Vector3.ofInt]

/-- `Chunk::SetBlock` returns the chunk itself when a local coordinate is out of range. -/
theorem chunk_setBlock_out_of_range (c : Chunk) (x y z : Int) (b : Block)
    (h : x < 0 ∨ x ≥ 16 ∨ y < 0 ∨ y ≥ 64 ∨ z < 0 ∨ z ≥ 16) : c.SetBlock x y z b = c := by
  unfold Chunk.SetBlock
  rw [dif_pos]
  simpa only [CHUNK_SIZE, WORLD_HEIGHT] using h

/-- What `SetBlock` does at an out-of-bounds integer coordinate: nothing when `y` is out of
range or the chunk lookup misses; otherwise the chunk lookup hits (a coordinate in
`-15..-1` truncates to chunk 0), `Chunk::SetBlock` rejects the negative local coordinate,
and only `cacheDirty` is set. -/
theorem setBlock_not_inWorld (w : OptimizedWorld) (x y z : Int) (b : Block)
    (h : x < 0 ∨ x ≥ 64 ∨ y < 0 ∨ y ≥ 64 ∨ z < 0 ∨ z ≥ 64) :
    w.SetBlock (Vector3.ofInt x y z) b =
      if (0 ≤ y ∧ y < 64) ∧ (-16 < x ∧ x < 64) ∧ (-16 < z ∧ z < 64) then
        { w with cacheDirty := true }
      else w := by
  unfold OptimizedWorld.SetBlock
  simp only [floor_ofInt]
  by_cases hy : y < 0 ∨ y ≥ WORLD_HEIGHT
  · rw [if_pos hy, if_neg]
    simp only [WORLD_HEIGHT] at hy
    omega
  · rw [if_neg hy]
    simp only [WORLD_HEIGHT] at hy
    cases hc : GetChunk x z with
    | none =>
      have := getChunk_eq_none.mp hc
      simp only []
      rw [if_neg]
      omega
    | some cc =>
      obtain ⟨cx, cz⟩ := cc
      have hxz := getChunk_eq_some hc
      simp only [WorldToLocalPos]
      rw [if_pos (by omega), chunk_setBlock_out_of_range, Function.update_eq_self,
        Function.update_eq_self]
      simp only [CHUNK_SIZE, tmod_chunk]
      split_ifs <;> omega

/-! ## Reads -/

/-- `GetBlock` depends on a position only through its three floors. -/
theorem getBlock_congr_floor (w : OptimizedWorld) (p q : Vector3)
    (hx : ⌊p.x⌋ = ⌊q.x⌋) (hy : ⌊p.y⌋ = ⌊q.y⌋) (hz : ⌊p.z⌋ = ⌊q.z⌋) :
    w.GetBlock p = w.GetBlock q := by
  unfold OptimizedWorld.GetBlock
  simp only [hx, hy, hz]

/-- `GetBlock` depends on the world only through the blocks of its chunks. -/
theorem getBlock_congr_blocks (w1 w2 : OptimizedWorld)
    (h : ∀ i j, (w1.chunks i j).blocks = (w2.chunks i j).blocks) (p : Vector3) :
    w1.GetBlock p = w2.GetBlock p := by
  unfold OptimizedWorld.GetBlock Chunk.GetBlock
  simp only [h]

/-- A read outside the world returns AIR. -/
theorem getBlock_air_of_not_inWorld (w : OptimizedWorld) (x y z : Int)
    (h : ¬ InWorld x y z) : w.GetBlock (Vector3.ofInt x y z) = ⟨BLOCK_AIR⟩ := by
  unfold InWorld at h
  unfold OptimizedWorld.GetBlock
  simp only [floor_ofInt]
  by_cases hy : y < 0 ∨ y ≥ WORLD_HEIGHT
  · rw [if_pos hy]
  · rw [if_neg hy]
    cases hc : GetChunk x z with
    | none => rfl
    | some cc =>
      obtain ⟨cx, cz⟩ := cc
      have hxz := getChunk_eq_some hc
      simp only [WorldToLocalPos, Chunk.GetBlock]
      rw [dif_pos]
      simp only [WORLD_HEIGHT, CHUNK_SIZE, tmod_chunk] at *
      split_ifs <;> omega

/-- Every block a read returns is AIR or a stored block. -/
theorem getBlock_type_valid (w : OptimizedWorld) (h : AllTypesValid w) (p : Vector3) :
    (w.GetBlock p).type < BLOCK_COUNT := by
  unfold OptimizedWorld.GetBlock
  simp only []
  split_ifs
  · decide
  · cases GetChunk ⌊p.x⌋ ⌊p.z⌋ with
    | none => exact (by decide : (0 : Nat) < 8)
    | some cc =>
      simp only [Chunk.GetBlock]
      split_ifs
      · exact (by decide : (0 : Nat) < 8)
      · exact h _ _ _

/-! ## Block storage -/

/-- C1. For every world state, every in-bounds integer block coordinate `(x, y, z)` and
every block `b`, `SetBlock` at that position followed by `GetBlock` at the same position
returns `b`. -/
theorem setBlock_getBlock_roundtrip (w : OptimizedWorld) (x y z : Int) (b : Block)
    (hx : 0 ≤ x ∧ x < 64) (hy : 0 ≤ y ∧ y < 64) (hz : 0 ≤ z ∧ z < 64) :
    ((w.SetBlock (Vector3.ofInt x y z) b).GetBlock (Vector3.ofInt x y z)) = b := by
  apply world_getBlock_setBlock_same
  · simp only [floor_ofInt, InWorld]; omega
  · exact ⟨rfl, rfl, rfl⟩

/-- Witness for C1: STONE written at `(17, 5, 63)` is read back. -/
theorem setBlock_getBlock_roundtrip_witness :
    (((OptimizedWorld.init 1337).SetBlock (Vector3.ofInt 17 5 63) ⟨BLOCK_STONE⟩).GetBlock
      (Vector3.ofInt 17 5 63)) = ⟨BLOCK_STONE⟩ :=
  setBlock_getBlock_roundtrip _ 17 5 63 _ (by decide) (by decide) (by decide)

/-- C2. For every world state and every out-of-bounds integer block coordinate,
`GetBlock` returns AIR.  For a coordinate in `-15..-1` the truncating division gives chunk
index 0 and the truncating remainder gives the negative coordinate itself as the local
coordinate. -/
theorem getBlock_out_of_bounds (w : OptimizedWorld) (x y z : Int)
    (h : x < 0 ∨ x ≥ 64 ∨ y < 0 ∨ y ≥ 64 ∨ z < 0 ∨ z ≥ 64) :
    w.GetBlock (Vector3.ofInt x y z) = ⟨BLOCK_AIR⟩ ∧
      (-15 ≤ x ∧ x ≤ -1 →
        (WorldToChunkPos x z).1 = 0 ∧ (WorldToLocalPos x y z).1 = x) ∧
      (-15 ≤ z ∧ z ≤ -1 →
        (WorldToChunkPos x z).2 = 0 ∧ (WorldToLocalPos x y z).2.2 = z) := by
  refine ⟨?_, ?_, ?_⟩
  · exact getBlock_air_of_not_inWorld w x y z (by unfold InWorld; omega)
  · intro hx
    simp only [WorldToChunkPos, WorldToLocalPos, CHUNK_SIZE, tdiv_chunk, tmod_chunk]
    split_ifs <;> omega
  · intro hz
    simp only [WorldToChunkPos, WorldToLocalPos, CHUNK_SIZE, tdiv_chunk, tmod_chunk]
    split_ifs <;> omega

/-- Witness for C2: the read at `(-5, 3, 7)`. -/
theorem getBlock_out_of_bounds_witness :
    ((OptimizedWorld.init 1337).SetBlock (Vector3.ofInt 0 3 7) ⟨BLOCK_STONE⟩).GetBlock
        (Vector3.ofInt (-5) 3 7) = ⟨BLOCK_AIR⟩ ∧
      (-15 ≤ (-5 : Int) ∧ (-5 : Int) ≤ -1 →
        (WorldToChunkPos (-5) 7).1 = 0 ∧ (WorldToLocalPos (-5) 3 7).1 = -5) ∧
      (-15 ≤ (7 : Int) ∧ (7 : Int) ≤ -1 →
        (WorldToChunkPos (-5) 7).2 = 0 ∧ (WorldToLocalPos (-5) 3 7).2.2 = 7) :=
  getBlock_out_of_bounds _ (-5) 3 7 (by decide)

/-- C3. For every world state, every out-of-bounds integer block coordinate `p`, every
block `b` and every in-bounds coordinate `q`, `GetBlock q` is the same before and after
`SetBlock p b`. -/
theorem setBlock_out_of_bounds_frame (w : OptimizedWorld) (px py pz : Int) (b : Block)
    (qx qy qz : Int)
    (hp : px < 0 ∨ px ≥ 64 ∨ py < 0 ∨ py ≥ 64 ∨ pz < 0 ∨ pz ≥ 64)
    (hq : 0 ≤ qx ∧ qx < 64 ∧ 0 ≤ qy ∧ qy < 64 ∧ 0 ≤ qz ∧ qz < 64) :
    (w.SetBlock (Vector3.ofInt px py pz) b).GetBlock (Vector3.ofInt qx qy qz) =
      w.GetBlock (Vector3.ofInt qx qy qz) := by
  apply world_getBlock_setBlock_other
  simp only [floor_ofInt, InWorld]
  omega

/-- Witness for C3: the out-of-bounds write at `(64, 3, -20)` and the read at `(63, 3, 0)`. -/
theorem setBlock_out_of_bounds_frame_witness :
    ((OptimizedWorld.init 1337).SetBlock (Vector3.ofInt 64 3 (-20)) ⟨BLOCK_STONE⟩).GetBlock
        (Vector3.ofInt 63 3 0) =
      (OptimizedWorld.init 1337).GetBlock (Vector3.ofInt 63 3 0) :=
  setBlock_out_of_bounds_frame _ 64 3 (-20) _ 63 3 0 (by decide) (by decide)

/-! ## Loops -/

/-- Membership in the values of a counting loop. -/
theorem mem_intRange {lo hi i : Int} : i ∈ intRange lo hi ↔ lo ≤ i ∧ i ≤ hi := by
  unfold intRange
  simp only [List.mem_map, List.mem_range]
  constructor
  · rintro ⟨n, hn, rfl⟩
    omega
  · intro h
    exact ⟨(i - lo).toNat, by omega, by omega⟩

/-- A counting loop visits no value twice. -/
theorem nodup_intRange (lo hi : Int) : (intRange lo hi).Nodup := by
  unfold intRange
  apply List.Nodup.map _ (List.nodup_range _)
  intro a b h
  simp only at h
  omega

/-- A loop that returns has run every iteration, and its result is the entries of the
iterations in order. -/
theorem pushLoop_eq_some {α β : Type} {body : α → Option (List β)} {l : List α}
    {r : List β} (h : pushLoop body l = some r) :
    (∀ a ∈ l, ∃ es, body a = some es) ∧ r = l.flatMap (fun a => (body a).getD []) := by
  induction l generalizing r with
  | nil =>
    simp only [pushLoop, Option.some.injEq] at h
    simp [← h]
  | cons a rest ih =>
    simp only [pushLoop] at h
    cases hb : body a with
    | none => simp [hb] at h
    | some es =>
      cases hr : pushLoop body rest with
      | none => simp [hb, hr] at h
      | some more =>
        simp only [hb, hr, Option.some.injEq] at h
        obtain ⟨h1, h2⟩ := ih hr
        constructor
        · intro a' ha'
          rcases List.mem_cons.mp ha' with rfl | hm
          · exact ⟨es, hb⟩
          · exact h1 a' hm
        · rw [← h, List.flatMap_cons, hb, h2]
          rfl

/-- A loop every iteration of which returns, returns. -/
theorem pushLoop_of_forall_some {α β : Type} {body : α → Option (List β)} {l : List α}
    (h : ∀ a ∈ l, ∃ es, body a = some es) :
    pushLoop body l = some (l.flatMap (fun a => (body a).getD [])) := by
  induction l with
  | nil => rfl
  | cons a rest ih =>
    obtain ⟨es, hb⟩ := h a (List.mem_cons_self _ _)
    have hr := ih (fun a' ha' => h a' (List.mem_cons_of_mem _ ha'))
    simp only [pushLoop, hb, hr, List.flatMap_cons, Option.getD_some]

/-- Two loops whose bodies agree on every iteration agree. -/
theorem pushLoop_congr {α β : Type} {body1 body2 : α → Option (List β)} {l : List α}
    (h : ∀ a ∈ l, body1 a = body2 a) : pushLoop body1 l = pushLoop body2 l := by
  induction l with
  | nil => rfl
  | cons a rest ih =>
    simp only [pushLoop, h a (List.mem_cons_self _ _),
      ih (fun a' ha' => h a' (List.mem_cons_of_mem _ ha'))]

/-- Filtering the entries of a duplicate-free loop in which only the iteration `a0` can
contribute leaves that iteration's entries. -/
theorem filter_flatMap_single {α β : Type} {l : List α} (hnd : l.Nodup) {a0 : α}
    (ha0 : a0 ∈ l) (f : α → List β) (p : β → Bool)
    (h : ∀ a ∈ l, a ≠ a0 → (f a).filter p = []) :
    (l.flatMap f).filter p = (f a0).filter p := by
  induction l with
  | nil => cases ha0
  | cons a rest ih =>
    rw [List.flatMap_cons, List.filter_append]
    obtain ⟨hna, hnd'⟩ := List.nodup_cons.mp hnd
    by_cases e : a = a0
    · subst e
      have : (rest.flatMap f).filter p = [] := by
        rw [List.filter_flatMap]
        apply List.flatMap_eq_nil_iff.mpr
        intro a' ha'
        exact h a' (List.mem_cons_of_mem _ ha') (fun e => hna (e ▸ ha'))
      rw [this, List.append_nil]
    · have hm : a0 ∈ rest := by
        rcases List.mem_cons.mp ha0 with rfl | hm
        · exact absurd rfl e
        · exact hm
      rw [h a (List.mem_cons_self _ _) e, List.nil_append]
      exact ih hnd' hm (fun a' ha' => h a' (List.mem_cons_of_mem _ ha'))

/-! ## The visible-block scan -/

/-- The transparency test of the code on the block read at `(x, y, z)` is transparency of
the cell: a read outside the world returns AIR. -/
theorem isTransparent_iff (w : OptimizedWorld) (x y z : Int) :
    (w.GetBlock (Vector3.ofInt x y z)).IsTransparent = true ↔ TransparentAt w x y z := by
  unfold TransparentAt
  by_cases hin : InWorld x y z
  · simp [Block.IsTransparent, hin, or_assoc]
  · simp [Block.IsTransparent, hin, getBlock_air_of_not_inWorld w x y z hin]

/-- Centres of cells determine the cell. -/
theorem cellCenter_injective {x y z x' y' z' : Int}
    (h : cellCenter x y z = cellCenter x' y' z') : x = x' ∧ y = y' ∧ z = z' := by
  unfold cellCenter at h
  simp only [Vector3.mk.injEq, add_left_inj, Int.cast_inj] at h
  exact h

/-- The loop body in terms of integer cells: the six neighbour reads are reads at the
neighbouring cells. -/
theorem visibleCell_eq (w : OptimizedWorld) (x z y : Int) :
    visibleCell w x z y =
      if (w.GetBlock (Vector3.ofInt x y z)).type = BLOCK_AIR then some []
      else if
        ((w.GetBlock (Vector3.ofInt (x + 1) y z)).IsTransparent ||
          (w.GetBlock (Vector3.ofInt (x - 1) y z)).IsTransparent ||
          (w.GetBlock (Vector3.ofInt x (y + 1) z)).IsTransparent ||
          (w.GetBlock (Vector3.ofInt x (y - 1) z)).IsTransparent ||
          (w.GetBlock (Vector3.ofInt x y (z + 1))).IsTransparent ||
          (w.GetBlock (Vector3.ofInt x y (z - 1))).IsTransparent) = true then
        match (w.GetBlock (Vector3.ofInt x y z)).GetColor with
        | none => none
        | some color =>
          some [(cellCenter x y z, color,
            (w.GetBlock (Vector3.ofInt x y z)).type == BLOCK_WATER)]
      else some [] := by
  unfold visibleCell
  simp only [Vector3.ofInt, cellCenter, Int.cast_add, Int.cast_sub, Int.cast_one]

/-- A cell that is AIR or has no transparent neighbour pushes nothing. -/
theorem visibleCell_hidden (w : OptimizedWorld) (x z y : Int)
    (h : (w.GetBlock (Vector3.ofInt x y z)).type = BLOCK_AIR ∨ ¬ Exposed w x y z) :
    visibleCell w x z y = some [] := by
  rw [visibleCell_eq]
  by_cases ha : (w.GetBlock (Vector3.ofInt x y z)).type = BLOCK_AIR
  · rw [if_pos ha]
  · rw [if_neg ha, if_neg]
    have he : ¬ Exposed w x y z := h.resolve_left ha
    unfold Exposed at he
    simp only [← isTransparent_iff] at he
    simpa only [Bool.or_eq_true, or_assoc] using he

/-- A non-AIR cell with a transparent neighbour pushes one entry, provided its colour
lookup is in range. -/
theorem visibleCell_shown (w : OptimizedWorld) (x z y : Int)
    (ha : (w.GetBlock (Vector3.ofInt x y z)).type ≠ BLOCK_AIR) (he : Exposed w x y z) :
    visibleCell w x z y =
      ((w.GetBlock (Vector3.ofInt x y z)).GetColor).map (fun color =>
        [(cellCenter x y z, color, (w.GetBlock (Vector3.ofInt x y z)).type == BLOCK_WATER)]) := by
  rw [visibleCell_eq, if_neg ha, if_pos]
  · cases (w.GetBlock (Vector3.ofInt x y z)).GetColor <;> rfl
  · unfold Exposed at he
    simp only [← isTransparent_iff] at he
    simpa only [Bool.or_eq_true, or_assoc] using he

/-- Every entry the body pushes for a cell sits at the centre of that cell. -/
theorem visibleCell_entry_center (w : OptimizedWorld) (x z y : Int)
    (e : Vector3 × Color × Bool) (h : e ∈ (visibleCell w x z y).getD []) :
    e.1 = cellCenter x y z := by
  by_cases hs : (w.GetBlock (Vector3.ofInt x y z)).type ≠ BLOCK_AIR ∧ Exposed w x y z
  · rw [visibleCell_shown w x z y hs.1 hs.2] at h
    cases hc : (w.GetBlock (Vector3.ofInt x y z)).GetColor with
    | none => simp [hc] at h
    | some color =>
      simp only [hc, Option.map_some', Option.getD_some, List.mem_singleton] at h
      rw [h]
  · rw [visibleCell_hidden w x z y (by tauto)] at h
    simp at h

/-- Two loops over the same values with bodies that agree there give the same entries. -/
theorem flatMap_congr_mem {α β : Type} {l : List α} {f g : α → List β}
    (h : ∀ a ∈ l, f a = g a) : l.flatMap f = l.flatMap g := by
  induction l with
  | nil => rfl
  | cons a rest ih =>
    rw [List.flatMap_cons, List.flatMap_cons, h a (List.mem_cons_self _ _),
      ih (fun a' ha' => h a' (List.mem_cons_of_mem _ ha'))]

/-- A scan that returns has run the body on every cell of the window without failure, and
returns the entries of the cells in loop order. -/
theorem scanVisible_eq_some {w : OptimizedWorld} {q : Vector3}
    {l : List (Vector3 × Color × Bool)} (h : scanVisible w q = some l) :
    (∀ x y z, InWindow q x z → 0 ≤ y → y < 64 → ∃ es, visibleCell w x z y = some es) ∧
      l = windowEntries w q := by
  unfold scanVisible at h
  simp only [GetWorldSize, CHUNK_COUNT_X, CHUNK_SIZE, WORLD_HEIGHT] at h
  norm_num at h
  obtain ⟨h1, h2⟩ := pushLoop_eq_some h
  have hz : ∀ x ∈ intRange (max 0 (truncToInt q.x - 24)) (min 63 (truncToInt q.x + 24)),
      (∀ z ∈ intRange (max 0 (truncToInt q.z - 24)) (min 63 (truncToInt q.z + 24)),
        (∀ y ∈ intRange 0 63, ∃ es, visibleCell w x z y = some es) ∧
        (pushLoop (fun y => visibleCell w x z y) (intRange 0 63)).getD [] =
          (intRange 0 63).flatMap (fun y => (visibleCell w x z y).getD [])) ∧
      (pushLoop (fun z => pushLoop (fun y => visibleCell w x z y) (intRange 0 63))
          (intRange (max 0 (truncToInt q.z - 24)) (min 63 (truncToInt q.z + 24)))).getD [] =
        (intRange (max 0 (truncToInt q.z - 24)) (min 63 (truncToInt q.z + 24))).flatMap
          (fun z => (intRange 0 63).flatMap (fun y => (visibleCell w x z y).getD [])) := by
    intro x hx
    obtain ⟨es, hes⟩ := h1 x hx
    obtain ⟨h3, h4⟩ := pushLoop_eq_some hes
    have hy : ∀ z ∈ intRange (max 0 (truncToInt q.z - 24)) (min 63 (truncToInt q.z + 24)),
        (∀ y ∈ intRange 0 63, ∃ es, visibleCell w x z y = some es) ∧
        (pushLoop (fun y => visibleCell w x z y) (intRange 0 63)).getD [] =
          (intRange 0 63).flatMap (fun y => (visibleCell w x z y).getD []) := by
      intro z hz
      obtain ⟨es', hes'⟩ := h3 z hz
      obtain ⟨h5, h6⟩ := pushLoop_eq_some hes'
      exact ⟨h5, by rw [hes', Option.getD_some, h6]⟩
    refine ⟨hy, ?_⟩
    rw [hes, Option.getD_some, h4]
    exact flatMap_congr_mem (fun z hz => (hy z hz).2)
  constructor
  · intro x y z hw hy0 hy1
    unfold InWindow at hw
    exact ((hz x (mem_intRange.mpr ⟨hw.1, hw.2.1⟩)).1 z
      (mem_intRange.mpr ⟨hw.2.2.1, hw.2.2.2⟩)).1 y (mem_intRange.mpr ⟨hy0, by omega⟩)
  · rw [h2]
    exact flatMap_congr_mem (fun x hx => (hz x hx).2)

/-- An entry of the window's list comes from a cell of the window. -/
theorem mem_windowEntries {w : OptimizedWorld} {q : Vector3} {e : Vector3 × Color × Bool}
    (h : e ∈ windowEntries w q) :
    ∃ x y z, InWindow q x z ∧ 0 ≤ y ∧ y < 64 ∧ e ∈ (visibleCell w x z y).getD [] := by
  unfold windowEntries at h
  simp only [List.mem_flatMap, mem_intRange] at h
  obtain ⟨x, hx, z, hz, y, hy, he⟩ := h
  exact ⟨x, y, z, ⟨hx.1, hx.2, hz.1, hz.2⟩, hy.1, by omega, he⟩

/-- The entries of the window's list at the centre of a cell of the window are the
entries the body pushes for that cell. -/
theorem windowEntries_filter (w : OptimizedWorld) (q : Vector3) (x y z : Int)
    (hw : InWindow q x z) (hy0 : 0 ≤ y) (hy1 : y < 64) :
    (windowEntries w q).filter (fun e => decide (e.1 = cellCenter x y z)) =
      (visibleCell w x z y).getD [] := by
  unfold windowEntries
  unfold InWindow at hw
  have key : ∀ (x' y' z' : Int), (x' ≠ x ∨ y' ≠ y ∨ z' ≠ z) →
      ∀ e ∈ (visibleCell w x' z' y').getD [], ¬ decide (e.1 = cellCenter x y z) = true := by
    intro x' y' z' hne e he
    have hc := visibleCell_entry_center w x' z' y' e he
    simp only [decide_eq_true_eq]
    intro hc'
    have := cellCenter_injective (hc.symm.trans hc')
    omega
  rw [filter_flatMap_single (nodup_intRange _ _) (mem_intRange.mpr ⟨hw.1, hw.2.1⟩)]
  · rw [filter_flatMap_single (nodup_intRange _ _) (mem_intRange.mpr ⟨hw.2.2.1, hw.2.2.2⟩)]
    · rw [filter_flatMap_single (nodup_intRange _ _)
        (mem_intRange.mpr ⟨hy0, (by omega : y ≤ 63)⟩)]
      · apply List.filter_eq_self.mpr
        intro e he
        simp only [decide_eq_true_eq]
        exact visibleCell_entry_center w x z y e he
      · intro y' _ hne
        exact List.filter_eq_nil_iff.mpr (key x y' z (Or.inr (Or.inl hne)))
    · intro z' _ hne
      apply List.filter_eq_nil_iff.mpr
      intro e he
      obtain ⟨y', _, he'⟩ := List.mem_flatMap.mp he
      exact key x y' z' (Or.inr (Or.inr hne)) e he'
  · intro x' _ hne
    apply List.filter_eq_nil_iff.mpr
    intro e he
    obtain ⟨z', _, he'⟩ := List.mem_flatMap.mp he
    obtain ⟨y', _, he''⟩ := List.mem_flatMap.mp he'
    exact key x' y' z' (Or.inl hne) e he''

/-- The scan reads the world only through `GetBlock`. -/
theorem scanVisible_congr (w1 w2 : OptimizedWorld) (q : Vector3)
    (h : ∀ p, w1.GetBlock p = w2.GetBlock p) : scanVisible w1 q = scanVisible w2 q := by
  unfold scanVisible
  simp only []
  refine pushLoop_congr (fun x _ => pushLoop_congr (fun z _ => pushLoop_congr (fun y _ => ?_)))
  unfold visibleCell
  simp only [h]

/-- With every stored type valid, the loop body returns. -/
theorem visibleCell_isSome (w : OptimizedWorld) (hv : AllTypesValid w) (x z y : Int) :
    ∃ es, visibleCell w x z y = some es := by
  rw [visibleCell_eq]
  have hc : ∃ c, (w.GetBlock (Vector3.ofInt x y z)).GetColor = some c := by
    have := getBlock_type_valid w hv (Vector3.ofInt x y z)
    unfold Block.GetColor Block.colors
    rw [List.get?_eq_getElem?]
    exact ⟨_, List.getElem?_eq_getElem (by simpa using this)⟩
  obtain ⟨c, hc⟩ := hc
  split_ifs
  · exact ⟨_, rfl⟩
  · rw [hc]
    exact ⟨_, rfl⟩
  · exact ⟨_, rfl⟩

/-- With every stored type valid, the scan returns. -/
theorem scanVisible_isSome (w : OptimizedWorld) (hv : AllTypesValid w) (q : Vector3) :
    ∃ l, scanVisible w q = some l := by
  unfold scanVisible
  simp only []
  refine ⟨_, pushLoop_of_forall_some (fun x _ => ⟨_, pushLoop_of_forall_some (fun z _ =>
    ⟨_, pushLoop_of_forall_some (fun y _ => visibleCell_isSome w hv x z y)⟩)⟩)⟩

/-- `UpdateVisibleBlocks` on a dirty cache: the scan, stored, with the flag cleared. -/
theorem updateVisibleBlocks_dirty (w : OptimizedWorld) (q : Vector3)
    (hd : w.cacheDirty = true) :
    w.UpdateVisibleBlocks q =
      (scanVisible w q).map (fun l => { w with visibleBlocks := l, cacheDirty := false }) := by
  unfold OptimizedWorld.UpdateVisibleBlocks
  rw [hd]
  cases scanVisible w q <;> rfl

/-- `UpdateVisibleBlocks` on a clean cache returns at once. -/
theorem updateVisibleBlocks_clean (w : OptimizedWorld) (q : Vector3)
    (hd : w.cacheDirty = false) : w.UpdateVisibleBlocks q = some w := by
  unfold OptimizedWorld.UpdateVisibleBlocks
  rw [hd]
  rfl

/-- `Update` changes neither the cache left by `UpdateVisibleBlocks` nor any block. -/
theorem update_eq_some {w w1 : OptimizedWorld} {q : Vector3} (h : w.Update q = some w1) :
    ∃ w0, w.UpdateVisibleBlocks q = some w0 ∧ w1.visibleBlocks = w0.visibleBlocks ∧
      w1.cacheDirty = w0.cacheDirty ∧
      (∀ i j, (w1.chunks i j).blocks = (w0.chunks i j).blocks) := by
  unfold OptimizedWorld.Update at h
  cases hu : w.UpdateVisibleBlocks q with
  | none => simp [hu] at h
  | some w0 =>
    simp only [hu, Option.some.injEq] at h
    subst h
    refine ⟨w0, rfl, rfl, rfl, ?_⟩
    intro i j
    simp only [Chunk.GenerateMesh]
    split_ifs <;> rfl

/-- `Update` returns whenever `UpdateVisibleBlocks` does. -/
theorem update_map_visibleBlocks (w : OptimizedWorld) (q : Vector3) :
    (w.Update q).map (fun w1 => w1.visibleBlocks) =
      (w.UpdateVisibleBlocks q).map (fun w0 => w0.visibleBlocks) := by
  unfold OptimizedWorld.Update
  cases w.UpdateVisibleBlocks q <;> rfl

/-- A world write either changes nothing or marks the cache dirty. -/
theorem setBlock_eq_or_dirty (w : OptimizedWorld) (p : Vector3) (b : Block) :
    w.SetBlock p b = w ∨ (w.SetBlock p b).cacheDirty = true := by
  unfold OptimizedWorld.SetBlock
  simp only []
  split_ifs
  · exact Or.inl rfl
  · cases GetChunk ⌊p.x⌋ ⌊p.z⌋ with
    | none => exact Or.inl rfl
    | some cc => exact Or.inr rfl

/-- An in-bounds world write marks the cache dirty. -/
theorem setBlock_dirty_of_inWorld (w : OptimizedWorld) (x y z : Int) (b : Block)
    (h : InWorld x y z) : (w.SetBlock (Vector3.ofInt x y z) b).cacheDirty = true := by
  unfold InWorld at h
  unfold OptimizedWorld.SetBlock
  simp only [floor_ofInt]
  rw [if_neg (by simp only [WORLD_HEIGHT]; omega)]
  cases hc : GetChunk x z with
  | none => exact absurd h (by have := getChunk_eq_none.mp hc; omega)
  | some cc => rfl

/-! ## Block types -/

/-- A fold keeps whatever each step keeps. -/
theorem foldl_preserves {α σ : Type} (P : σ → Prop) (f : σ → α → σ)
    (h : ∀ s a, P s → P (f s a)) (l : List α) (s : σ) (hs : P s) : P (l.foldl f s) := by
  induction l generalizing s with
  | nil => exact hs
  | cons a rest ih => exact ih (f s a) (h s a hs)

/-- Writing a block of a valid type keeps every stored type valid. -/
theorem allTypesValid_setBlock (w : OptimizedWorld) (p : Vector3) (b : Block)
    (hv : AllTypesValid w) (hb : b.type < BLOCK_COUNT) : AllTypesValid (w.SetBlock p b) := by
  unfold OptimizedWorld.SetBlock
  simp only []
  split_ifs
  · exact hv
  · cases GetChunk ⌊p.x⌋ ⌊p.z⌋ with
    | none => exact hv
    | some cc =>
      obtain ⟨cx, cz⟩ := cc
      intro i j k
      simp only [Function.update_apply]
      by_cases ei : i = cx
      · by_cases ej : j = cz
        · subst ei ej
          simp only [if_true, Function.update_same, Chunk.SetBlock]
          split_ifs
          · exact hv _ _ _
          · simp only [Function.update_apply]
            split_ifs
            · exact hb
            · exact hv _ _ _
        · subst ei
          simp only [if_true, Function.update_noteq ej]
          exact hv _ _ _
      · simp only [ei, if_false]
        exact hv _ _ _

/-- The grid of freshly constructed chunks holds AIR only. -/
theorem allTypesValid_init (worldSeed : Int) : AllTypesValid (OptimizedWorld.init worldSeed) := by
  intro i j k
  exact (by decide : (0 : Nat) < 8)

/-- `AddTree` writes WOOD and LEAVES only. -/
theorem allTypesValid_addTree (w : OptimizedWorld) (rand : Nat → Nat) (drawn : Nat)
    (worldX worldY worldZ : Int) (hv : AllTypesValid w) :
    AllTypesValid (w.AddTree rand drawn worldX worldY worldZ).1 := by
  unfold OptimizedWorld.AddTree
  simp only []
  apply foldl_preserves AllTypesValid
  · intro s dy hs
    apply foldl_preserves AllTypesValid _ _ _ _ hs
    intro s dx hs
    apply foldl_preserves AllTypesValid _ _ _ _ hs
    intro s dz hs
    split_ifs <;> first | exact hs | exact allTypesValid_setBlock _ _ _ hs (by decide)
  · apply foldl_preserves AllTypesValid _ _ _ _ hv
    intro s i hs
    exact allTypesValid_setBlock _ _ _ hs (by decide)

/-- One column of terrain writes AIR, SAND, STONE, GRASS, DIRT, WOOD, LEAVES and WATER
only. -/
theorem allTypesValid_generateColumn (noise : ℚ → ℚ → ℚ) (rand : Nat → Nat)
    (st : OptimizedWorld × Nat) (x z : Int) (hv : AllTypesValid st.1) :
    AllTypesValid (generateColumn noise rand st x z).1 := by
  unfold generateColumn
  simp only []
  apply foldl_preserves AllTypesValid
  · intro s y hs
    unfold waterCell
    simp only []
    split_ifs
    · exact allTypesValid_setBlock _ _ _ hs (by decide)
    · exact hs
  · have h1 : AllTypesValid ((intRange 0 (WORLD_HEIGHT - 1)).foldl
        (fun acc y => fillCell acc x z
          (20 + truncToInt (noise ((x : ℚ) * (5 / 100)) ((z : ℚ) * (5 / 100)) * 15)) y)
        st.1) := by
      apply foldl_preserves AllTypesValid _ _ _ _ hv
      intro s y hs
      unfold fillCell
      simp only []
      split_ifs <;> exact allTypesValid_setBlock _ _ _ hs (by decide)
    split_ifs
    · exact allTypesValid_addTree _ _ _ _ _ _ h1
    · exact h1
    · exact h1

/-- A freshly constructed world holds valid block types only. -/
theorem allTypesValid_new (noise : ℚ → ℚ → ℚ) (rand : Nat → Nat) (worldSeed : Int) :
    AllTypesValid (OptimizedWorld.new noise rand worldSeed) := by
  unfold OptimizedWorld.new OptimizedWorld.GenerateTerrain
  simp only []
  have h : AllTypesValid ((intRange 0 (GetWorldSize - 1)).foldl
      (fun acc x => (intRange 0 (GetWorldSize - 1)).foldl
        (fun acc z => generateColumn noise rand acc x z) acc)
      (OptimizedWorld.init worldSeed, 0)).1 := by
    apply foldl_preserves (fun (s : OptimizedWorld × Nat) => AllTypesValid s.1) _ _ _ _
      (allTypesValid_init worldSeed)
    intro s x hs
    apply foldl_preserves (fun (s : OptimizedWorld × Nat) => AllTypesValid s.1) _ _ _ _ hs
    intro s z hs
    exact allTypesValid_generateColumn noise rand s x z hs
  intro i j k
  exact h i j k

/-- The colour lookup of a block of a valid type is in range. -/
theorem getColor_isSome (b : Block) (h : b.type < BLOCK_COUNT) : ∃ c, b.GetColor = some c := by
  unfold Block.GetColor Block.colors
  rw [List.get?_eq_getElem?]
  exact ⟨_, List.getElem?_eq_getElem (by simpa using h)⟩

/-- The colour lookup of a block of an invalid type is out of range. -/
theorem getColor_eq_none (b : Block) (h : BLOCK_COUNT ≤ b.type) : b.GetColor = none := by
  unfold Block.GetColor Block.colors
  rw [List.get?_eq_getElem?]
  exact List.getElem?_eq_none (by simpa using h)

/-- `PlaceBlock` at integer coordinates is `SetBlock` of the truncated type there. -/
theorem placeBlock_ofInt (w : OptimizedWorld) (x y z : Int) (t : Int) :
    w.PlaceBlock (Vector3.ofInt x y z) t = w.SetBlock (Vector3.ofInt x y z) ⟨toUChar t⟩ := by
  unfold OptimizedWorld.PlaceBlock
  simp only [floor_ofInt]
  rfl

/-- `BreakBlock` at integer coordinates is `SetBlock` of AIR there. -/
theorem breakBlock_ofInt (w : OptimizedWorld) (x y z : Int) :
    w.BreakBlock (Vector3.ofInt x y z) = w.SetBlock (Vector3.ofInt x y z) ⟨BLOCK_AIR⟩ := by
  unfold OptimizedWorld.BreakBlock
  simp only [floor_ofInt]
  rfl

/-- C8, amended. In every world state reached from construction by `SetBlock` calls
whose block has a type below `BLOCK_COUNT`, `PlaceBlock` calls whose `blockType`, cast to
`unsigned char`, is below `BLOCK_COUNT`, and `BreakBlock` calls, every stored block's type
is below `BLOCK_COUNT`, and the colour lookup of every block a read returns is in range. -/
theorem reachValid_types_valid (w : OptimizedWorld) (h : OptimizedWorld.ReachValid w) :
    AllTypesValid w ∧ ∀ p, ∃ c, (w.GetBlock p).GetColor = some c := by
  have hv : AllTypesValid w := by
    induction h with
    | construct noise rand worldSeed => exact allTypesValid_new noise rand worldSeed
    | setBlock w p b _ hb ih => exact allTypesValid_setBlock w p b ih hb
    | placeBlock w p t _ ht ih => exact allTypesValid_setBlock w _ _ ih ht
    | breakBlock w p _ ih => exact allTypesValid_setBlock w _ _ ih (by decide)
  exact ⟨hv, fun p => getColor_isSome _ (getBlock_type_valid w hv p)⟩

/-- Witness for C8 (amended): a constructed world after a `SetBlock` of STONE, a
`PlaceBlock` of type 5 and a `BreakBlock`. -/
theorem reachValid_types_valid_witness :
    AllTypesValid
        ((((OptimizedWorld.new (fun _ _ => 1 / 2) (fun _ => 0) 1337).SetBlock
          (Vector3.ofInt 1 2 3) ⟨BLOCK_STONE⟩).PlaceBlock (Vector3.ofInt 4 5 6) 5).BreakBlock
          (Vector3.ofInt 7 8 9)) ∧
      ∀ p, ∃ c,
        (((((OptimizedWorld.new (fun _ _ => 1 / 2) (fun _ => 0) 1337).SetBlock
          (Vector3.ofInt 1 2 3) ⟨BLOCK_STONE⟩).PlaceBlock (Vector3.ofInt 4 5 6) 5).BreakBlock
          (Vector3.ofInt 7 8 9)).GetBlock p).GetColor = some c :=
  reachValid_types_valid _
    (OptimizedWorld.ReachValid.breakBlock _ _
      (OptimizedWorld.ReachValid.placeBlock _ _ _
        (OptimizedWorld.ReachValid.setBlock _ _ _
          (OptimizedWorld.ReachValid.construct _ _ _) (by decide)) (by decide)))

/-- Counterexample to C8 as stated: on a freshly constructed world, `PlaceBlock` with
`blockType` 9 at the in-bounds position `(4, 5, 6)` stores a block of type 9, which is not
below `BLOCK_COUNT`, and whose colour lookup is out of range. -/
theorem placeBlock_invalid_type :
    OptimizedWorld.Reach
        ((OptimizedWorld.new (fun _ _ => 1 / 2) (fun _ => 0) 1337).PlaceBlock
          (Vector3.ofInt 4 5 6) 9) none ∧
      (((OptimizedWorld.new (fun _ _ => 1 / 2) (fun _ => 0) 1337).PlaceBlock
        (Vector3.ofInt 4 5 6) 9).GetBlock (Vector3.ofInt 4 5 6)).type = 9 ∧
      ¬ AllTypesValid ((OptimizedWorld.new (fun _ _ => 1 / 2) (fun _ => 0) 1337).PlaceBlock
        (Vector3.ofInt 4 5 6) 9) ∧
      (((OptimizedWorld.new (fun _ _ => 1 / 2) (fun _ => 0) 1337).PlaceBlock
        (Vector3.ofInt 4 5 6) 9).GetBlock (Vector3.ofInt 4 5 6)).GetColor = none := by
  have hget : ((OptimizedWorld.new (fun _ _ => 1 / 2) (fun _ => 0) 1337).PlaceBlock
      (Vector3.ofInt 4 5 6) 9).GetBlock (Vector3.ofInt 4 5 6) = ⟨9⟩ := by
    rw [placeBlock_ofInt]
    exact world_getBlock_setBlock_same _ _ _ _
      (by simp only [floor_ofInt, InWorld]; decide) ⟨rfl, rfl, rfl⟩
  refine ⟨OptimizedWorld.Reach.placeBlock _ _ _ _ (OptimizedWorld.Reach.construct _ _ _), ?_,
    ?_, ?_⟩
  · rw [hget]
  · intro hv
    have := getBlock_type_valid _ hv (Vector3.ofInt 4 5 6)
    rw [hget] at this
    exact absurd this (by decide)
  · rw [hget]
    exact getColor_eq_none _ (by decide)

/-! ## The rebuilt cache -/

/-- An entry the body pushes for a cell: the cell is not AIR, is exposed, its colour
lookup is in range, and the entry holds its centre, its colour and its water flag. -/
theorem mem_visibleCell {w : OptimizedWorld} {x z y : Int} {e : Vector3 × Color × Bool}
    (h : e ∈ (visibleCell w x z y).getD []) :
    (w.GetBlock (Vector3.ofInt x y z)).type ≠ BLOCK_AIR ∧ Exposed w x y z ∧
      ∃ color, (w.GetBlock (Vector3.ofInt x y z)).GetColor = some color ∧
        e = (cellCenter x y z, color, (w.GetBlock (Vector3.ofInt x y z)).type == BLOCK_WATER) := by
  by_cases hs : (w.GetBlock (Vector3.ofInt x y z)).type ≠ BLOCK_AIR ∧ Exposed w x y z
  · refine ⟨hs.1, hs.2, ?_⟩
    rw [visibleCell_shown w x z y hs.1 hs.2] at h
    cases hc : (w.GetBlock (Vector3.ofInt x y z)).GetColor with
    | none => simp [hc] at h
    | some color =>
      simp only [hc, Option.map_some', Option.getD_some, List.mem_singleton] at h
      exact ⟨color, rfl, h⟩
  · rw [visibleCell_hidden w x z y (by tauto)] at h
    simp at h

/-- What a returned scan holds: only entries of shown cells, exactly one entry at the centre
of each shown cell, and none at the centre of a cell without a transparent neighbour. -/
theorem scanVisible_entries {w : OptimizedWorld} {q : Vector3}
    {l : List (Vector3 × Color × Bool)} (h : scanVisible w q = some l) :
    (∀ e ∈ l, ∃ x y z color, Shown w q x y z ∧
      (w.GetBlock (Vector3.ofInt x y z)).GetColor = some color ∧
      e = (cellCenter x y z, color, (w.GetBlock (Vector3.ofInt x y z)).type == BLOCK_WATER)) ∧
    (∀ x y z, Shown w q x y z →
      (l.filter (fun e => decide (e.1 = cellCenter x y z))).length = 1) ∧
    (∀ x y z, ¬ Exposed w x y z → ∀ e ∈ l, e.1 ≠ cellCenter x y z) := by
  obtain ⟨hsome, hl⟩ := scanVisible_eq_some h
  subst hl
  have hmem : ∀ e ∈ windowEntries w q, ∃ x y z color, Shown w q x y z ∧
      (w.GetBlock (Vector3.ofInt x y z)).GetColor = some color ∧
      e = (cellCenter x y z, color,
        (w.GetBlock (Vector3.ofInt x y z)).type == BLOCK_WATER) := by
    intro e he
    obtain ⟨x, y, z, hw, hy0, hy1, hc⟩ := mem_windowEntries he
    obtain ⟨ha, hx, color, hcol, rfl⟩ := mem_visibleCell hc
    exact ⟨x, y, z, color, ⟨hw, hy0, hy1, ha, hx⟩, hcol, rfl⟩
  refine ⟨hmem, ?_, ?_⟩
  · intro x y z hs
    obtain ⟨hw, hy0, hy1, ha, hx⟩ := hs
    rw [windowEntries_filter w q x y z hw hy0 hy1]
    obtain ⟨es, hes⟩ := hsome x y z hw hy0 hy1
    rw [visibleCell_shown w x z y ha hx] at hes ⊢
    cases hc : (w.GetBlock (Vector3.ofInt x y z)).GetColor with
    | none => simp [hc] at hes
    | some color => simp
  · intro x y z hx e he hc
    obtain ⟨x', y', z', color, hs, _, rfl⟩ := hmem e he
    obtain ⟨rfl, rfl, rfl⟩ := cellCenter_injective hc
    exact hx hs.2.2.2.2

/-- After `Update` on a dirty cache the cache is the scan of the blocks. -/
theorem update_dirty_map (w : OptimizedWorld) (q : Vector3) (hd : w.cacheDirty = true) :
    (w.Update q).map (fun w1 => w1.visibleBlocks) = scanVisible w q := by
  rw [update_map_visibleBlocks, updateVisibleBlocks_dirty w q hd]
  cases scanVisible w q <;> rfl

/-- `Update` on a dirty cache leaves the cache clean. -/
theorem update_dirty_clean (w w1 : OptimizedWorld) (q : Vector3) (hd : w.cacheDirty = true)
    (hu : w.Update q = some w1) : w1.cacheDirty = false := by
  obtain ⟨w0, h0, _, hdirty, _⟩ := update_eq_some hu
  rw [updateVisibleBlocks_dirty w q hd] at h0
  cases hs : scanVisible w q with
  | none =>
    rw [hs] at h0
    cases h0
  | some l =>
    rw [hs] at h0
    simp only [Option.map_some', Option.some.injEq] at h0
    rw [hdirty, ← h0]

/-- With every stored type valid, `Update` returns. -/
theorem update_isSome (w : OptimizedWorld) (hv : AllTypesValid w) (q : Vector3) :
    ∃ w1, w.Update q = some w1 := by
  unfold OptimizedWorld.Update OptimizedWorld.UpdateVisibleBlocks
  obtain ⟨l, hl⟩ := scanVisible_isSome w hv q
  rw [hl]
  split_ifs <;> exact ⟨_, rfl⟩

/-- With every stored type valid, `UpdateVisibleBlocks` returns. -/
theorem updateVisibleBlocks_isSome (w : OptimizedWorld) (hv : AllTypesValid w) (q : Vector3) :
    ∃ w1, w.UpdateVisibleBlocks q = some w1 := by
  unfold OptimizedWorld.UpdateVisibleBlocks
  obtain ⟨l, hl⟩ := scanVisible_isSome w hv q
  rw [hl]
  split_ifs <;> exact ⟨_, rfl⟩

/-- After a write of `b` at the in-bounds cell `(x, y, z)` and an `Update`, an entry at the
centre of that cell carries the colour and water flag of `b`, and `b` is not AIR. -/
theorem entry_after_setBlock (w : OptimizedWorld) (x y z : Int) (b : Block) (q : Vector3)
    (hin : InWorld x y z) (w1 : OptimizedWorld)
    (hu : (w.SetBlock (Vector3.ofInt x y z) b).Update q = some w1)
    (e : Vector3 × Color × Bool) (he : e ∈ w1.visibleBlocks)
    (hc : e.1 = cellCenter x y z) :
    b.type ≠ BLOCK_AIR ∧ b.GetColor = some e.2.1 ∧ e.2.2 = (b.type == BLOCK_WATER) := by
  have hs := update_dirty_map _ q (setBlock_dirty_of_inWorld w x y z b hin)
  rw [hu, Option.map_some'] at hs
  obtain ⟨hmem, _, _⟩ := scanVisible_entries hs.symm
  obtain ⟨x', y', z', color, hsh, hcol, rfl⟩ := hmem e he
  obtain ⟨rfl, rfl, rfl⟩ := cellCenter_injective hc
  have hget : (w.SetBlock (Vector3.ofInt x' y' z') b).GetBlock (Vector3.ofInt x' y' z') = b :=
    world_getBlock_setBlock_same _ _ _ _ (by simpa only [floor_ofInt] using hin) ⟨rfl, rfl, rfl⟩
  rw [hget] at hcol
  have ha := hsh.2.2.2.1
  rw [hget] at ha
  exact ⟨ha, hcol, by rw [hget]⟩

/-- C4, at the failing input. A world is constructed and `Update` is called for the player
at `(32, 40, 32)`, which leaves the cache clean.  The out-of-bounds write at `(-5, 3, 7)`
then stores nothing (no chunk changes), yet the world state changes: `cacheDirty` goes
from false to true. -/
theorem setBlock_out_of_bounds_dirties_cache :
    ((-5 : Int) < 0 ∨ (-5 : Int) ≥ 64 ∨ (3 : Int) < 0 ∨ (3 : Int) ≥ 64 ∨ (7 : Int) < 0 ∨
        (7 : Int) ≥ 64) ∧
    ∃ w, (OptimizedWorld.new (fun _ _ => 0) (fun _ => 0) 1337).Update ⟨32, 40, 32⟩ = some w ∧
      w.cacheDirty = false ∧
      (w.SetBlock (Vector3.ofInt (-5) 3 7) ⟨BLOCK_STONE⟩).chunks = w.chunks ∧
      (w.SetBlock (Vector3.ofInt (-5) 3 7) ⟨BLOCK_STONE⟩).cacheDirty = true ∧
      w.SetBlock (Vector3.ofInt (-5) 3 7) ⟨BLOCK_STONE⟩ ≠ w := by
  refine ⟨by decide, ?_⟩
  obtain ⟨w, hu⟩ := update_isSome _ (allTypesValid_new (fun _ _ => 0) (fun _ => 0) 1337)
    ⟨32, 40, 32⟩
  have hclean : w.cacheDirty = false := update_dirty_clean _ w _ rfl hu
  have h := setBlock_not_inWorld w (-5) 3 7 ⟨BLOCK_STONE⟩ (by decide)
  rw [if_pos (by decide)] at h
  refine ⟨w, hu, hclean, by rw [h], by rw [h], ?_⟩
  rw [h]
  intro e
  have hd := congrArg OptimizedWorld.cacheDirty e
  rw [hclean] at hd
  cases hd

/-! ## Claims on the visible-block cache -/

/-- C5. In every world state reachable from construction by `SetBlock`, `PlaceBlock`,
`BreakBlock` and `Update` calls, either the cache is marked dirty or the cached list is
the list the scan computes from the current blocks for the player position supplied at
the last rebuild. -/
theorem reach_cache_valid_or_dirty (w : OptimizedWorld) (last : Option Vector3)
    (h : OptimizedWorld.Reach w last) :
    w.cacheDirty = true ∨ ∃ q, last = some q ∧ scanVisible w q = some w.visibleBlocks := by
  induction h with
  | construct noise rand worldSeed => exact Or.inl rfl
  | setBlock w last p b _ ih =>
    rcases setBlock_eq_or_dirty w p b with e | e
    · rw [e]; exact ih
    · exact Or.inl e
  | placeBlock w last p t _ ih =>
    unfold OptimizedWorld.PlaceBlock
    rcases setBlock_eq_or_dirty w _ ⟨toUChar t⟩ with e | e
    · rw [e]; exact ih
    · exact Or.inl e
  | breakBlock w last p _ ih =>
    unfold OptimizedWorld.BreakBlock
    rcases setBlock_eq_or_dirty w _ ⟨BLOCK_AIR⟩ with e | e
    · rw [e]; exact ih
    · exact Or.inl e
  | update w last q w1 _ hu ih =>
    obtain ⟨w0, h0, hvis, hdirty, hblocks⟩ := update_eq_some hu
    right
    cases hd : w.cacheDirty with
    | true =>
      rw [updateVisibleBlocks_dirty w q hd] at h0
      cases hs : scanVisible w q with
      | none => simp [hs] at h0
      | some l =>
        simp only [hs, Option.map_some', Option.some.injEq] at h0
        subst h0
        refine ⟨q, by simp, ?_⟩
        rw [hvis, ← hs]
        exact scanVisible_congr _ _ q (getBlock_congr_blocks _ _ hblocks)
    | false =>
      rw [updateVisibleBlocks_clean w q hd] at h0
      simp only [Option.some.injEq] at h0
      subst h0
      rcases ih with e | ⟨q0, hq0, hs⟩
      · rw [hd] at e; cases e
      · refine ⟨q0, by simpa using hq0, ?_⟩
        rw [hvis, ← hs]
        exact scanVisible_congr _ _ q0 (getBlock_congr_blocks _ _ hblocks)

/-- Witness for C5: a constructed world, one `SetBlock`, then an `Update` for the player
at `(32, 40, 32)`, which rebuilds the cache. -/
theorem reach_cache_valid_or_dirty_witness :
    ∃ w1, ((OptimizedWorld.new (fun _ _ => 1 / 2) (fun _ => 0) 1337).SetBlock
        (Vector3.ofInt 1 2 3) ⟨BLOCK_STONE⟩).Update ⟨32, 40, 32⟩ = some w1 ∧
      w1.cacheDirty = false ∧
      (w1.cacheDirty = true ∨ ∃ q, some (⟨32, 40, 32⟩ : Vector3) = some q ∧
        scanVisible w1 q = some w1.visibleBlocks) := by
  have hv := allTypesValid_setBlock _ (Vector3.ofInt 1 2 3) ⟨BLOCK_STONE⟩
    (allTypesValid_new (fun _ _ => 1 / 2) (fun _ => 0) 1337) (by decide)
  have hd := setBlock_dirty_of_inWorld (OptimizedWorld.new (fun _ _ => 1 / 2) (fun _ => 0) 1337)
    1 2 3 ⟨BLOCK_STONE⟩ (by unfold InWorld; decide)
  obtain ⟨w1, hu⟩ := update_isSome _ hv ⟨32, 40, 32⟩
  have hr := reach_cache_valid_or_dirty w1 _
    (OptimizedWorld.Reach.update _ none ⟨32, 40, 32⟩ w1
      (OptimizedWorld.Reach.setBlock _ none (Vector3.ofInt 1 2 3) ⟨BLOCK_STONE⟩
        (OptimizedWorld.Reach.construct (fun _ _ => 1 / 2) (fun _ => 0) 1337)) hu)
  rw [hd] at hr
  exact ⟨w1, hu, update_dirty_clean _ _ _ hd hu, by simpa using hr⟩

/-- C6. For every world state, every in-bounds cell `(x, y, z)`, every block `b`, block
type `t` and player position `q`: after `SetBlock`, `PlaceBlock` or `BreakBlock` at the
cell followed by `Update q`, the cache is the list a fresh scan of the current blocks
gives for `q` (`Update` returns exactly when that scan does, and it does whenever every
stored block type, the written one included, is valid); and an entry at the centre of the
written cell carries the colour and water flag of the block just written, none being
there after `BreakBlock`. -/
theorem update_after_write (w : OptimizedWorld) (x y z : Int) (b : Block) (t : Int)
    (q : Vector3) (hin : InWorld x y z) :
    (((w.SetBlock (Vector3.ofInt x y z) b).Update q).map (fun w1 => w1.visibleBlocks) =
      scanVisible (w.SetBlock (Vector3.ofInt x y z) b) q) ∧
    (((w.PlaceBlock (Vector3.ofInt x y z) t).Update q).map (fun w1 => w1.visibleBlocks) =
      scanVisible (w.PlaceBlock (Vector3.ofInt x y z) t) q) ∧
    (((w.BreakBlock (Vector3.ofInt x y z)).Update q).map (fun w1 => w1.visibleBlocks) =
      scanVisible (w.BreakBlock (Vector3.ofInt x y z)) q) ∧
    (∀ w1, (w.SetBlock (Vector3.ofInt x y z) b).Update q = some w1 →
      ∀ e ∈ w1.visibleBlocks, e.1 = cellCenter x y z →
        b.GetColor = some e.2.1 ∧ e.2.2 = (b.type == BLOCK_WATER)) ∧
    (∀ w1, (w.PlaceBlock (Vector3.ofInt x y z) t).Update q = some w1 →
      ∀ e ∈ w1.visibleBlocks, e.1 = cellCenter x y z →
        (Block.mk (toUChar t)).GetColor = some e.2.1 ∧ e.2.2 = (toUChar t == BLOCK_WATER)) ∧
    (∀ w1, (w.BreakBlock (Vector3.ofInt x y z)).Update q = some w1 →
      ∀ e ∈ w1.visibleBlocks, e.1 ≠ cellCenter x y z) ∧
    (AllTypesValid w →
      (b.type < BLOCK_COUNT → ∃ w1, (w.SetBlock (Vector3.ofInt x y z) b).Update q = some w1) ∧
      (toUChar t < BLOCK_COUNT →
        ∃ w1, (w.PlaceBlock (Vector3.ofInt x y z) t).Update q = some w1) ∧
      ∃ w1, (w.BreakBlock (Vector3.ofInt x y z)).Update q = some w1) := by
  rw [placeBlock_ofInt, breakBlock_ofInt]
  refine ⟨update_dirty_map _ q (setBlock_dirty_of_inWorld w x y z _ hin),
    update_dirty_map _ q (setBlock_dirty_of_inWorld w x y z _ hin),
    update_dirty_map _ q (setBlock_dirty_of_inWorld w x y z _ hin), ?_, ?_, ?_, ?_⟩
  · intro w1 hu e he hc
    exact (entry_after_setBlock w x y z b q hin w1 hu e he hc).2
  · intro w1 hu e he hc
    exact (entry_after_setBlock w x y z _ q hin w1 hu e he hc).2
  · intro w1 hu e he hc
    exact (entry_after_setBlock w x y z _ q hin w1 hu e he hc).1 rfl
  · intro hv
    exact ⟨fun hb => update_isSome _ (allTypesValid_setBlock w _ _ hv hb) q,
      fun ht => update_isSome _ (allTypesValid_setBlock w _ _ hv ht) q,
      update_isSome _ (allTypesValid_setBlock w _ _ hv (by decide)) q⟩

/-- Witness for C6: on a freshly generated world, STONE written at `(1, 2, 3)` and an
`Update` for the player at `(32, 40, 32)`. -/
theorem update_after_write_witness :
    (((OptimizedWorld.new (fun _ _ => 0) (fun _ => 0) 1337).SetBlock (Vector3.ofInt 1 2 3)
        ⟨BLOCK_STONE⟩).Update ⟨32, 40, 32⟩).map (fun w1 => w1.visibleBlocks) =
      scanVisible ((OptimizedWorld.new (fun _ _ => 0) (fun _ => 0) 1337).SetBlock
        (Vector3.ofInt 1 2 3) ⟨BLOCK_STONE⟩) ⟨32, 40, 32⟩ ∧
    ∃ w1, ((OptimizedWorld.new (fun _ _ => 0) (fun _ => 0) 1337).SetBlock (Vector3.ofInt 1 2 3)
        ⟨BLOCK_STONE⟩).Update ⟨32, 40, 32⟩ = some w1 :=
  ⟨(update_after_write (OptimizedWorld.new (fun _ _ => 0) (fun _ => 0) 1337) 1 2 3
      ⟨BLOCK_STONE⟩ 3 ⟨32, 40, 32⟩ (by unfold InWorld; decide)).1,
    ((update_after_write (OptimizedWorld.new (fun _ _ => 0) (fun _ => 0) 1337) 1 2 3
      ⟨BLOCK_STONE⟩ 3 ⟨32, 40, 32⟩ (by unfold InWorld; decide)).2.2.2.2.2.2
        (allTypesValid_new _ _ _)).1 (by decide)⟩

/-- C7. After `UpdateVisibleBlocks` rebuilds the cache for the player position `q`: every
entry belongs to a cell `(x, y, z)` with `x`, `z` in the window around `q`, `y` in `0..63`,
a block that is not AIR and at least one transparent neighbour (AIR, LEAVES, WATER or
outside the world), sits at the cell's centre, carries the block's colour and has
`isWater` true exactly when the block is WATER; every such cell has exactly one entry;
and no entry sits at a cell none of whose six neighbours is transparent. -/
theorem updateVisibleBlocks_cache (w w1 : OptimizedWorld) (q : Vector3)
    (hd : w.cacheDirty = true) (h : w.UpdateVisibleBlocks q = some w1) :
    (∀ e ∈ w1.visibleBlocks, ∃ x y z color, Shown w q x y z ∧
      (w.GetBlock (Vector3.ofInt x y z)).GetColor = some color ∧
      e = (cellCenter x y z, color, (w.GetBlock (Vector3.ofInt x y z)).type == BLOCK_WATER)) ∧
    (∀ x y z, Shown w q x y z →
      (w1.visibleBlocks.filter (fun e => decide (e.1 = cellCenter x y z))).length = 1) ∧
    (∀ x y z, ¬ Exposed w x y z → ∀ e ∈ w1.visibleBlocks, e.1 ≠ cellCenter x y z) ∧
    w1.cacheDirty = false ∧ w1.chunks = w.chunks := by
  rw [updateVisibleBlocks_dirty w q hd] at h
  cases hs : scanVisible w q with
  | none => simp [hs] at h
  | some l =>
    simp only [hs, Option.map_some', Option.some.injEq] at h
    subst h
    obtain ⟨h1, h2, h3⟩ := scanVisible_entries hs
    exact ⟨h1, h2, h3, rfl, rfl⟩

/-- Witness for C7: an all-AIR world with STONE written at `(0, 2, 3)`, rebuilt for the
player at the origin: the cache holds exactly one entry at the centre of that cell. -/
theorem updateVisibleBlocks_cache_witness :
    ∃ w1, ((OptimizedWorld.init 1337).SetBlock (Vector3.ofInt 0 2 3)
        ⟨BLOCK_STONE⟩).UpdateVisibleBlocks ⟨0, 0, 0⟩ = some w1 ∧
      (w1.visibleBlocks.filter (fun e => decide (e.1 = cellCenter 0 2 3))).length = 1 ∧
      w1.cacheDirty = false := by
  have hv := allTypesValid_setBlock _ (Vector3.ofInt 0 2 3) ⟨BLOCK_STONE⟩
    (allTypesValid_init 1337) (by decide)
  have hd := setBlock_dirty_of_inWorld (OptimizedWorld.init 1337) 0 2 3 ⟨BLOCK_STONE⟩
    (by unfold InWorld; decide)
  obtain ⟨w1, hu⟩ := updateVisibleBlocks_isSome _ hv ⟨0, 0, 0⟩
  have h := updateVisibleBlocks_cache _ w1 ⟨0, 0, 0⟩ hd hu
  have hget : ((OptimizedWorld.init 1337).SetBlock (Vector3.ofInt 0 2 3) ⟨BLOCK_STONE⟩).GetBlock
      (Vector3.ofInt 0 2 3) = ⟨BLOCK_STONE⟩ :=
    world_getBlock_setBlock_same _ _ _ _ (by simp only [floor_ofInt, InWorld]; decide)
      ⟨rfl, rfl, rfl⟩
  have hshown : Shown ((OptimizedWorld.init 1337).SetBlock (Vector3.ofInt 0 2 3) ⟨BLOCK_STONE⟩)
      ⟨0, 0, 0⟩ 0 2 3 := by
    refine ⟨?_, by decide, by decide, ?_, ?_⟩
    · have ht : truncToInt (0 : ℚ) = 0 := by simp [truncToInt]
      unfold InWindow
      simp only [ht]
      decide
    · rw [hget]
      decide
    · exact Or.inr (Or.inl (Or.inl (by unfold InWorld; decide)))
  exact ⟨w1, hu, h.2.1 0 2 3 hshown, h.2.2.2.1⟩

/-! ## Binary32 addition: computing values -/

/-- The exponent of `x` is the `e` with `2 ^ e ≤ |x| < 2 ^ (e + 1)`, in the normal range. -/
theorem float32Exponent_eq (x : ℚ) (e : Int) (h1 : (2 : ℚ) ^ e ≤ |x|)
    (h2 : |x| < (2 : ℚ) ^ (e + 1)) (he : -126 ≤ e) : float32Exponent x = e := by
  have hpos : 0 < |x| := lt_of_lt_of_le (by positivity) h1
  have ha : e ≤ Int.log 2 |x| := (Int.zpow_le_iff_le_log (by norm_num) hpos).mp h1
  have hb : Int.log 2 |x| < e + 1 := (Int.lt_zpow_iff_log_lt (by norm_num) hpos).mp h2
  unfold float32Exponent
  omega

/-- The binary32 value nearest to `x`, from the exponent `e` of `x` and the integer `m`
nearest to `x / 2 ^ (e - 23)`. -/
theorem roundF32_eval (x : ℚ) (e m : Int) (h1 : (2 : ℚ) ^ e ≤ |x|)
    (h2 : |x| < (2 : ℚ) ^ (e + 1)) (he : -126 ≤ e)
    (hm : roundEven (x / (2 : ℚ) ^ (e - 23)) = m) :
    roundF32 x = (m : ℚ) * (2 : ℚ) ^ (e - 23) := by
  have hx : x ≠ 0 := by
    intro h
    rw [h, abs_zero] at h1
    exact absurd h1 (not_le.mpr (by positivity))
  unfold roundF32
  rw [if_neg hx, float32Exponent_eq x e h1 h2 he, hm]

/-- The `float` sums of the sample frame times: 3/8, 3/4 and 9/8 are binary32 values, and
`0.5 + (0.5 - 2 ^ (-25))`, halfway between the binary32 values `1 - 2 ^ (-24)` and 1, rounds
to 1. -/
theorem fadd32_samples :
    fadd32 0 (3 / 8) = 3 / 8 ∧ fadd32 (3 / 8) (3 / 8) = 3 / 4 ∧
    fadd32 (3 / 4) (3 / 8) = 9 / 8 ∧ fadd32 0 (1 / 2) = 1 / 2 ∧
    fadd32 (1 / 2) (1 / 2 - 1 / 33554432) = 1 := by
  unfold fadd32
  refine ⟨?_, ?_, ?_, ?_, ?_⟩
  · rw [roundF32_eval _ (-2) 12582912 (by norm_num [abs_of_pos]) (by norm_num [abs_of_pos])
      (by norm_num) (by norm_num [roundEven])]
    norm_num
  · rw [roundF32_eval _ (-1) 12582912 (by norm_num [abs_of_pos]) (by norm_num [abs_of_pos])
      (by norm_num) (by norm_num [roundEven])]
    norm_num
  · rw [roundF32_eval _ 0 9437184 (by norm_num [abs_of_pos]) (by norm_num [abs_of_pos])
      (by norm_num) (by norm_num [roundEven])]
    norm_num
  · rw [roundF32_eval _ (-1) 8388608 (by norm_num [abs_of_pos]) (by norm_num [abs_of_pos])
      (by norm_num) (by norm_num [roundEven])]
    norm_num
  · rw [roundF32_eval _ (-1) 16777216 (by norm_num [abs_of_pos]) (by norm_num [abs_of_pos])
      (by norm_num) (by norm_num [roundEven])]
    norm_num

/-! ## The controller: single frames -/

/-- After `BreakBlock` at a position, the read at that position returns AIR. -/
theorem getBlock_breakBlock_self (w : OptimizedWorld) (p : Vector3) :
    (w.BreakBlock p).GetBlock p = ⟨BLOCK_AIR⟩ := by
  unfold OptimizedWorld.BreakBlock
  simp only []
  by_cases hin : InWorld ⌊p.x⌋ ⌊p.y⌋ ⌊p.z⌋
  · exact world_getBlock_setBlock_same w _ p _ (by simpa using hin) (by simp)
  · rw [world_getBlock_setBlock_other w _ p _ (by simpa using fun h => absurd h hin)]
    rw [getBlock_congr_floor w p (Vector3.ofInt ⌊p.x⌋ ⌊p.y⌋ ⌊p.z⌋) (by simp [Vector3.ofInt])
      (by simp [Vector3.ofInt]) (by simp [Vector3.ofInt])]
    exact getBlock_air_of_not_inWorld w _ _ _ hin

/-- `Vector3Equals` holds of a vector and itself. -/
theorem vector3Equals_self (p : Vector3) : Vector3Equals p p = true := by
  unfold Vector3Equals
  simp only [sub_self, abs_zero, Bool.and_eq_true, decide_eq_true_eq]
  refine ⟨⟨?_, ?_⟩, ?_⟩ <;> positivity

/-- Block selection writes `selectedBlockType` only. -/
theorem selectBlock_fields (c : Character) (inp : FrameInput) :
    (c.selectBlock inp).position = c.position ∧
    (c.selectBlock inp).reachDistance = c.reachDistance ∧
    (c.selectBlock inp).breakProgress = c.breakProgress ∧
    (c.selectBlock inp).breakTimer = c.breakTimer ∧
    (c.selectBlock inp).isBreaking = c.isBreaking ∧
    (c.selectBlock inp).breakingBlock = c.breakingBlock := by
  unfold Character.selectBlock
  simp only []
  split_ifs <;> exact ⟨rfl, rfl, rfl, rfl, rfl, rfl⟩

/-- The place action leaves the controller as it is and calls no `BreakBlock`. -/
theorem handlePlaceInput_character (g : Game) (inp : FrameInput) :
    (g.handlePlaceInput inp).character = g.character ∧
      breakCalls (g.handlePlaceInput inp).calls = breakCalls g.calls := by
  unfold Game.handlePlaceInput
  simp only []
  split_ifs
  · cases inp.raycast g.world g.character.reachDistance with
    | none => exact ⟨rfl, rfl⟩
    | some hit =>
      simp only []
      split_ifs
      · simp [Game.PlaceBlock, breakCalls, List.filterMap_append]
      · exact ⟨rfl, rfl⟩
  · exact ⟨rfl, rfl⟩

/-- Without a place action the right-button code does nothing. -/
theorem handlePlaceInput_noop (g : Game) (inp : FrameInput) (h : inp.rightPressed = false) :
    g.handlePlaceInput inp = g := by
  unfold Game.handlePlaceInput
  simp only [h]
  rfl

/-- The left-button code with the button held: no world call; the target is (re)acquired
with the timer at 0 when idle or when the hit block differs, kept otherwise; a miss
returns to idle. -/
theorem handleBreakInput_held (g : Game) (inp : FrameInput) (h : inp.leftDown = true) :
    (g.handleBreakInput inp).world = g.world ∧ (g.handleBreakInput inp).calls = g.calls := by
  unfold Game.handleBreakInput
  simp only [h, if_true]
  cases inp.raycast g.world g.character.reachDistance with
  | none => exact ⟨rfl, rfl⟩
  | some hit =>
    simp only []
    split_ifs <;> exact ⟨rfl, rfl⟩

/-- The break fields after the left-button code when the button is held and the raycast
hits `target`, from a state that is idle or already breaking `target`. -/
theorem handleBreakInput_hit (g : Game) (inp : FrameInput) (target : Vector3) (hit : RayHit)
    (hl : inp.leftDown = true)
    (hray : inp.raycast g.world g.character.reachDistance = some hit)
    (hb : hit.blockPos = target)
    (hst : g.character.isBreaking = false ∨ g.character.breakingBlock = target) :
    (g.handleBreakInput inp).character.isBreaking = true ∧
    (g.handleBreakInput inp).character.breakingBlock = target ∧
    (g.handleBreakInput inp).character.breakTimer =
      (if g.character.isBreaking then g.character.breakTimer else 0) := by
  unfold Game.handleBreakInput
  simp only [hl, if_true, hray, hb]
  cases hi : g.character.isBreaking with
  | false => simp
  | true =>
    have ht : g.character.breakingBlock = target := by
      rcases hst with h | h
      · rw [hi] at h; cases h
      · exact h
    simp [ht, vector3Equals_self, hi]

/-- `HandleInput` keeps the break fields and the world calls of its left-button code,
apart from a `PlaceBlock` the place action may add. -/
theorem handleInput_eq (g : Game) (inp : FrameInput) :
    (g.HandleInput inp).character =
        (({ g with character := g.character.selectBlock inp } : Game).handleBreakInput
          inp).character ∧
      breakCalls (g.HandleInput inp).calls =
        breakCalls (({ g with character := g.character.selectBlock inp } : Game).handleBreakInput
          inp).calls ∧
      (inp.rightPressed = false →
        g.HandleInput inp =
          ({ g with character := g.character.selectBlock inp } : Game).handleBreakInput inp) := by
  unfold Game.HandleInput
  simp only []
  exact ⟨(handlePlaceInput_character _ inp).1, (handlePlaceInput_character _ inp).2,
    fun h => handlePlaceInput_noop _ inp h⟩

/-- A frame with the primary action held on `target`, from a state that is idle or already
breaking `target`.  `T` is the `float` sum of the timer so far and this frame's time.  While `T` stays
below 1 the frame calls no `BreakBlock` and keeps breaking `target` with the timer at `T`;
once `T` reaches 1 it calls `BreakBlock target` once and returns to idle. -/
theorem update_held (g : Game) (inp : FrameInput) (target : Vector3) (hit : RayHit)
    (hl : inp.leftDown = true)
    (hray : inp.raycast g.world g.character.reachDistance = some hit)
    (hb : hit.blockPos = target)
    (hst : g.character.isBreaking = false ∨ g.character.breakingBlock = target) :
    (fadd32 (if g.character.isBreaking then g.character.breakTimer else 0) inp.frameTime < 1 →
      (g.Update inp).character.isBreaking = true ∧
      (g.Update inp).character.breakingBlock = target ∧
      (g.Update inp).character.breakTimer =
        fadd32 (if g.character.isBreaking then g.character.breakTimer else 0) inp.frameTime ∧
      breakCalls (g.Update inp).calls = breakCalls g.calls ∧
      (inp.rightPressed = false →
        (g.Update inp).world = g.world ∧ (g.Update inp).calls = g.calls)) ∧
    (1 ≤ fadd32 (if g.character.isBreaking then g.character.breakTimer else 0) inp.frameTime →
      (g.Update inp).character.isBreaking = false ∧
      (g.Update inp).character.breakProgress = 0 ∧
      (g.Update inp).character.breakTimer = 0 ∧
      breakCalls (g.Update inp).calls = breakCalls g.calls ++ [target] ∧
      (g.Update inp).world.GetBlock target = ⟨BLOCK_AIR⟩ ∧
      (inp.rightPressed = false →
        (g.Update inp).world = g.world.BreakBlock target ∧
        (g.Update inp).calls = g.calls ++ [WorldCall.BreakBlock target])) := by
  obtain ⟨hc, hcalls, hnp⟩ := handleInput_eq g inp
  have hsel := selectBlock_fields g.character inp
  have hheld := handleBreakInput_held ({ g with character := g.character.selectBlock inp }) inp hl
  have hhit := handleBreakInput_hit ({ g with character := g.character.selectBlock inp }) inp
    target hit hl (by simpa only [hsel.2.1] using hray) hb
    (by simpa only [hsel.2.2.2.2.1, hsel.2.2.2.2.2] using hst)
  simp only [hsel.2.2.2.2.1, hsel.2.2.2.1] at hhit
  rw [← hc] at hhit
  rw [hheld.2] at hcalls
  obtain ⟨h1, h2, h3⟩ := hhit
  constructor
  · intro hT
    unfold Game.Update
    simp only [h1, h2, h3, if_true, if_neg (not_le.mpr hT)]
    refine ⟨trivial, trivial, trivial, hcalls, ?_⟩
    intro hr
    rw [hnp hr]
    exact hheld
  · intro hT
    unfold Game.Update
    simp only [h1, h2, h3, if_true, ge_iff_le, if_pos hT, Game.BreakBlock]
    refine ⟨trivial, trivial, trivial, ?_, getBlock_breakBlock_self _ _, ?_⟩
    · simp [breakCalls, List.filterMap_append] at hcalls ⊢
      exact hcalls
    · intro hr
      rw [hnp hr, hheld.1, hheld.2]
      exact ⟨rfl, rfl⟩

/-! ## The controller: sequences of frames -/

/-- Playing one more frame. -/
theorem run_take_succ (g0 : Game) (inputs : List FrameInput) (n : Nat) (inp : FrameInput)
    (h : inputs[n]? = some inp) :
    g0.run (inputs.take (n + 1)) = (g0.run (inputs.take n)).Update inp := by
  unfold Game.run
  rw [List.take_succ, h, List.foldl_append]
  rfl

/-- Frame time accumulated over one more frame. -/
theorem accumulated_succ (inputs : List FrameInput) (n : Nat) (inp : FrameInput)
    (h : inputs[n]? = some inp) :
    accumulated inputs (n + 1) = accumulated inputs n + inp.frameTime := by
  unfold accumulated
  rw [List.take_succ, h]
  simp

/-- No frame time is accumulated over no frame. -/
theorem accumulated_zero (inputs : List FrameInput) : accumulated inputs 0 = 0 := by
  simp [accumulated]

/-- A timer set to 0 before frame `k` holds 0 before frame `k`. -/
theorem timerAfter_self (inputs : List FrameInput) (k : Nat) : timerAfter inputs k k = 0 := by
  unfold timerAfter
  have h : (inputs.take k).drop k = [] := by
    apply List.drop_eq_nil_of_le
    exact List.length_take_le k inputs
  rw [h]
  rfl

/-- One more frame adds its frame time to the timer with a `float` addition. -/
theorem timerAfter_succ (inputs : List FrameInput) (k n : Nat) (inp : FrameInput)
    (hk : k ≤ n) (h : inputs[n]? = some inp) :
    timerAfter inputs k (n + 1) = fadd32 (timerAfter inputs k n) inp.frameTime := by
  have hn : n < inputs.length := by
    by_contra hc
    rw [List.getElem?_eq_none (not_lt.mp hc)] at h
    cases h
  unfold timerAfter
  rw [List.take_succ, h]
  have hlen : k ≤ (inputs.take n).length := by
    rw [List.length_take]
    omega
  rw [Option.toList, List.drop_append_of_le_length hlen, List.map_append, List.foldl_append]
  rfl

/-- While the primary action is held on `target` from idle and the `float` timer started
with the first frame stays below 1: after `n` frames no `BreakBlock` has been called, the
world is untouched unless a place action occurred, and from the first frame on the
controller is breaking `target` with `breakTimer` at that timer. -/
theorem held_below (g0 : Game) (target : Vector3) (inputs : List FrameInput)
    (hidle : g0.character.isBreaking = false) (n : Nat) (hn : n ≤ inputs.length)
    (hheld : ∀ k, k < n → HeldOn g0 target inputs k)
    (hbelow : ∀ k, 1 ≤ k → k ≤ n → timerAfter inputs 0 k < 1) :
    (if (g0.run (inputs.take n)).character.isBreaking then
        (g0.run (inputs.take n)).character.breakTimer else 0) = timerAfter inputs 0 n ∧
    ((g0.run (inputs.take n)).character.isBreaking = false ∨
      (g0.run (inputs.take n)).character.breakingBlock = target) ∧
    (1 ≤ n → (g0.run (inputs.take n)).character.isBreaking = true ∧
      (g0.run (inputs.take n)).character.breakingBlock = target ∧
      (g0.run (inputs.take n)).character.breakTimer = timerAfter inputs 0 n) ∧
    breakCalls (g0.run (inputs.take n)).calls = breakCalls g0.calls ∧
    ((∀ k, k < n → NoPlace inputs k) →
      (g0.run (inputs.take n)).world = g0.world ∧
      (g0.run (inputs.take n)).calls = g0.calls) := by
  induction n with
  | zero =>
    simp only [List.take_zero, Game.run, List.foldl_nil, hidle, timerAfter_self]
    simp
  | succ m ih =>
    have hm : m < inputs.length := hn
    obtain ⟨ih1, ih2, _, ih4, ih5⟩ := ih (Nat.le_of_lt hm)
      (fun k hk => hheld k (Nat.lt_succ_of_lt hk))
      (fun k h1 hk => hbelow k h1 (Nat.le_succ_of_le hk))
    have hget : inputs[m]? = some (inputs[m]) := List.getElem?_eq_getElem hm
    obtain ⟨hl, hit, hray, hb⟩ := hheld m (Nat.lt_succ_self m) m _ (le_refl m) hget
    have hstep := update_held (g0.run (inputs.take m)) inputs[m] target hit hl hray hb ih2
    rw [ih1, ← timerAfter_succ inputs 0 m _ (Nat.zero_le m) hget, ← run_take_succ g0 inputs m _ hget] at hstep
    obtain ⟨h1, h2, h3, h4, h5⟩ := hstep.1 (hbelow (m + 1) (Nat.succ_le_succ (Nat.zero_le m))
      (le_refl _))
    refine ⟨by rw [h1, if_pos rfl, h3], Or.inr h2, fun _ => ⟨h1, h2, h3⟩, by rw [h4, ih4], ?_⟩
    intro hnp
    obtain ⟨hw, hc⟩ := ih5 (fun k hk => hnp k (Nat.lt_succ_of_lt hk))
    obtain ⟨hw', hc'⟩ := h5 (hnp m (Nat.lt_succ_self m) m _ (le_refl m) hget)
    exact ⟨by rw [hw', hw], by rw [hc', hc]⟩

/-! ## Break progress -/

/-- A frame keeps the break progress below 1. -/
theorem update_breakProgress_lt_one (g : Game) (inp : FrameInput)
    (h : g.character.breakProgress < 1) : (g.Update inp).character.breakProgress < 1 := by
  have hsel := selectBlock_fields g.character inp
  have hin : (g.HandleInput inp).character.breakProgress < 1 := by
    rw [(handleInput_eq g inp).1]
    unfold Game.handleBreakInput
    simp only []
    by_cases hl : inp.leftDown = true
    · rw [if_pos hl]
      cases inp.raycast g.world (g.character.selectBlock inp).reachDistance with
      | none => exact zero_lt_one
      | some hit =>
        simp only []
        split_ifs
        · simpa only [hsel.2.2.1] using h
        · simpa only [hsel.2.2.1] using h
    · rw [if_neg hl]
      by_cases hr : inp.leftReleased = true
      · rw [if_pos hr]
        exact zero_lt_one
      · rw [if_neg hr]
        simpa only [hsel.2.2.1] using h
  unfold Game.Update
  simp only []
  split_ifs with h1 h2
  · exact zero_lt_one
  · simp only [div_one]
    exact not_le.mp h2
  · exact hin

/-- In every reachable state the break progress is below 1. -/
theorem reachable_breakProgress_lt_one (g : Game) (h : Game.Reachable g) :
    g.character.breakProgress < 1 := by
  induction h with
  | construct w startPos junk => exact zero_lt_one
  | update g inp _ ih => exact update_breakProgress_lt_one g inp ih
  | worldUpdate g playerPos w1 _ _ ih => exact ih

/-- A frame in which the primary action is released, from a state whose break progress is
below 1: no `BreakBlock` call, no world change unless a place action occurs, and the
controller ends idle with progress and timer at 0. -/
theorem update_released (g : Game) (inp : FrameInput)
    (hp : g.character.breakProgress < 1)
    (hl : inp.leftDown = false) (hrel : inp.leftReleased = true) :
    breakCalls (g.Update inp).calls = breakCalls g.calls ∧
    (inp.rightPressed = false →
      (g.Update inp).world = g.world ∧ (g.Update inp).calls = g.calls) ∧
    (g.Update inp).character.isBreaking = false ∧
    (g.Update inp).character.breakProgress = 0 ∧
    (g.Update inp).character.breakTimer = 0 := by
  obtain ⟨hc, hcalls, hnp⟩ := handleInput_eq g inp
  have hsel := selectBlock_fields g.character inp
  have hbr : ({ g with character := g.character.selectBlock inp } : Game).handleBreakInput inp =
      { g with character :=
          { g.character.selectBlock inp with
            isBreaking := false, breakProgress := 0, breakTimer := 0 } } := by
    unfold Game.handleBreakInput
    simp only [hl, hrel, if_true, Bool.false_eq_true, if_false]
    rw [if_neg]
    simp only [hsel.2.2.1, Bool.and_eq_true, decide_eq_true_eq, not_and, not_le]
    exact fun _ => hp
  rw [hbr] at hc hcalls hnp
  unfold Game.Update
  simp only [hc, Bool.false_eq_true, if_false]
  refine ⟨hcalls, ?_, trivial, trivial, trivial⟩
  intro hr
  rw [hnp hr]
  exact ⟨rfl, rfl⟩

/-! ## Claims on the breaking state machine -/

/-- C9, as the code has it. From idle, over frames in which the primary action is held and
the raycast hits the same block `target`; the timer is the `float` sum of the frame times,
rounded after every addition. In a frame at whose end the timer is still below 1 no
`BreakBlock` is called and, unless the frame has a place action, the world is unchanged; in
the first frame at whose end the timer has reached 1 exactly one `BreakBlock` call is
made, on `target`, the read at `target` then returns AIR, the world is that of the frame's
start with `target` broken (a place action aside), and the controller ends the frame idle
with progress and timer 0.  Over frames without place action the world stays the initial
one until the break. -/
theorem hold_breaks_once (g0 : Game) (target : Vector3) (inputs : List FrameInput) (n : Nat)
    (inp : FrameInput)
    (hidle : g0.character.isBreaking = false)
    (hget : inputs[n]? = some inp)
    (hheld : HeldOn g0 target inputs n)
    (hbelow : ∀ k, 1 ≤ k → k ≤ n → timerAfter inputs 0 k < 1) :
    (timerAfter inputs 0 (n + 1) < 1 →
      breakCalls (g0.run (inputs.take (n + 1))).calls =
        breakCalls (g0.run (inputs.take n)).calls ∧
      (inp.rightPressed = false →
        (g0.run (inputs.take (n + 1))).world = (g0.run (inputs.take n)).world ∧
        (g0.run (inputs.take (n + 1))).calls = (g0.run (inputs.take n)).calls) ∧
      (NoPlace inputs n → (g0.run (inputs.take (n + 1))).world = g0.world) ∧
      (g0.run (inputs.take (n + 1))).character.isBreaking = true ∧
      (g0.run (inputs.take (n + 1))).character.breakingBlock = target ∧
      (g0.run (inputs.take (n + 1))).character.breakTimer = timerAfter inputs 0 (n + 1)) ∧
    (1 ≤ timerAfter inputs 0 (n + 1) →
      breakCalls (g0.run (inputs.take (n + 1))).calls =
        breakCalls (g0.run (inputs.take n)).calls ++ [target] ∧
      breakCalls (g0.run (inputs.take n)).calls = breakCalls g0.calls ∧
      (g0.run (inputs.take (n + 1))).world.GetBlock target = ⟨BLOCK_AIR⟩ ∧
      (inp.rightPressed = false →
        (g0.run (inputs.take (n + 1))).world =
          (g0.run (inputs.take n)).world.BreakBlock target ∧
        (g0.run (inputs.take (n + 1))).calls =
          (g0.run (inputs.take n)).calls ++ [WorldCall.BreakBlock target]) ∧
      (NoPlace inputs n →
        (g0.run (inputs.take (n + 1))).world = g0.world.BreakBlock target ∧
        (g0.run (inputs.take (n + 1))).calls = g0.calls ++ [WorldCall.BreakBlock target]) ∧
      (g0.run (inputs.take (n + 1))).character.isBreaking = false ∧
      (g0.run (inputs.take (n + 1))).character.breakProgress = 0 ∧
      (g0.run (inputs.take (n + 1))).character.breakTimer = 0) := by
  have hn : n < inputs.length := by
    by_contra hc
    rw [List.getElem?_eq_none (not_lt.mp hc)] at hget
    cases hget
  obtain ⟨ih1, ih2, _, ih4, ih5⟩ := held_below g0 target inputs hidle n (Nat.le_of_lt hn)
    (fun k hk k' inp' hk' hg => hheld k' inp' (le_trans hk' (Nat.le_of_lt hk)) hg) hbelow
  obtain ⟨hl, hit, hray, hb⟩ := hheld n inp (le_refl n) hget
  have hstep := update_held (g0.run (inputs.take n)) inp target hit hl hray hb ih2
  rw [ih1, ← timerAfter_succ inputs 0 n _ (Nat.zero_le n) hget, ← run_take_succ g0 inputs n _ hget] at hstep
  have hprev : NoPlace inputs n → ∀ k, k < n → NoPlace inputs k :=
    fun hnp k hk k' inp' hk' hg => hnp k' inp' (le_trans hk' (Nat.le_of_lt hk)) hg
  constructor
  · intro hT
    obtain ⟨h1, h2, h3, h4, h5⟩ := hstep.1 hT
    refine ⟨h4, h5, ?_, h1, h2, h3⟩
    intro hnp
    rw [(h5 (hnp n inp (le_refl n) hget)).1, (ih5 (hprev hnp)).1]
  · intro hT
    obtain ⟨h1, h2, h3, h4, h5, h6⟩ := hstep.2 hT
    refine ⟨h4, ih4, h5, h6, ?_, h1, h2, h3⟩
    intro hnp
    obtain ⟨hw, hc⟩ := h6 (hnp n inp (le_refl n) hget)
    rw [hw, hc, (ih5 (hprev hnp)).1, (ih5 (hprev hnp)).2]
    exact ⟨rfl, rfl⟩

/-- The sample frames hold the primary action on the block `(30, 20, 30)`. -/
theorem sample_heldOn :
    HeldOn sampleGame ⟨30, 20, 30⟩ [sampleHeldFrame, sampleHeldFrame, sampleHeldFrame] 2 := by
  intro k inp hk hg
  have hinp : inp = sampleHeldFrame := by
    interval_cases k <;> simpa using hg.symm
  subst hinp
  exact ⟨rfl, _, rfl, rfl⟩

/-- The `float` timer over the sample frames: 3/8, 3/4, 9/8. -/
theorem sample_timer :
    timerAfter [sampleHeldFrame, sampleHeldFrame, sampleHeldFrame] 0 1 = 3 / 8 ∧
    timerAfter [sampleHeldFrame, sampleHeldFrame, sampleHeldFrame] 0 2 = 3 / 4 ∧
    timerAfter [sampleHeldFrame, sampleHeldFrame, sampleHeldFrame] 0 3 = 9 / 8 := by
  have h := fadd32_samples
  refine ⟨?_, ?_, ?_⟩
  · show fadd32 0 (3 / 8) = 3 / 8
    exact h.1
  · show fadd32 (fadd32 0 (3 / 8)) (3 / 8) = 3 / 4
    rw [h.1, h.2.1]
  · show fadd32 (fadd32 (fadd32 0 (3 / 8)) (3 / 8)) (3 / 8) = 9 / 8
    rw [h.1, h.2.1, h.2.2.1]

/-- Witness for C9: three frames of 3/8 second each held on the block `(30, 20, 30)`; the
third frame brings the timer to 9/8 and breaks the block. -/
theorem hold_breaks_once_witness :
    breakCalls (sampleGame.run
        ([sampleHeldFrame, sampleHeldFrame, sampleHeldFrame].take (2 + 1))).calls =
      breakCalls (sampleGame.run
        ([sampleHeldFrame, sampleHeldFrame, sampleHeldFrame].take 2)).calls ++
        [⟨30, 20, 30⟩] ∧
    (sampleGame.run ([sampleHeldFrame, sampleHeldFrame, sampleHeldFrame].take (2 + 1))).world =
      sampleGame.world.BreakBlock ⟨30, 20, 30⟩ ∧
    (sampleGame.run
      ([sampleHeldFrame, sampleHeldFrame, sampleHeldFrame].take (2 + 1))).character.isBreaking
      = false := by
  have h := (hold_breaks_once sampleGame ⟨30, 20, 30⟩
    [sampleHeldFrame, sampleHeldFrame, sampleHeldFrame] 2 sampleHeldFrame rfl rfl sample_heldOn
    (by
      intro k h1 h2
      interval_cases k
      · rw [sample_timer.1]; norm_num
      · rw [sample_timer.2.1]; norm_num)).2
    (by rw [sample_timer.2.2]; norm_num)
  refine ⟨h.1, (h.2.2.2.2.1 ?_).1, h.2.2.2.2.2.1⟩
  intro k inp hk hg
  have hinp : inp = sampleHeldFrame := by
    interval_cases k <;> simpa using hg.symm
  subst hinp
  rfl

/-- C10, as the code has it. For every controller state the program can reach that is
breaking with elapsed time below 1, a frame in which the primary action is released calls
no `BreakBlock`, leaves the world unchanged if the frame has no place action (a place
action in the same frame is carried out), and ends with `isBreaking` false,
`breakProgress` 0 and `breakTimer` 0. -/
theorem release_before_break (g : Game) (inp : FrameInput)
    (hr : Game.Reachable g)
    (_hb : g.character.isBreaking = true) (_ht : g.character.breakTimer < 1)
    (hl : inp.leftDown = false) (hrel : inp.leftReleased = true) :
    breakCalls (g.Update inp).calls = breakCalls g.calls ∧
    (inp.rightPressed = false →
      (g.Update inp).world = g.world ∧ (g.Update inp).calls = g.calls) ∧
    (g.Update inp).character.isBreaking = false ∧
    (g.Update inp).character.breakProgress = 0 ∧
    (g.Update inp).character.breakTimer = 0 :=
  update_released g inp (reachable_breakProgress_lt_one g hr) hl hrel

/-- After one sample frame the controller is breaking with the timer at 3/8. -/
theorem sample_after_one_frame :
    (sampleGame.Update sampleHeldFrame).character.isBreaking = true ∧
      (sampleGame.Update sampleHeldFrame).character.breakTimer = 3 / 8 := by
  have hT : fadd32 (if sampleGame.character.isBreaking then sampleGame.character.breakTimer
      else 0) sampleHeldFrame.frameTime = 3 / 8 := fadd32_samples.1
  have h := (update_held sampleGame sampleHeldFrame ⟨30, 20, 30⟩ _ rfl rfl rfl (Or.inl rfl)).1
    (by rw [hT]; norm_num)
  refine ⟨h.1, ?_⟩
  rw [h.2.2.1, hT]

/-- Witness for C10: the primary action held for one frame of 3/8 second, then released. -/
theorem release_before_break_witness :
    breakCalls ((sampleGame.Update sampleHeldFrame).Update sampleReleaseFrame).calls =
      breakCalls (sampleGame.Update sampleHeldFrame).calls ∧
    (sampleReleaseFrame.rightPressed = false →
      ((sampleGame.Update sampleHeldFrame).Update sampleReleaseFrame).world =
        (sampleGame.Update sampleHeldFrame).world ∧
      ((sampleGame.Update sampleHeldFrame).Update sampleReleaseFrame).calls =
        (sampleGame.Update sampleHeldFrame).calls) ∧
    ((sampleGame.Update sampleHeldFrame).Update sampleReleaseFrame).character.isBreaking
      = false ∧
    ((sampleGame.Update sampleHeldFrame).Update sampleReleaseFrame).character.breakProgress
      = 0 ∧
    ((sampleGame.Update sampleHeldFrame).Update sampleReleaseFrame).character.breakTimer = 0 :=
  release_before_break (sampleGame.Update sampleHeldFrame) sampleReleaseFrame
    (Game.Reachable.update _ _ (Game.Reachable.construct _ _ _))
    sample_after_one_frame.1
    (by rw [sample_after_one_frame.2]; norm_num) rfl rfl

/-! ## Placement -/

/-- The right-button code when the place action is pressed and the raycast hits: a
`PlaceBlock` of the selected type at hit block plus normal when the squared distance from
that position to the player's position exceeds `1.5 * 1.5`, nothing otherwise. -/
theorem handlePlaceInput_hit (g : Game) (inp : FrameInput) (hit : RayHit)
    (hr : inp.rightPressed = true)
    (hray : inp.raycast g.world g.character.reachDistance = some hit) :
    g.handlePlaceInput inp =
      if Vector3DistanceSqr
          ⟨hit.blockPos.x + hit.normal.x, hit.blockPos.y + hit.normal.y,
            hit.blockPos.z + hit.normal.z⟩ g.character.position > (3 / 2) * (3 / 2) then
        g.PlaceBlock
          ⟨hit.blockPos.x + hit.normal.x, hit.blockPos.y + hit.normal.y,
            hit.blockPos.z + hit.normal.z⟩ g.character.selectedBlockType
      else g := by
  unfold Game.handlePlaceInput
  simp only [hr, if_true, hray]

/-- After `PlaceBlock` at a position whose cell is in the world, the read at that position
returns the block of the given type cast to `unsigned char`. -/
theorem getBlock_placeBlock_self (w : OptimizedWorld) (p : Vector3) (t : Int)
    (hin : InWorld ⌊p.x⌋ ⌊p.y⌋ ⌊p.z⌋) : (w.PlaceBlock p t).GetBlock p = ⟨toUChar t⟩ := by
  unfold OptimizedWorld.PlaceBlock
  exact world_getBlock_setBlock_same w _ p _ (by simpa using hin) (by simp)

/-- The cast to `unsigned char` keeps a value in `0..255`. -/
theorem toUChar_of_lt (t : Int) (h0 : 0 ≤ t) (h1 : t < 256) : ((toUChar t : Nat) : Int) = t := by
  unfold toUChar
  omega

/-- Block selection leaves the selected type in `1..5` when it was there. -/
theorem selectBlock_range (c : Character) (inp : FrameInput)
    (h : 1 ≤ c.selectedBlockType ∧ c.selectedBlockType ≤ 5) :
    1 ≤ (c.selectBlock inp).selectedBlockType ∧ (c.selectBlock inp).selectedBlockType ≤ 5 := by
  unfold Character.selectBlock
  simp only []
  split_ifs <;> first | exact h | (constructor <;> norm_num)

/-- The left-button code does not write the selected block type. -/
theorem handleBreakInput_selected (g : Game) (inp : FrameInput) :
    (g.handleBreakInput inp).character.selectedBlockType = g.character.selectedBlockType := by
  unfold Game.handleBreakInput
  simp only []
  by_cases hl : inp.leftDown = true
  · rw [if_pos hl]
    cases inp.raycast g.world g.character.reachDistance with
    | none => rfl
    | some hit =>
      simp only []
      split_ifs <;> rfl
  · rw [if_neg hl]
    split_ifs <;> rfl

/-- In every reachable state the selected block type is one of `1..5`. -/
theorem reachable_selectedBlockType (g : Game) (h : Game.Reachable g) :
    1 ≤ g.character.selectedBlockType ∧ g.character.selectedBlockType ≤ 5 := by
  induction h with
  | construct w startPos junk => exact ⟨by norm_num [Character.new], by norm_num [Character.new]⟩
  | update g inp _ ih =>
    have h1 : (g.HandleInput inp).character.selectedBlockType =
        (g.character.selectBlock inp).selectedBlockType := by
      rw [(handleInput_eq g inp).1, handleBreakInput_selected]
    have h2 : (g.Update inp).character.selectedBlockType =
        (g.HandleInput inp).character.selectedBlockType := by
      unfold Game.Update
      simp only []
      split_ifs <;> rfl
    rw [h2, h1]
    exact selectBlock_range _ _ ih
  | worldUpdate g playerPos w1 _ _ ih => exact ih

/-- C11. On a place action whose raycast hits, with candidate position the hit block
coordinates plus the face normal: if the distance from the candidate position to the
player's feet position is at most 1.5 (squared distance at most `1.5 * 1.5`) the world is
unchanged and no world call is made; if it is greater and the candidate's cell lies inside
the world, `PlaceBlock` is called once and the read at the candidate position then returns
the block of the selected type (cast to `unsigned char`, the type itself for the values
`0..255`, among them the controller's `1..5`). -/
theorem place_action (g : Game) (inp : FrameInput) (hit : RayHit)
    (hr : inp.rightPressed = true)
    (hray : inp.raycast g.world g.character.reachDistance = some hit) :
    (Vector3DistanceSqr
        ⟨hit.blockPos.x + hit.normal.x, hit.blockPos.y + hit.normal.y,
          hit.blockPos.z + hit.normal.z⟩ g.character.position ≤ (3 / 2) * (3 / 2) →
      (g.handlePlaceInput inp).world = g.world ∧ (g.handlePlaceInput inp).calls = g.calls) ∧
    (Vector3DistanceSqr
        ⟨hit.blockPos.x + hit.normal.x, hit.blockPos.y + hit.normal.y,
          hit.blockPos.z + hit.normal.z⟩ g.character.position > (3 / 2) * (3 / 2) →
      InWorld ⌊hit.blockPos.x + hit.normal.x⌋ ⌊hit.blockPos.y + hit.normal.y⌋
        ⌊hit.blockPos.z + hit.normal.z⌋ →
      (g.handlePlaceInput inp).calls = g.calls ++
        [WorldCall.PlaceBlock
          ⟨hit.blockPos.x + hit.normal.x, hit.blockPos.y + hit.normal.y,
            hit.blockPos.z + hit.normal.z⟩ g.character.selectedBlockType] ∧
      (g.handlePlaceInput inp).world.GetBlock
          ⟨hit.blockPos.x + hit.normal.x, hit.blockPos.y + hit.normal.y,
            hit.blockPos.z + hit.normal.z⟩ = ⟨toUChar g.character.selectedBlockType⟩ ∧
      (0 ≤ g.character.selectedBlockType ∧ g.character.selectedBlockType < 256 →
        ((((g.handlePlaceInput inp).world.GetBlock
          ⟨hit.blockPos.x + hit.normal.x, hit.blockPos.y + hit.normal.y,
            hit.blockPos.z + hit.normal.z⟩).type : Nat) : Int) =
          g.character.selectedBlockType)) := by
  rw [handlePlaceInput_hit g inp hit hr hray]
  constructor
  · intro h
    rw [if_neg (not_lt.mpr h)]
    exact ⟨rfl, rfl⟩
  · intro h hin
    rw [if_pos h]
    have hget := getBlock_placeBlock_self g.world
      ⟨hit.blockPos.x + hit.normal.x, hit.blockPos.y + hit.normal.y,
        hit.blockPos.z + hit.normal.z⟩ g.character.selectedBlockType hin
    refine ⟨rfl, hget, ?_⟩
    intro hs
    simp only [Game.PlaceBlock]
    rw [hget]
    exact toUChar_of_lt _ hs.1 hs.2

/-- Witness for C11: standing at `(32.5, 21, 32.5)`, a place action on the top face of the
block `(31, 20, 32)`; the candidate `(31, 21, 32)` is at squared distance 2.5 and block
type 1 is placed there. -/
theorem place_action_witness :
    (sampleStanding.handlePlaceInput samplePlaceFrame).calls =
      sampleStanding.calls ++ [WorldCall.PlaceBlock ⟨31 + 0, 20 + 1, 32 + 0⟩ 1] ∧
    (sampleStanding.handlePlaceInput samplePlaceFrame).world.GetBlock
      ⟨31 + 0, 20 + 1, 32 + 0⟩ = ⟨toUChar 1⟩ := by
  have h := (place_action sampleStanding samplePlaceFrame
    ⟨⟨31 + 1 / 2, 20 + 9 / 10, 32 + 1 / 2⟩, ⟨0, 1, 0⟩, ⟨31, 20, 32⟩⟩ rfl rfl).2
    (by norm_num [Vector3DistanceSqr, sampleStanding, Character.new])
    (by norm_num [InWorld])
  exact ⟨h.1, h.2.1⟩

/-- The test the right-button code makes. For every place action whose raycast hits, no
`PlaceBlock` call is made if and only if the candidate position itself, the hit block
coordinates plus the face normal, which is the minimum corner of the candidate cell, is
within 1.5 units of the player's feet position. -/
theorem place_rejected_iff (g : Game) (inp : FrameInput) (hit : RayHit)
    (hr : inp.rightPressed = true)
    (hray : inp.raycast g.world g.character.reachDistance = some hit) :
    (g.handlePlaceInput inp).calls = g.calls ↔
      Vector3DistanceSqr
        ⟨hit.blockPos.x + hit.normal.x, hit.blockPos.y + hit.normal.y,
          hit.blockPos.z + hit.normal.z⟩ g.character.position ≤ (3 / 2) * (3 / 2) := by
  rw [handlePlaceInput_hit g inp hit hr hray]
  constructor
  · intro h
    by_contra hc
    rw [if_pos (not_le.mp hc)] at h
    simp [Game.PlaceBlock] at h
  · intro h
    rw [if_neg (not_lt.mpr h)]

/-- The sample place action is not rejected, the candidate position `(31, 21, 32)` being
at squared distance 2.5 from `(32.5, 21, 32.5)`. -/
theorem place_rejected_iff_witness :
    (sampleStanding.handlePlaceInput samplePlaceFrame).calls = sampleStanding.calls ↔
      Vector3DistanceSqr ⟨31 + 0, 20 + 1, 32 + 0⟩ sampleStanding.character.position
        ≤ (3 / 2) * (3 / 2) :=
  place_rejected_iff sampleStanding samplePlaceFrame
    ⟨⟨31 + 1 / 2, 20 + 9 / 10, 32 + 1 / 2⟩, ⟨0, 1, 0⟩, ⟨31, 20, 32⟩⟩ rfl rfl

/-- Standing at `(32.5, 21, 32.5)`, a place action on the
top face of the block `(31, 20, 32)`.  The centre `(31.5, 21.5, 32.5)` of the candidate
cell is within 1.5 units of the feet position (squared distance 1.25), yet the placement
is not rejected: `PlaceBlock` is called and the cell holds the selected type. -/
theorem place_not_rejected_near_centre :
    Vector3DistanceSqr (cellCenter 31 21 32) sampleStanding.character.position
      ≤ (3 / 2) * (3 / 2) ∧
    samplePlaceFrame.rightPressed = true ∧
    (sampleStanding.handlePlaceInput samplePlaceFrame).calls =
      [WorldCall.PlaceBlock ⟨31 + 0, 20 + 1, 32 + 0⟩ 1] ∧
    (sampleStanding.handlePlaceInput samplePlaceFrame).world.GetBlock
      (Vector3.ofInt 31 21 32) = ⟨BLOCK_GRASS⟩ := by
  have h := handlePlaceInput_hit sampleStanding samplePlaceFrame
    ⟨⟨31 + 1 / 2, 20 + 9 / 10, 32 + 1 / 2⟩, ⟨0, 1, 0⟩, ⟨31, 20, 32⟩⟩ rfl rfl
  rw [if_pos (by norm_num [Vector3DistanceSqr, sampleStanding, Character.new])] at h
  rw [h]
  refine ⟨by norm_num [Vector3DistanceSqr, sampleStanding, Character.new, cellCenter], rfl,
    rfl, ?_⟩
  have hp : (⟨31 + 0, 20 + 1, 32 + 0⟩ : Vector3) = Vector3.ofInt 31 21 32 := by
    norm_num [Vector3.ofInt]
  simp only [Game.PlaceBlock]
  rw [hp]
  exact getBlock_placeBlock_self _ _ _ (by simp only [floor_ofInt, InWorld]; decide)

/-! ## The sample distances of the raycast

The values `traveled` takes in the loop of `Character::RaycastBlock`, each the binary32
sum of the one before and `stepSize`. -/

/-- `traveled` at the start of iteration 0. -/
theorem traveledAt_0 : traveledAt 0 = 0 := rfl

/-- `traveled` at the start of iteration 1. -/
theorem traveledAt_1 : traveledAt 1 = 13421773 / 134217728 := by
  show fadd32 (traveledAt 0) stepSize = _
  rw [traveledAt_0]
  unfold fadd32 stepSize
  rw [roundF32_eval _ (-4) 13421773 (by norm_num [abs_of_pos]) (by norm_num [abs_of_pos])
    (by norm_num) (by norm_num [roundEven])]
  norm_num

/-- `traveled` at the start of iteration 2. -/
theorem traveledAt_2 : traveledAt 2 = 13421773 / 67108864 := by
  show fadd32 (traveledAt 1) stepSize = _
  rw [traveledAt_1]
  unfold fadd32 stepSize
  rw [roundF32_eval _ (-3) 13421773 (by norm_num [abs_of_pos]) (by norm_num [abs_of_pos])
    (by norm_num) (by norm_num [roundEven])]
  norm_num

/-- `traveled` at the start of iteration 3. -/
theorem traveledAt_3 : traveledAt 3 = 5033165 / 16777216 := by
  show fadd32 (traveledAt 2) stepSize = _
  rw [traveledAt_2]
  unfold fadd32 stepSize
  rw [roundF32_eval _ (-2) 10066330 (by norm_num [abs_of_pos]) (by norm_num [abs_of_pos])
    (by norm_num) (by norm_num [roundEven])]
  norm_num

/-- `traveled` at the start of iteration 4. -/
theorem traveledAt_4 : traveledAt 4 = 13421773 / 33554432 := by
  show fadd32 (traveledAt 3) stepSize = _
  rw [traveledAt_3]
  unfold fadd32 stepSize
  rw [roundF32_eval _ (-2) 13421773 (by norm_num [abs_of_pos]) (by norm_num [abs_of_pos])
    (by norm_num) (by norm_num [roundEven])]
  norm_num

/-- `traveled` at the start of iteration 5. -/
theorem traveledAt_5 : traveledAt 5 = 1 / 2 := by
  show fadd32 (traveledAt 4) stepSize = _
  rw [traveledAt_4]
  unfold fadd32 stepSize
  rw [roundF32_eval _ (-1) 8388608 (by norm_num [abs_of_pos]) (by norm_num [abs_of_pos])
    (by norm_num) (by norm_num [roundEven])]
  norm_num

/-- `traveled` at the start of iteration 6. -/
theorem traveledAt_6 : traveledAt 6 = 5033165 / 8388608 := by
  show fadd32 (traveledAt 5) stepSize = _
  rw [traveledAt_5]
  unfold fadd32 stepSize
  rw [roundF32_eval _ (-1) 10066330 (by norm_num [abs_of_pos]) (by norm_num [abs_of_pos])
    (by norm_num) (by norm_num [roundEven])]
  norm_num

/-- One step of the loop, in terms of the sample point. -/
theorem march_eq (w : OptimizedWorld) (rayStart rayDir : Vector3) (maxDistance traveled : ℚ)
    (fuel : Nat) :
    RaycastBlock.march w rayStart rayDir maxDistance (fuel + 1) traveled =
      if traveled < maxDistance then
        if w.IsBlockAt (floorVec (raySample rayStart rayDir traveled)) then
          some (some ⟨raySample rayStart rayDir traveled,
            hitNormal (Vector3Subtract (raySample rayStart rayDir traveled)
              (Vector3Add (floorVec (raySample rayStart rayDir traveled)) ⟨1 / 2, 1 / 2, 1 / 2⟩)),
            floorVec (raySample rayStart rayDir traveled)⟩)
        else RaycastBlock.march w rayStart rayDir maxDistance fuel (fadd32 traveled stepSize)
      else some none := rfl

/-- The occupancy test at the floored sample is the test at the sample itself. -/
theorem isBlockAt_floorVec (w : OptimizedWorld) (p : Vector3) :
    w.IsBlockAt (floorVec p) = w.IsBlockAt p := by
  unfold OptimizedWorld.IsBlockAt
  rw [getBlock_congr_floor w (floorVec p) p (by simp [floorVec]) (by simp [floorVec])
    (by simp [floorVec])]

/-- The value of `traveled` at the start of iteration `n` is `stepSize` added `n` times
to 0. -/
theorem traveledAt_eq_iterate (n : Nat) :
    traveledAt n = (fun t => fadd32 t stepSize)^[n] 0 := by
  induction n with
  | zero => rfl
  | succ k ih =>
    rw [Function.iterate_succ_apply', ← ih]
    rfl

/-- The loop returns the hit at the first sample that lies in a solid block, when that
sample and all before it are below `maxDistance` and the iterations allowed reach it. -/
theorem march_complete (w : OptimizedWorld) (rayStart rayDir : Vector3) (maxDistance : ℚ)
    (n fuel : Nat) (traveled : ℚ) (hn : n < fuel)
    (hlt : (fun t => fadd32 t stepSize)^[n] traveled < maxDistance)
    (hsolid : w.IsBlockAt (raySample rayStart rayDir
      ((fun t => fadd32 t stepSize)^[n] traveled)) = true)
    (hbefore : ∀ m : Nat, m < n → (fun t => fadd32 t stepSize)^[m] traveled < maxDistance ∧
      w.IsBlockAt (raySample rayStart rayDir
        ((fun t => fadd32 t stepSize)^[m] traveled)) = false) :
    RaycastBlock.march w rayStart rayDir maxDistance fuel traveled =
      some (some ⟨raySample rayStart rayDir ((fun t => fadd32 t stepSize)^[n] traveled),
        hitNormal (Vector3Subtract
          (raySample rayStart rayDir ((fun t => fadd32 t stepSize)^[n] traveled))
          (Vector3Add
            (floorVec (raySample rayStart rayDir ((fun t => fadd32 t stepSize)^[n] traveled)))
            ⟨1 / 2, 1 / 2, 1 / 2⟩)),
        floorVec (raySample rayStart rayDir ((fun t => fadd32 t stepSize)^[n] traveled))⟩) := by
  induction n generalizing fuel traveled with
  | zero =>
    obtain ⟨f, rfl⟩ : ∃ f, fuel = f + 1 := ⟨fuel - 1, by omega⟩
    have hlt0 : traveled < maxDistance := hlt
    have hsolid0 : w.IsBlockAt (raySample rayStart rayDir traveled) = true := hsolid
    rw [march_eq, if_pos hlt0, isBlockAt_floorVec, if_pos hsolid0]
    rfl
  | succ k ih =>
    obtain ⟨f, rfl⟩ : ∃ f, fuel = f + 1 := ⟨fuel - 1, by omega⟩
    obtain ⟨h0, hfree⟩ := hbefore 0 (Nat.succ_pos k)
    have hlt0 : traveled < maxDistance := h0
    have hfree0 : w.IsBlockAt (raySample rayStart rayDir traveled) = false := hfree
    rw [march_eq, if_pos hlt0, isBlockAt_floorVec, hfree0]
    simp only [Bool.false_eq_true, if_false]
    exact ih f (fadd32 traveled stepSize) (Nat.lt_of_succ_lt_succ hn) hlt hsolid
      (fun m hm => hbefore (m + 1) (Nat.succ_lt_succ hm))

/-- The normal chosen is one of the six unit axis vectors. -/
theorem hitNormal_axis (diff : Vector3) :
    hitNormal diff = ⟨1, 0, 0⟩ ∨ hitNormal diff = ⟨-1, 0, 0⟩ ∨
    hitNormal diff = ⟨0, 1, 0⟩ ∨ hitNormal diff = ⟨0, -1, 0⟩ ∨
    hitNormal diff = ⟨0, 0, 1⟩ ∨ hitNormal diff = ⟨0, 0, -1⟩ := by
  unfold hitNormal
  simp only []
  split_ifs <;> simp

/-- Unless the x and y offsets tie and exceed the z offset, the normal chosen lies along an
axis of greatest absolute offset, pointing to the side of that offset (to the negative side
when the offset is 0). -/
theorem hitNormal_greatest (diff : Vector3)
    (h : ¬ (|diff.x| = |diff.y| ∧ |diff.z| < |diff.x|)) :
    (|diff.y| ≤ |diff.x| ∧ |diff.z| ≤ |diff.x| ∧
      hitNormal diff = ⟨if diff.x > 0 then 1 else -1, 0, 0⟩) ∨
    (|diff.x| ≤ |diff.y| ∧ |diff.z| ≤ |diff.y| ∧
      hitNormal diff = ⟨0, if diff.y > 0 then 1 else -1, 0⟩) ∨
    (|diff.x| ≤ |diff.z| ∧ |diff.y| ≤ |diff.z| ∧
      hitNormal diff = ⟨0, 0, if diff.z > 0 then 1 else -1⟩) := by
  unfold hitNormal
  simp only []
  by_cases hx : |diff.x| > |diff.y| ∧ |diff.x| > |diff.z|
  · rw [if_pos hx]
    exact Or.inl ⟨le_of_lt hx.1, le_of_lt hx.2, rfl⟩
  · rw [if_neg hx]
    by_cases hy : |diff.y| > |diff.x| ∧ |diff.y| > |diff.z|
    · rw [if_pos hy]
      exact Or.inr (Or.inl ⟨le_of_lt hy.1, le_of_lt hy.2, rfl⟩)
    · rw [if_neg hy]
      refine Or.inr (Or.inr ⟨?_, ?_, rfl⟩)
      · by_contra hc
        push_neg at hc hx hy h
        rcases lt_trichotomy |diff.x| |diff.y| with h1 | h1 | h1
        · have := hy h1
          linarith
        · have := h h1
          linarith
        · have := hx h1
          linarith
      · by_contra hc
        push_neg at hc hx hy h
        rcases lt_trichotomy |diff.x| |diff.y| with h1 | h1 | h1
        · have := hy h1
          linarith
        · have := h h1
          linarith
        · have := hx h1
          linarith

/-- A freshly constructed grid of chunks reads AIR everywhere. -/
theorem getBlock_init (worldSeed : Int) (p : Vector3) :
    (OptimizedWorld.init worldSeed).GetBlock p = ⟨BLOCK_AIR⟩ := by
  unfold OptimizedWorld.GetBlock
  simp only []
  split_ifs
  · rfl
  · cases GetChunk ⌊p.x⌋ ⌊p.z⌋ with
    | none => rfl
    | some cc =>
      simp only [Chunk.GetBlock]
      split_ifs <;> rfl

/-- The occupancy test on an all-AIR world with one block written at an in-bounds cell. -/
theorem isBlockAt_single (worldSeed : Int) (a b c : Int) (blk : Block) (hin : InWorld a b c)
    (p : Vector3) :
    ((OptimizedWorld.init worldSeed).SetBlock (Vector3.ofInt a b c) blk).IsBlockAt p =
      (decide (⌊p.x⌋ = a ∧ ⌊p.y⌋ = b ∧ ⌊p.z⌋ = c) && blk.IsSolid) := by
  unfold OptimizedWorld.IsBlockAt
  by_cases h : ⌊p.x⌋ = a ∧ ⌊p.y⌋ = b ∧ ⌊p.z⌋ = c
  · rw [world_getBlock_setBlock_same _ _ p _ (by simpa only [floor_ofInt] using hin)
      (by simpa only [floor_ofInt] using h)]
    simp [h]
  · rw [world_getBlock_setBlock_other _ _ p _
      (by simp only [floor_ofInt]; exact fun hh => h hh.2), getBlock_init]
    simp [h, Block.IsSolid]

/-- The occupancy test on the one-block fixture. -/
theorem isBlockAt_sampleBlockWorld (a b c : Int) (hin : InWorld a b c) (p : Vector3) :
    (sampleBlockWorld a b c).IsBlockAt p = decide (⌊p.x⌋ = a ∧ ⌊p.y⌋ = b ∧ ⌊p.z⌋ = c) := by
  unfold sampleBlockWorld
  rw [isBlockAt_single 1337 a b c _ hin]
  simp [Block.IsSolid]

/-- C13, at the failing input. A single STONE block at `(10, 30, 10)`; the camera at
`(10.984375, 30.984375, 9.45)` looking along `(0, 0, 1)`, `maxDistance` 6. The samples of
the iterations `0 .. 5` are in air; the sample of iteration 6, at the distance
`traveledAt 6`, about 0.60000002, is the hit, at about `(10.984375, 30.984375, 10.05)`.
Its offsets from the block centre `(10.5, 30.5, 10.5)` are `0.484375` on x and on y and
about `-0.45` on z: x and y tie for the greatest absolute offset, and the normal returned
is `(0, 0, -1)`, along z, where the absolute offset is the least. -/
theorem raycast_normal_tie :
    RaycastBlock (sampleBlockWorld 10 30 10) ⟨10 + 63 / 64, 30 + 63 / 64, 9 + 9 / 20⟩ ⟨0, 0, 1⟩
        true 6 62 =
      some (some ⟨⟨10 + 63 / 64, 30 + 63 / 64, 9 + 9 / 20 + 5033165 / 8388608⟩, ⟨0, 0, -1⟩,
        ⟨10, 30, 10⟩⟩) ∧
    |(9 + 9 / 20 + 5033165 / 8388608 : ℚ) - (10 + 1 / 2)| < |(10 + 63 / 64 : ℚ) - (10 + 1 / 2)| ∧
    |(9 + 9 / 20 + 5033165 / 8388608 : ℚ) - (10 + 1 / 2)| < |(30 + 63 / 64 : ℚ) - (30 + 1 / 2)| := by
  have hin : InWorld 10 30 10 := by unfold InWorld; decide
  refine ⟨?_, by rw [abs_of_neg (by norm_num), abs_of_pos (by norm_num)]; norm_num,
    by rw [abs_of_neg (by norm_num), abs_of_pos (by norm_num)]; norm_num⟩
  unfold RaycastBlock
  rw [if_pos rfl]
  have h := march_complete (sampleBlockWorld 10 30 10) ⟨10 + 63 / 64, 30 + 63 / 64, 9 + 9 / 20⟩
    ⟨0, 0, 1⟩ 6 6 62 0 (by decide)
  simp only [← traveledAt_eq_iterate] at h
  rw [h]
  · rw [traveledAt_6]
    norm_num [floorVec, raySample, Vector3Add, Vector3Scale, Vector3Subtract, hitNormal]
  · rw [traveledAt_6]
    norm_num
  · rw [isBlockAt_sampleBlockWorld _ _ _ hin, traveledAt_6]
    norm_num [raySample, Vector3Add, Vector3Scale]
  · intro m hm
    rw [isBlockAt_sampleBlockWorld _ _ _ hin]
    interval_cases m
    · rw [traveledAt_0]; norm_num [raySample, Vector3Add, Vector3Scale]
    · rw [traveledAt_1]; norm_num [raySample, Vector3Add, Vector3Scale]
    · rw [traveledAt_2]; norm_num [raySample, Vector3Add, Vector3Scale]
    · rw [traveledAt_3]; norm_num [raySample, Vector3Add, Vector3Scale]
    · rw [traveledAt_4]; norm_num [raySample, Vector3Add, Vector3Scale]
    · rw [traveledAt_5]; norm_num [raySample, Vector3Add, Vector3Scale]

/-- The one-block world reads STONE at its block and AIR everywhere else. -/
theorem getBlock_sampleBlockWorld (a b c : Int) (hin : InWorld a b c) (p : Vector3) :
    (sampleBlockWorld a b c).GetBlock p =
      if ⌊p.x⌋ = a ∧ ⌊p.y⌋ = b ∧ ⌊p.z⌋ = c then ⟨BLOCK_STONE⟩ else ⟨BLOCK_AIR⟩ := by
  unfold sampleBlockWorld
  by_cases h : ⌊p.x⌋ = a ∧ ⌊p.y⌋ = b ∧ ⌊p.z⌋ = c
  · rw [if_pos h]
    exact world_getBlock_setBlock_same _ _ p _ (by simpa only [floor_ofInt] using hin)
      (by simpa only [floor_ofInt] using h)
  · rw [if_neg h, world_getBlock_setBlock_other _ _ p _
      (by simp only [floor_ofInt]; exact fun hh => h hh.2), getBlock_init]

/-- The rest of a frame after `HandleInput` makes no world call when the controller is idle
then, or the advanced timer stays below 1. -/
theorem update_keeps_input_world (g : Game) (inp : FrameInput)
    (h : (g.HandleInput inp).character.isBreaking = false ∨
      fadd32 (g.HandleInput inp).character.breakTimer inp.frameTime < 1) :
    (g.Update inp).world = (g.HandleInput inp).world ∧
    (g.Update inp).calls = (g.HandleInput inp).calls := by
  unfold Game.Update
  simp only []
  by_cases hb : (g.HandleInput inp).character.isBreaking = true
  · rw [if_pos hb]
    have ht : fadd32 (g.HandleInput inp).character.breakTimer inp.frameTime < 1 := by
      rcases h with h | h
      · rw [hb] at h
        cases h
      · exact h
    rw [if_neg (not_le.mpr ht)]
    exact ⟨rfl, rfl⟩
  · rw [if_neg hb]
    exact ⟨rfl, rfl⟩

/-- A frame leaves the controller at the position movement and physics give it, and with
the block type selected by its number keys. -/
theorem update_position_selected (g : Game) (inp : FrameInput) :
    (g.Update inp).character.position = inp.moved ∧
    (g.Update inp).character.selectedBlockType =
      (g.character.selectBlock inp).selectedBlockType := by
  have hc := (handleInput_eq g inp).1
  have hsel := handleBreakInput_selected ({ g with character := g.character.selectBlock inp }) inp
  rw [← hc] at hsel
  unfold Game.Update
  simp only []
  split_ifs <;> exact ⟨rfl, hsel⟩

/-- C12, at the failing input. The player is in the air at `(30.9, 21.95, 30.9)`, feet
inside the cell `(30, 21, 30)`, and places a block on the top face of the block
`(30, 20, 30)` below. The candidate cell is the player's own cell `(30, 21, 30)`; its
centre `(30.5, 21.5, 30.5)` is within 1.5 of the feet (squared distance 0.5225), but the
code measures from the candidate position `(30, 21, 30)`, the cell's minimum corner, at
squared distance 2.5225 above `1.5 * 1.5`, and calls `PlaceBlock`: the cell the feet are
in, free before, is solid afterwards. -/
theorem place_inside_own_cell :
    Vector3DistanceSqr (cellCenter 30 21 30) sampleAirborne.character.position
      ≤ (3 / 2) * (3 / 2) ∧
    (⌊sampleAirborne.character.position.x⌋ = 30 ∧ ⌊sampleAirborne.character.position.y⌋ = 21 ∧
      ⌊sampleAirborne.character.position.z⌋ = 30) ∧
    sampleAirborne.world.IsBlockAt sampleAirborne.character.position = false ∧
    (sampleAirborne.HandleInput sampleDownPlaceFrame).calls =
      [WorldCall.PlaceBlock ⟨30 + 0, 20 + 1, 30 + 0⟩ 1] ∧
    (sampleAirborne.HandleInput sampleDownPlaceFrame).world.GetBlock
      sampleAirborne.character.position = ⟨BLOCK_GRASS⟩ ∧
    (sampleAirborne.HandleInput sampleDownPlaceFrame).world.IsBlockAt
      sampleAirborne.character.position = true := by
  have hH : sampleAirborne.HandleInput sampleDownPlaceFrame =
      sampleAirborne.handlePlaceInput sampleDownPlaceFrame := rfl
  have h := handlePlaceInput_hit sampleAirborne sampleDownPlaceFrame
    ⟨⟨30 + 1 / 2, 20 + 9 / 10, 30 + 1 / 2⟩, ⟨0, 1, 0⟩, ⟨30, 20, 30⟩⟩ rfl rfl
  rw [if_pos (by norm_num [Vector3DistanceSqr, sampleAirborne, Character.new])] at h
  rw [← hH] at h
  have hget : (sampleAirborne.HandleInput sampleDownPlaceFrame).world.GetBlock
      sampleAirborne.character.position = ⟨BLOCK_GRASS⟩ := by
    rw [h]
    simp only [Game.PlaceBlock, OptimizedWorld.PlaceBlock]
    apply world_getBlock_setBlock_same
    · norm_num [InWorld]
    · norm_num [sampleAirborne, Character.new]
  refine ⟨by norm_num [Vector3DistanceSqr, sampleAirborne, Character.new, cellCenter],
    by norm_num [sampleAirborne, Character.new], ?_, by rw [h]; rfl, hget, ?_⟩
  · unfold OptimizedWorld.IsBlockAt
    have : sampleAirborne.world = sampleBlockWorld 30 20 30 := rfl
    rw [this]
    unfold sampleBlockWorld
    rw [world_getBlock_setBlock_other _ _ _ _
      (by norm_num [sampleAirborne, Character.new, Vector3.ofInt]), getBlock_init]
    rfl
  · unfold OptimizedWorld.IsBlockAt
    rw [hget]
    rfl

/-- C9, the sentence as written fails when the player right-clicks while holding. From the
constructed controller on the one-block world, one frame of 3/8 second with the primary
action held on the block `(30, 20, 30)` and the place action pressed: the accumulated time
3/8 is below 1, and the frame calls `PlaceBlock` at `(30, 21, 30)`, which read AIR before
and reads GRASS after. -/
theorem hold_place_changes_world :
    HeldOn sampleBlockGame ⟨30, 20, 30⟩ [sampleHeldPlaceFrame] 0 ∧
    accumulated [sampleHeldPlaceFrame] 1 < 1 ∧
    timerAfter [sampleHeldPlaceFrame] 0 1 < 1 ∧
    sampleBlockGame.world.GetBlock (Vector3.ofInt 30 21 30) = ⟨BLOCK_AIR⟩ ∧
    (sampleBlockGame.run ([sampleHeldPlaceFrame].take (0 + 1))).calls =
      [WorldCall.PlaceBlock ⟨30 + 0, 20 + 1, 30 + 0⟩ 1] ∧
    (sampleBlockGame.run ([sampleHeldPlaceFrame].take (0 + 1))).world.GetBlock
      (Vector3.ofInt 30 21 30) = ⟨BLOCK_GRASS⟩ := by
  have hbr : (({ sampleBlockGame with
        character := sampleBlockGame.character.selectBlock sampleHeldPlaceFrame } :
        Game).handleBreakInput sampleHeldPlaceFrame) =
      { sampleBlockGame with character :=
          { sampleBlockGame.character with
            isBreaking := true, breakingBlock := ⟨30, 20, 30⟩, breakTimer := 0 } } := rfl
  have hin : sampleBlockGame.HandleInput sampleHeldPlaceFrame =
      ({ sampleBlockGame with character :=
          { sampleBlockGame.character with
            isBreaking := true, breakingBlock := ⟨30, 20, 30⟩, breakTimer := 0 } } :
        Game).PlaceBlock ⟨30 + 0, 20 + 1, 30 + 0⟩ 1 := by
    unfold Game.HandleInput
    simp only [hbr]
    rw [handlePlaceInput_hit _ sampleHeldPlaceFrame
      ⟨⟨30 + 1 / 2, 20 + 9 / 10, 30 + 1 / 2⟩, ⟨0, 1, 0⟩, ⟨30, 20, 30⟩⟩ rfl rfl]
    rw [if_pos (by norm_num [Vector3DistanceSqr, sampleBlockGame, Character.new])]
    rfl
  have hup := update_keeps_input_world sampleBlockGame sampleHeldPlaceFrame
    (Or.inr (by
      rw [hin]
      show fadd32 0 (3 / 8) < 1
      rw [fadd32_samples.1]
      norm_num))
  rw [hin] at hup
  have hrun : sampleBlockGame.run ([sampleHeldPlaceFrame].take (0 + 1)) =
      sampleBlockGame.Update sampleHeldPlaceFrame := rfl
  refine ⟨?_, by norm_num [accumulated, sampleHeldPlaceFrame, sampleNearFrame, sampleHeldFrame],
    ?_, ?_, ?_, ?_⟩
  · intro k inp hk hg
    have hk0 : k = 0 := by omega
    subst hk0
    have hinp : inp = sampleHeldPlaceFrame := by simpa using hg.symm
    subst hinp
    exact ⟨rfl, _, rfl, rfl⟩
  · show fadd32 0 (3 / 8) < 1
    rw [fadd32_samples.1]
    norm_num
  · show (sampleBlockWorld 30 20 30).GetBlock (Vector3.ofInt 30 21 30) = ⟨BLOCK_AIR⟩
    rw [getBlock_sampleBlockWorld _ _ _ (by norm_num [InWorld]), if_neg]
    simp only [floor_ofInt]
    omega
  · rw [hrun, hup.2]
    rfl
  · rw [hrun, hup.1]
    simp only [Game.PlaceBlock]
    have hp : (⟨30 + 0, 20 + 1, 30 + 0⟩ : Vector3) = Vector3.ofInt 30 21 30 := by
      norm_num [Vector3.ofInt]
    rw [hp]
    exact getBlock_placeBlock_self _ _ _ (by simp only [floor_ofInt, InWorld]; decide)

/-- C10, the sentence as written fails when the player right-clicks in the release frame.
On the one-block world, after one frame of 3/8 second held on the block `(30, 20, 30)` the
controller is breaking with elapsed time 3/8, below 1; a frame that releases the primary
action and presses the place action calls `PlaceBlock` at `(30, 21, 30)`, which read AIR
before and reads GRASS after. -/
theorem release_place_changes_world :
    (sampleBlockGame.Update sampleNearFrame).character.isBreaking = true ∧
    (sampleBlockGame.Update sampleNearFrame).character.breakTimer = 3 / 8 ∧
    (sampleBlockGame.Update sampleNearFrame).world.GetBlock (Vector3.ofInt 30 21 30) =
      ⟨BLOCK_AIR⟩ ∧
    (sampleReleasePlaceFrame.leftDown = false ∧ sampleReleasePlaceFrame.leftReleased = true) ∧
    ((sampleBlockGame.Update sampleNearFrame).Update sampleReleasePlaceFrame).calls =
      [WorldCall.PlaceBlock ⟨30 + 0, 20 + 1, 30 + 0⟩ 1] ∧
    ((sampleBlockGame.Update sampleNearFrame).Update sampleReleasePlaceFrame).world.GetBlock
      (Vector3.ofInt 30 21 30) = ⟨BLOCK_GRASS⟩ := by
  have hT : fadd32 (if sampleBlockGame.character.isBreaking then
      sampleBlockGame.character.breakTimer else 0) sampleNearFrame.frameTime = 3 / 8 :=
    fadd32_samples.1
  obtain ⟨h1, h2, h3, _, h5⟩ := (update_held sampleBlockGame sampleNearFrame ⟨30, 20, 30⟩ _
    rfl rfl rfl (Or.inl rfl)).1 (by rw [hT]; norm_num)
  rw [hT] at h3
  obtain ⟨hw, hc⟩ := h5 rfl
  have hprog : (sampleBlockGame.Update sampleNearFrame).character.breakProgress < 1 :=
    update_breakProgress_lt_one sampleBlockGame sampleNearFrame (by
      show (0 : ℚ) < 1
      norm_num)
  have hair : (sampleBlockGame.Update sampleNearFrame).world.GetBlock
      (Vector3.ofInt 30 21 30) = ⟨BLOCK_AIR⟩ := by
    rw [hw]
    show (sampleBlockWorld 30 20 30).GetBlock (Vector3.ofInt 30 21 30) = ⟨BLOCK_AIR⟩
    rw [getBlock_sampleBlockWorld _ _ _ (by norm_num [InWorld]), if_neg]
    simp only [floor_ofInt]
    omega
  have hp : (sampleBlockGame.Update sampleNearFrame).character.position = ⟨32 + 1 / 2, 21, 30 + 1 / 2⟩ :=
    (update_position_selected sampleBlockGame sampleNearFrame).1
  have hs : (sampleBlockGame.Update sampleNearFrame).character.selectedBlockType = 1 :=
    (update_position_selected sampleBlockGame sampleNearFrame).2
  generalize sampleBlockGame.Update sampleNearFrame = g at h1 h2 h3 hw hc hprog hair hp hs ⊢
  have hsel := selectBlock_fields g.character sampleReleasePlaceFrame
  have hbr : ({ g with character := g.character.selectBlock sampleReleasePlaceFrame } :
      Game).handleBreakInput sampleReleasePlaceFrame =
      { g with character :=
          { g.character.selectBlock sampleReleasePlaceFrame with
            isBreaking := false, breakProgress := 0, breakTimer := 0 } } := by
    unfold Game.handleBreakInput
    have hl : sampleReleasePlaceFrame.leftDown = false := rfl
    have hrel : sampleReleasePlaceFrame.leftReleased = true := rfl
    simp only [hl, hrel, if_true, Bool.false_eq_true, if_false]
    rw [if_neg]
    simp only [hsel.2.2.1, Bool.and_eq_true, decide_eq_true_eq, not_and, not_le]
    exact fun _ => hprog
  have hpos : g.character.position = ⟨32 + 1 / 2, 21, 30 + 1 / 2⟩ := hp
  have hseltype : (g.character.selectBlock sampleReleasePlaceFrame).selectedBlockType = 1 := by
    have : (g.character.selectBlock sampleReleasePlaceFrame).selectedBlockType =
        g.character.selectedBlockType := by
      unfold Character.selectBlock
      simp [sampleReleasePlaceFrame, sampleNearFrame, sampleHeldFrame]
    rw [this, hs]
  have hin : g.HandleInput sampleReleasePlaceFrame =
      ({ g with character :=
          { g.character.selectBlock sampleReleasePlaceFrame with
            isBreaking := false, breakProgress := 0, breakTimer := 0 } } :
        Game).PlaceBlock ⟨30 + 0, 20 + 1, 30 + 0⟩ 1 := by
    unfold Game.HandleInput
    simp only [hbr]
    rw [handlePlaceInput_hit _ sampleReleasePlaceFrame
      ⟨⟨30 + 1 / 2, 20 + 9 / 10, 30 + 1 / 2⟩, ⟨0, 1, 0⟩, ⟨30, 20, 30⟩⟩ rfl rfl]
    simp only [hsel.1, hpos, hseltype]
    rw [if_pos (by norm_num [Vector3DistanceSqr])]
  have hup := update_keeps_input_world g sampleReleasePlaceFrame (Or.inl (by rw [hin]; rfl))
  rw [hin] at hup
  refine ⟨h1, h3, hair, ⟨rfl, rfl⟩, ?_, ?_⟩
  · rw [hup.2]
    simp only [Game.PlaceBlock, hc]
    rfl
  · rw [hup.1]
    simp only [Game.PlaceBlock]
    have hq : (⟨30 + 0, 20 + 1, 30 + 0⟩ : Vector3) = Vector3.ofInt 30 21 30 := by
      norm_num [Vector3.ofInt]
    rw [hq]
    exact getBlock_placeBlock_self _ _ _ (by simp only [floor_ofInt, InWorld]; decide)

/-! ## Sixty frames at 60 frames per second

The values `breakTimer` takes while the primary action is held over frames of
`(float)(1.0 / 60)` second each. -/

/-- The timer before the first frame. -/
theorem sixtieth_timer_0 : timerAfter sixtyOneFrames 0 0 = 0 := timerAfter_self _ 0

/-- The timer after frame 0. -/
theorem sixtieth_timer_1 : timerAfter sixtyOneFrames 0 1 = 8947849 / 536870912 := by
  rw [timerAfter_succ sixtyOneFrames 0 0 sampleSixtiethFrame (Nat.zero_le _) rfl,
    sixtieth_timer_0]
  show fadd32 _ (8947849 / 536870912) = _
  unfold fadd32
  rw [roundF32_eval _ (-6) 8947849 (by norm_num [abs_of_pos]) (by norm_num [abs_of_pos])
    (by norm_num) (by norm_num [roundEven])]
  norm_num

/-- The timer after frame 1. -/
theorem sixtieth_timer_2 : timerAfter sixtyOneFrames 0 2 = 8947849 / 268435456 := by
  rw [timerAfter_succ sixtyOneFrames 0 1 sampleSixtiethFrame (Nat.zero_le _) rfl,
    sixtieth_timer_1]
  show fadd32 _ (8947849 / 536870912) = _
  unfold fadd32
  rw [roundF32_eval _ (-5) 8947849 (by norm_num [abs_of_pos]) (by norm_num [abs_of_pos])
    (by norm_num) (by norm_num [roundEven])]
  norm_num

/-- The timer after frame 2. -/
theorem sixtieth_timer_3 : timerAfter sixtyOneFrames 0 3 = 6710887 / 134217728 := by
  rw [timerAfter_succ sixtyOneFrames 0 2 sampleSixtiethFrame (Nat.zero_le _) rfl,
    sixtieth_timer_2]
  show fadd32 _ (8947849 / 536870912) = _
  unfold fadd32
  rw [roundF32_eval _ (-5) 13421774 (by norm_num [abs_of_pos]) (by norm_num [abs_of_pos])
    (by norm_num) (by norm_num [roundEven])]
  norm_num

/-- The timer after frame 3. -/
theorem sixtieth_timer_4 : timerAfter sixtyOneFrames 0 4 = 8947849 / 134217728 := by
  rw [timerAfter_succ sixtyOneFrames 0 3 sampleSixtiethFrame (Nat.zero_le _) rfl,
    sixtieth_timer_3]
  show fadd32 _ (8947849 / 536870912) = _
  unfold fadd32
  rw [roundF32_eval _ (-4) 8947849 (by norm_num [abs_of_pos]) (by norm_num [abs_of_pos])
    (by norm_num) (by norm_num [roundEven])]
  norm_num

/-- The timer after frame 4. -/
theorem sixtieth_timer_5 : timerAfter sixtyOneFrames 0 5 = 11184811 / 134217728 := by
  rw [timerAfter_succ sixtyOneFrames 0 4 sampleSixtiethFrame (Nat.zero_le _) rfl,
    sixtieth_timer_4]
  show fadd32 _ (8947849 / 536870912) = _
  unfold fadd32
  rw [roundF32_eval _ (-4) 11184811 (by norm_num [abs_of_pos]) (by norm_num [abs_of_pos])
    (by norm_num) (by norm_num [roundEven])]
  norm_num

/-- The timer after frame 5. -/
theorem sixtieth_timer_6 : timerAfter sixtyOneFrames 0 6 = 13421773 / 134217728 := by
  rw [timerAfter_succ sixtyOneFrames 0 5 sampleSixtiethFrame (Nat.zero_le _) rfl,
    sixtieth_timer_5]
  show fadd32 _ (8947849 / 536870912) = _
  unfold fadd32
  rw [roundF32_eval _ (-4) 13421773 (by norm_num [abs_of_pos]) (by norm_num [abs_of_pos])
    (by norm_num) (by norm_num [roundEven])]
  norm_num

/-- The timer after frame 6. -/
theorem sixtieth_timer_7 : timerAfter sixtyOneFrames 0 7 = 15658735 / 134217728 := by
  rw [timerAfter_succ sixtyOneFrames 0 6 sampleSixtiethFrame (Nat.zero_le _) rfl,
    sixtieth_timer_6]
  show fadd32 _ (8947849 / 536870912) = _
  unfold fadd32
  rw [roundF32_eval _ (-4) 15658735 (by norm_num [abs_of_pos]) (by norm_num [abs_of_pos])
    (by norm_num) (by norm_num [roundEven])]
  norm_num

/-- The timer after frame 7. -/
theorem sixtieth_timer_8 : timerAfter sixtyOneFrames 0 8 = 8947849 / 67108864 := by
  rw [timerAfter_succ sixtyOneFrames 0 7 sampleSixtiethFrame (Nat.zero_le _) rfl,
    sixtieth_timer_7]
  show fadd32 _ (8947849 / 536870912) = _
  unfold fadd32
  rw [roundF32_eval _ (-3) 8947849 (by norm_num [abs_of_pos]) (by norm_num [abs_of_pos])
    (by norm_num) (by norm_num [roundEven])]
  norm_num

/-- The timer after frame 8. -/
theorem sixtieth_timer_9 : timerAfter sixtyOneFrames 0 9 = 5033165 / 33554432 := by
  rw [timerAfter_succ sixtyOneFrames 0 8 sampleSixtiethFrame (Nat.zero_le _) rfl,
    sixtieth_timer_8]
  show fadd32 _ (8947849 / 536870912) = _
  unfold fadd32
  rw [roundF32_eval _ (-3) 10066330 (by norm_num [abs_of_pos]) (by norm_num [abs_of_pos])
    (by norm_num) (by norm_num [roundEven])]
  norm_num

/-- The timer after frame 9. -/
theorem sixtieth_timer_10 : timerAfter sixtyOneFrames 0 10 = 11184811 / 67108864 := by
  rw [timerAfter_succ sixtyOneFrames 0 9 sampleSixtiethFrame (Nat.zero_le _) rfl,
    sixtieth_timer_9]
  show fadd32 _ (8947849 / 536870912) = _
  unfold fadd32
  rw [roundF32_eval _ (-3) 11184811 (by norm_num [abs_of_pos]) (by norm_num [abs_of_pos])
    (by norm_num) (by norm_num [roundEven])]
  norm_num

/-- The timer after frame 10. -/
theorem sixtieth_timer_11 : timerAfter sixtyOneFrames 0 11 = 3075823 / 16777216 := by
  rw [timerAfter_succ sixtyOneFrames 0 10 sampleSixtiethFrame (Nat.zero_le _) rfl,
    sixtieth_timer_10]
  show fadd32 _ (8947849 / 536870912) = _
  unfold fadd32
  rw [roundF32_eval _ (-3) 12303292 (by norm_num [abs_of_pos]) (by norm_num [abs_of_pos])
    (by norm_num) (by norm_num [roundEven])]
  norm_num

/-- The timer after frame 11. -/
theorem sixtieth_timer_12 : timerAfter sixtyOneFrames 0 12 = 13421773 / 67108864 := by
  rw [timerAfter_succ sixtyOneFrames 0 11 sampleSixtiethFrame (Nat.zero_le _) rfl,
    sixtieth_timer_11]
  show fadd32 _ (8947849 / 536870912) = _
  unfold fadd32
  rw [roundF32_eval _ (-3) 13421773 (by norm_num [abs_of_pos]) (by norm_num [abs_of_pos])
    (by norm_num) (by norm_num [roundEven])]
  norm_num

/-- The timer after frame 12. -/
theorem sixtieth_timer_13 : timerAfter sixtyOneFrames 0 13 = 7270127 / 33554432 := by
  rw [timerAfter_succ sixtyOneFrames 0 12 sampleSixtiethFrame (Nat.zero_le _) rfl,
    sixtieth_timer_12]
  show fadd32 _ (8947849 / 536870912) = _
  unfold fadd32
  rw [roundF32_eval _ (-3) 14540254 (by norm_num [abs_of_pos]) (by norm_num [abs_of_pos])
    (by norm_num) (by norm_num [roundEven])]
  norm_num

/-- The timer after frame 13. -/
theorem sixtieth_timer_14 : timerAfter sixtyOneFrames 0 14 = 15658735 / 67108864 := by
  rw [timerAfter_succ sixtyOneFrames 0 13 sampleSixtiethFrame (Nat.zero_le _) rfl,
    sixtieth_timer_13]
  show fadd32 _ (8947849 / 536870912) = _
  unfold fadd32
  rw [roundF32_eval _ (-3) 15658735 (by norm_num [abs_of_pos]) (by norm_num [abs_of_pos])
    (by norm_num) (by norm_num [roundEven])]
  norm_num

/-- The timer after frame 14. -/
theorem sixtieth_timer_15 : timerAfter sixtyOneFrames 0 15 = 1 / 4 := by
  rw [timerAfter_succ sixtyOneFrames 0 14 sampleSixtiethFrame (Nat.zero_le _) rfl,
    sixtieth_timer_14]
  show fadd32 _ (8947849 / 536870912) = _
  unfold fadd32
  rw [roundF32_eval _ (-2) 8388608 (by norm_num [abs_of_pos]) (by norm_num [abs_of_pos])
    (by norm_num) (by norm_num [roundEven])]
  norm_num

/-- The timer after frame 15. -/
theorem sixtieth_timer_16 : timerAfter sixtyOneFrames 0 16 = 8947849 / 33554432 := by
  rw [timerAfter_succ sixtyOneFrames 0 15 sampleSixtiethFrame (Nat.zero_le _) rfl,
    sixtieth_timer_15]
  show fadd32 _ (8947849 / 536870912) = _
  unfold fadd32
  rw [roundF32_eval _ (-2) 8947849 (by norm_num [abs_of_pos]) (by norm_num [abs_of_pos])
    (by norm_num) (by norm_num [roundEven])]
  norm_num

/-- The timer after frame 16. -/
theorem sixtieth_timer_17 : timerAfter sixtyOneFrames 0 17 = 4753545 / 16777216 := by
  rw [timerAfter_succ sixtyOneFrames 0 16 sampleSixtiethFrame (Nat.zero_le _) rfl,
    sixtieth_timer_16]
  show fadd32 _ (8947849 / 536870912) = _
  unfold fadd32
  rw [roundF32_eval _ (-2) 9507090 (by norm_num [abs_of_pos]) (by norm_num [abs_of_pos])
    (by norm_num) (by norm_num [roundEven])]
  norm_num

/-- The timer after frame 17. -/
theorem sixtieth_timer_18 : timerAfter sixtyOneFrames 0 18 = 10066331 / 33554432 := by
  rw [timerAfter_succ sixtyOneFrames 0 17 sampleSixtiethFrame (Nat.zero_le _) rfl,
    sixtieth_timer_17]
  show fadd32 _ (8947849 / 536870912) = _
  unfold fadd32
  rw [roundF32_eval _ (-2) 10066331 (by norm_num [abs_of_pos]) (by norm_num [abs_of_pos])
    (by norm_num) (by norm_num [roundEven])]
  norm_num

/-- The timer after frame 18. -/
theorem sixtieth_timer_19 : timerAfter sixtyOneFrames 0 19 = 2656393 / 8388608 := by
  rw [timerAfter_succ sixtyOneFrames 0 18 sampleSixtiethFrame (Nat.zero_le _) rfl,
    sixtieth_timer_18]
  show fadd32 _ (8947849 / 536870912) = _
  unfold fadd32
  rw [roundF32_eval _ (-2) 10625572 (by norm_num [abs_of_pos]) (by norm_num [abs_of_pos])
    (by norm_num) (by norm_num [roundEven])]
  norm_num

/-- The timer after frame 19. -/
theorem sixtieth_timer_20 : timerAfter sixtyOneFrames 0 20 = 11184813 / 33554432 := by
  rw [timerAfter_succ sixtyOneFrames 0 19 sampleSixtiethFrame (Nat.zero_le _) rfl,
    sixtieth_timer_19]
  show fadd32 _ (8947849 / 536870912) = _
  unfold fadd32
  rw [roundF32_eval _ (-2) 11184813 (by norm_num [abs_of_pos]) (by norm_num [abs_of_pos])
    (by norm_num) (by norm_num [roundEven])]
  norm_num

/-- The timer after frame 20. -/
theorem sixtieth_timer_21 : timerAfter sixtyOneFrames 0 21 = 5872027 / 16777216 := by
  rw [timerAfter_succ sixtyOneFrames 0 20 sampleSixtiethFrame (Nat.zero_le _) rfl,
    sixtieth_timer_20]
  show fadd32 _ (8947849 / 536870912) = _
  unfold fadd32
  rw [roundF32_eval _ (-2) 11744054 (by norm_num [abs_of_pos]) (by norm_num [abs_of_pos])
    (by norm_num) (by norm_num [roundEven])]
  norm_num

/-- The timer after frame 21. -/
theorem sixtieth_timer_22 : timerAfter sixtyOneFrames 0 22 = 12303295 / 33554432 := by
  rw [timerAfter_succ sixtyOneFrames 0 21 sampleSixtiethFrame (Nat.zero_le _) rfl,
    sixtieth_timer_21]
  show fadd32 _ (8947849 / 536870912) = _
  unfold fadd32
  rw [roundF32_eval _ (-2) 12303295 (by norm_num [abs_of_pos]) (by norm_num [abs_of_pos])
    (by norm_num) (by norm_num [roundEven])]
  norm_num

/-- The timer after frame 22. -/
theorem sixtieth_timer_23 : timerAfter sixtyOneFrames 0 23 = 1607817 / 4194304 := by
  rw [timerAfter_succ sixtyOneFrames 0 22 sampleSixtiethFrame (Nat.zero_le _) rfl,
    sixtieth_timer_22]
  show fadd32 _ (8947849 / 536870912) = _
  unfold fadd32
  rw [roundF32_eval _ (-2) 12862536 (by norm_num [abs_of_pos]) (by norm_num [abs_of_pos])
    (by norm_num) (by norm_num [roundEven])]
  norm_num

/-- The timer after frame 23. -/
theorem sixtieth_timer_24 : timerAfter sixtyOneFrames 0 24 = 13421777 / 33554432 := by
  rw [timerAfter_succ sixtyOneFrames 0 23 sampleSixtiethFrame (Nat.zero_le _) rfl,
    sixtieth_timer_23]
  show fadd32 _ (8947849 / 536870912) = _
  unfold fadd32
  rw [roundF32_eval _ (-2) 13421777 (by norm_num [abs_of_pos]) (by norm_num [abs_of_pos])
    (by norm_num) (by norm_num [roundEven])]
  norm_num

/-- The timer after frame 24. -/
theorem sixtieth_timer_25 : timerAfter sixtyOneFrames 0 25 = 6990509 / 16777216 := by
  rw [timerAfter_succ sixtyOneFrames 0 24 sampleSixtiethFrame (Nat.zero_le _) rfl,
    sixtieth_timer_24]
  show fadd32 _ (8947849 / 536870912) = _
  unfold fadd32
  rw [roundF32_eval _ (-2) 13981018 (by norm_num [abs_of_pos]) (by norm_num [abs_of_pos])
    (by norm_num) (by norm_num [roundEven])]
  norm_num

/-- The timer after frame 25. -/
theorem sixtieth_timer_26 : timerAfter sixtyOneFrames 0 26 = 14540259 / 33554432 := by
  rw [timerAfter_succ sixtyOneFrames 0 25 sampleSixtiethFrame (Nat.zero_le _) rfl,
    sixtieth_timer_25]
  show fadd32 _ (8947849 / 536870912) = _
  unfold fadd32
  rw [roundF32_eval _ (-2) 14540259 (by norm_num [abs_of_pos]) (by norm_num [abs_of_pos])
    (by norm_num) (by norm_num [roundEven])]
  norm_num

/-- The timer after frame 26. -/
theorem sixtieth_timer_27 : timerAfter sixtyOneFrames 0 27 = 3774875 / 8388608 := by
  rw [timerAfter_succ sixtyOneFrames 0 26 sampleSixtiethFrame (Nat.zero_le _) rfl,
    sixtieth_timer_26]
  show fadd32 _ (8947849 / 536870912) = _
  unfold fadd32
  rw [roundF32_eval _ (-2) 15099500 (by norm_num [abs_of_pos]) (by norm_num [abs_of_pos])
    (by norm_num) (by norm_num [roundEven])]
  norm_num

/-- The timer after frame 27. -/
theorem sixtieth_timer_28 : timerAfter sixtyOneFrames 0 28 = 15658741 / 33554432 := by
  rw [timerAfter_succ sixtyOneFrames 0 27 sampleSixtiethFrame (Nat.zero_le _) rfl,
    sixtieth_timer_27]
  show fadd32 _ (8947849 / 536870912) = _
  unfold fadd32
  rw [roundF32_eval _ (-2) 15658741 (by norm_num [abs_of_pos]) (by norm_num [abs_of_pos])
    (by norm_num) (by norm_num [roundEven])]
  norm_num

/-- The timer after frame 28. -/
theorem sixtieth_timer_29 : timerAfter sixtyOneFrames 0 29 = 8108991 / 16777216 := by
  rw [timerAfter_succ sixtyOneFrames 0 28 sampleSixtiethFrame (Nat.zero_le _) rfl,
    sixtieth_timer_28]
  show fadd32 _ (8947849 / 536870912) = _
  unfold fadd32
  rw [roundF32_eval _ (-2) 16217982 (by norm_num [abs_of_pos]) (by norm_num [abs_of_pos])
    (by norm_num) (by norm_num [roundEven])]
  norm_num

/-- The timer after frame 29. -/
theorem sixtieth_timer_30 : timerAfter sixtyOneFrames 0 30 = 8388611 / 16777216 := by
  rw [timerAfter_succ sixtyOneFrames 0 29 sampleSixtiethFrame (Nat.zero_le _) rfl,
    sixtieth_timer_29]
  show fadd32 _ (8947849 / 536870912) = _
  unfold fadd32
  rw [roundF32_eval _ (-1) 8388611 (by norm_num [abs_of_pos]) (by norm_num [abs_of_pos])
    (by norm_num) (by norm_num [roundEven])]
  norm_num

/-- The timer after frame 30. -/
theorem sixtieth_timer_31 : timerAfter sixtyOneFrames 0 31 = 8668231 / 16777216 := by
  rw [timerAfter_succ sixtyOneFrames 0 30 sampleSixtiethFrame (Nat.zero_le _) rfl,
    sixtieth_timer_30]
  show fadd32 _ (8947849 / 536870912) = _
  unfold fadd32
  rw [roundF32_eval _ (-1) 8668231 (by norm_num [abs_of_pos]) (by norm_num [abs_of_pos])
    (by norm_num) (by norm_num [roundEven])]
  norm_num

/-- The timer after frame 31. -/
theorem sixtieth_timer_32 : timerAfter sixtyOneFrames 0 32 = 8947851 / 16777216 := by
  rw [timerAfter_succ sixtyOneFrames 0 31 sampleSixtiethFrame (Nat.zero_le _) rfl,
    sixtieth_timer_31]
  show fadd32 _ (8947849 / 536870912) = _
  unfold fadd32
  rw [roundF32_eval _ (-1) 8947851 (by norm_num [abs_of_pos]) (by norm_num [abs_of_pos])
    (by norm_num) (by norm_num [roundEven])]
  norm_num

/-- The timer after frame 32. -/
theorem sixtieth_timer_33 : timerAfter sixtyOneFrames 0 33 = 9227471 / 16777216 := by
  rw [timerAfter_succ sixtyOneFrames 0 32 sampleSixtiethFrame (Nat.zero_le _) rfl,
    sixtieth_timer_32]
  show fadd32 _ (8947849 / 536870912) = _
  unfold fadd32
  rw [roundF32_eval _ (-1) 9227471 (by norm_num [abs_of_pos]) (by norm_num [abs_of_pos])
    (by norm_num) (by norm_num [roundEven])]
  norm_num

/-- The timer after frame 33. -/
theorem sixtieth_timer_34 : timerAfter sixtyOneFrames 0 34 = 9507091 / 16777216 := by
  rw [timerAfter_succ sixtyOneFrames 0 33 sampleSixtiethFrame (Nat.zero_le _) rfl,
    sixtieth_timer_33]
  show fadd32 _ (8947849 / 536870912) = _
  unfold fadd32
  rw [roundF32_eval _ (-1) 9507091 (by norm_num [abs_of_pos]) (by norm_num [abs_of_pos])
    (by norm_num) (by norm_num [roundEven])]
  norm_num

/-- The timer after frame 34. -/
theorem sixtieth_timer_35 : timerAfter sixtyOneFrames 0 35 = 9786711 / 16777216 := by
  rw [timerAfter_succ sixtyOneFrames 0 34 sampleSixtiethFrame (Nat.zero_le _) rfl,
    sixtieth_timer_34]
  show fadd32 _ (8947849 / 536870912) = _
  unfold fadd32
  rw [roundF32_eval _ (-1) 9786711 (by norm_num [abs_of_pos]) (by norm_num [abs_of_pos])
    (by norm_num) (by norm_num [roundEven])]
  norm_num

/-- The timer after frame 35. -/
theorem sixtieth_timer_36 : timerAfter sixtyOneFrames 0 36 = 10066331 / 16777216 := by
  rw [timerAfter_succ sixtyOneFrames 0 35 sampleSixtiethFrame (Nat.zero_le _) rfl,
    sixtieth_timer_35]
  show fadd32 _ (8947849 / 536870912) = _
  unfold fadd32
  rw [roundF32_eval _ (-1) 10066331 (by norm_num [abs_of_pos]) (by norm_num [abs_of_pos])
    (by norm_num) (by norm_num [roundEven])]
  norm_num

/-- The timer after frame 36. -/
theorem sixtieth_timer_37 : timerAfter sixtyOneFrames 0 37 = 10345951 / 16777216 := by
  rw [timerAfter_succ sixtyOneFrames 0 36 sampleSixtiethFrame (Nat.zero_le _) rfl,
    sixtieth_timer_36]
  show fadd32 _ (8947849 / 536870912) = _
  unfold fadd32
  rw [roundF32_eval _ (-1) 10345951 (by norm_num [abs_of_pos]) (by norm_num [abs_of_pos])
    (by norm_num) (by norm_num [roundEven])]
  norm_num

/-- The timer after frame 37. -/
theorem sixtieth_timer_38 : timerAfter sixtyOneFrames 0 38 = 10625571 / 16777216 := by
  rw [timerAfter_succ sixtyOneFrames 0 37 sampleSixtiethFrame (Nat.zero_le _) rfl,
    sixtieth_timer_37]
  show fadd32 _ (8947849 / 536870912) = _
  unfold fadd32
  rw [roundF32_eval _ (-1) 10625571 (by norm_num [abs_of_pos]) (by norm_num [abs_of_pos])
    (by norm_num) (by norm_num [roundEven])]
  norm_num

/-- The timer after frame 38. -/
theorem sixtieth_timer_39 : timerAfter sixtyOneFrames 0 39 = 10905191 / 16777216 := by
  rw [timerAfter_succ sixtyOneFrames 0 38 sampleSixtiethFrame (Nat.zero_le _) rfl,
    sixtieth_timer_38]
  show fadd32 _ (8947849 / 536870912) = _
  unfold fadd32
  rw [roundF32_eval _ (-1) 10905191 (by norm_num [abs_of_pos]) (by norm_num [abs_of_pos])
    (by norm_num) (by norm_num [roundEven])]
  norm_num

/-- The timer after frame 39. -/
theorem sixtieth_timer_40 : timerAfter sixtyOneFrames 0 40 = 11184811 / 16777216 := by
  rw [timerAfter_succ sixtyOneFrames 0 39 sampleSixtiethFrame (Nat.zero_le _) rfl,
    sixtieth_timer_39]
  show fadd32 _ (8947849 / 536870912) = _
  unfold fadd32
  rw [roundF32_eval _ (-1) 11184811 (by norm_num [abs_of_pos]) (by norm_num [abs_of_pos])
    (by norm_num) (by norm_num [roundEven])]
  norm_num

/-- The timer after frame 40. -/
theorem sixtieth_timer_41 : timerAfter sixtyOneFrames 0 41 = 11464431 / 16777216 := by
  rw [timerAfter_succ sixtyOneFrames 0 40 sampleSixtiethFrame (Nat.zero_le _) rfl,
    sixtieth_timer_40]
  show fadd32 _ (8947849 / 536870912) = _
  unfold fadd32
  rw [roundF32_eval _ (-1) 11464431 (by norm_num [abs_of_pos]) (by norm_num [abs_of_pos])
    (by norm_num) (by norm_num [roundEven])]
  norm_num

/-- The timer after frame 41. -/
theorem sixtieth_timer_42 : timerAfter sixtyOneFrames 0 42 = 11744051 / 16777216 := by
  rw [timerAfter_succ sixtyOneFrames 0 41 sampleSixtiethFrame (Nat.zero_le _) rfl,
    sixtieth_timer_41]
  show fadd32 _ (8947849 / 536870912) = _
  unfold fadd32
  rw [roundF32_eval _ (-1) 11744051 (by norm_num [abs_of_pos]) (by norm_num [abs_of_pos])
    (by norm_num) (by norm_num [roundEven])]
  norm_num

/-- The timer after frame 42. -/
theorem sixtieth_timer_43 : timerAfter sixtyOneFrames 0 43 = 12023671 / 16777216 := by
  rw [timerAfter_succ sixtyOneFrames 0 42 sampleSixtiethFrame (Nat.zero_le _) rfl,
    sixtieth_timer_42]
  show fadd32 _ (8947849 / 536870912) = _
  unfold fadd32
  rw [roundF32_eval _ (-1) 12023671 (by norm_num [abs_of_pos]) (by norm_num [abs_of_pos])
    (by norm_num) (by norm_num [roundEven])]
  norm_num

/-- The timer after frame 43. -/
theorem sixtieth_timer_44 : timerAfter sixtyOneFrames 0 44 = 12303291 / 16777216 := by
  rw [timerAfter_succ sixtyOneFrames 0 43 sampleSixtiethFrame (Nat.zero_le _) rfl,
    sixtieth_timer_43]
  show fadd32 _ (8947849 / 536870912) = _
  unfold fadd32
  rw [roundF32_eval _ (-1) 12303291 (by norm_num [abs_of_pos]) (by norm_num [abs_of_pos])
    (by norm_num) (by norm_num [roundEven])]
  norm_num

/-- The timer after frame 44. -/
theorem sixtieth_timer_45 : timerAfter sixtyOneFrames 0 45 = 12582911 / 16777216 := by
  rw [timerAfter_succ sixtyOneFrames 0 44 sampleSixtiethFrame (Nat.zero_le _) rfl,
    sixtieth_timer_44]
  show fadd32 _ (8947849 / 536870912) = _
  unfold fadd32
  rw [roundF32_eval _ (-1) 12582911 (by norm_num [abs_of_pos]) (by norm_num [abs_of_pos])
    (by norm_num) (by norm_num [roundEven])]
  norm_num

/-- The timer after frame 45. -/
theorem sixtieth_timer_46 : timerAfter sixtyOneFrames 0 46 = 12862531 / 16777216 := by
  rw [timerAfter_succ sixtyOneFrames 0 45 sampleSixtiethFrame (Nat.zero_le _) rfl,
    sixtieth_timer_45]
  show fadd32 _ (8947849 / 536870912) = _
  unfold fadd32
  rw [roundF32_eval _ (-1) 12862531 (by norm_num [abs_of_pos]) (by norm_num [abs_of_pos])
    (by norm_num) (by norm_num [roundEven])]
  norm_num

/-- The timer after frame 46. -/
theorem sixtieth_timer_47 : timerAfter sixtyOneFrames 0 47 = 13142151 / 16777216 := by
  rw [timerAfter_succ sixtyOneFrames 0 46 sampleSixtiethFrame (Nat.zero_le _) rfl,
    sixtieth_timer_46]
  show fadd32 _ (8947849 / 536870912) = _
  unfold fadd32
  rw [roundF32_eval _ (-1) 13142151 (by norm_num [abs_of_pos]) (by norm_num [abs_of_pos])
    (by norm_num) (by norm_num [roundEven])]
  norm_num

/-- The timer after frame 47. -/
theorem sixtieth_timer_48 : timerAfter sixtyOneFrames 0 48 = 13421771 / 16777216 := by
  rw [timerAfter_succ sixtyOneFrames 0 47 sampleSixtiethFrame (Nat.zero_le _) rfl,
    sixtieth_timer_47]
  show fadd32 _ (8947849 / 536870912) = _
  unfold fadd32
  rw [roundF32_eval _ (-1) 13421771 (by norm_num [abs_of_pos]) (by norm_num [abs_of_pos])
    (by norm_num) (by norm_num [roundEven])]
  norm_num

/-- The timer after frame 48. -/
theorem sixtieth_timer_49 : timerAfter sixtyOneFrames 0 49 = 13701391 / 16777216 := by
  rw [timerAfter_succ sixtyOneFrames 0 48 sampleSixtiethFrame (Nat.zero_le _) rfl,
    sixtieth_timer_48]
  show fadd32 _ (8947849 / 536870912) = _
  unfold fadd32
  rw [roundF32_eval _ (-1) 13701391 (by norm_num [abs_of_pos]) (by norm_num [abs_of_pos])
    (by norm_num) (by norm_num [roundEven])]
  norm_num

/-- The timer after frame 49. -/
theorem sixtieth_timer_50 : timerAfter sixtyOneFrames 0 50 = 13981011 / 16777216 := by
  rw [timerAfter_succ sixtyOneFrames 0 49 sampleSixtiethFrame (Nat.zero_le _) rfl,
    sixtieth_timer_49]
  show fadd32 _ (8947849 / 536870912) = _
  unfold fadd32
  rw [roundF32_eval _ (-1) 13981011 (by norm_num [abs_of_pos]) (by norm_num [abs_of_pos])
    (by norm_num) (by norm_num [roundEven])]
  norm_num

/-- The timer after frame 50. -/
theorem sixtieth_timer_51 : timerAfter sixtyOneFrames 0 51 = 14260631 / 16777216 := by
  rw [timerAfter_succ sixtyOneFrames 0 50 sampleSixtiethFrame (Nat.zero_le _) rfl,
    sixtieth_timer_50]
  show fadd32 _ (8947849 / 536870912) = _
  unfold fadd32
  rw [roundF32_eval _ (-1) 14260631 (by norm_num [abs_of_pos]) (by norm_num [abs_of_pos])
    (by norm_num) (by norm_num [roundEven])]
  norm_num

/-- The timer after frame 51. -/
theorem sixtieth_timer_52 : timerAfter sixtyOneFrames 0 52 = 14540251 / 16777216 := by
  rw [timerAfter_succ sixtyOneFrames 0 51 sampleSixtiethFrame (Nat.zero_le _) rfl,
    sixtieth_timer_51]
  show fadd32 _ (8947849 / 536870912) = _
  unfold fadd32
  rw [roundF32_eval _ (-1) 14540251 (by norm_num [abs_of_pos]) (by norm_num [abs_of_pos])
    (by norm_num) (by norm_num [roundEven])]
  norm_num

/-- The timer after frame 52. -/
theorem sixtieth_timer_53 : timerAfter sixtyOneFrames 0 53 = 14819871 / 16777216 := by
  rw [timerAfter_succ sixtyOneFrames 0 52 sampleSixtiethFrame (Nat.zero_le _) rfl,
    sixtieth_timer_52]
  show fadd32 _ (8947849 / 536870912) = _
  unfold fadd32
  rw [roundF32_eval _ (-1) 14819871 (by norm_num [abs_of_pos]) (by norm_num [abs_of_pos])
    (by norm_num) (by norm_num [roundEven])]
  norm_num

/-- The timer after frame 53. -/
theorem sixtieth_timer_54 : timerAfter sixtyOneFrames 0 54 = 15099491 / 16777216 := by
  rw [timerAfter_succ sixtyOneFrames 0 53 sampleSixtiethFrame (Nat.zero_le _) rfl,
    sixtieth_timer_53]
  show fadd32 _ (8947849 / 536870912) = _
  unfold fadd32
  rw [roundF32_eval _ (-1) 15099491 (by norm_num [abs_of_pos]) (by norm_num [abs_of_pos])
    (by norm_num) (by norm_num [roundEven])]
  norm_num

/-- The timer after frame 54. -/
theorem sixtieth_timer_55 : timerAfter sixtyOneFrames 0 55 = 15379111 / 16777216 := by
  rw [timerAfter_succ sixtyOneFrames 0 54 sampleSixtiethFrame (Nat.zero_le _) rfl,
    sixtieth_timer_54]
  show fadd32 _ (8947849 / 536870912) = _
  unfold fadd32
  rw [roundF32_eval _ (-1) 15379111 (by norm_num [abs_of_pos]) (by norm_num [abs_of_pos])
    (by norm_num) (by norm_num [roundEven])]
  norm_num

/-- The timer after frame 55. -/
theorem sixtieth_timer_56 : timerAfter sixtyOneFrames 0 56 = 15658731 / 16777216 := by
  rw [timerAfter_succ sixtyOneFrames 0 55 sampleSixtiethFrame (Nat.zero_le _) rfl,
    sixtieth_timer_55]
  show fadd32 _ (8947849 / 536870912) = _
  unfold fadd32
  rw [roundF32_eval _ (-1) 15658731 (by norm_num [abs_of_pos]) (by norm_num [abs_of_pos])
    (by norm_num) (by norm_num [roundEven])]
  norm_num

/-- The timer after frame 56. -/
theorem sixtieth_timer_57 : timerAfter sixtyOneFrames 0 57 = 15938351 / 16777216 := by
  rw [timerAfter_succ sixtyOneFrames 0 56 sampleSixtiethFrame (Nat.zero_le _) rfl,
    sixtieth_timer_56]
  show fadd32 _ (8947849 / 536870912) = _
  unfold fadd32
  rw [roundF32_eval _ (-1) 15938351 (by norm_num [abs_of_pos]) (by norm_num [abs_of_pos])
    (by norm_num) (by norm_num [roundEven])]
  norm_num

/-- The timer after frame 57. -/
theorem sixtieth_timer_58 : timerAfter sixtyOneFrames 0 58 = 16217971 / 16777216 := by
  rw [timerAfter_succ sixtyOneFrames 0 57 sampleSixtiethFrame (Nat.zero_le _) rfl,
    sixtieth_timer_57]
  show fadd32 _ (8947849 / 536870912) = _
  unfold fadd32
  rw [roundF32_eval _ (-1) 16217971 (by norm_num [abs_of_pos]) (by norm_num [abs_of_pos])
    (by norm_num) (by norm_num [roundEven])]
  norm_num

/-- The timer after frame 58. -/
theorem sixtieth_timer_59 : timerAfter sixtyOneFrames 0 59 = 16497591 / 16777216 := by
  rw [timerAfter_succ sixtyOneFrames 0 58 sampleSixtiethFrame (Nat.zero_le _) rfl,
    sixtieth_timer_58]
  show fadd32 _ (8947849 / 536870912) = _
  unfold fadd32
  rw [roundF32_eval _ (-1) 16497591 (by norm_num [abs_of_pos]) (by norm_num [abs_of_pos])
    (by norm_num) (by norm_num [roundEven])]
  norm_num

/-- The timer after frame 59. -/
theorem sixtieth_timer_60 : timerAfter sixtyOneFrames 0 60 = 16777211 / 16777216 := by
  rw [timerAfter_succ sixtyOneFrames 0 59 sampleSixtiethFrame (Nat.zero_le _) rfl,
    sixtieth_timer_59]
  show fadd32 _ (8947849 / 536870912) = _
  unfold fadd32
  rw [roundF32_eval _ (-1) 16777211 (by norm_num [abs_of_pos]) (by norm_num [abs_of_pos])
    (by norm_num) (by norm_num [roundEven])]
  norm_num

/-- The timer after frame 60. -/
theorem sixtieth_timer_61 : timerAfter sixtyOneFrames 0 61 = 266513 / 262144 := by
  rw [timerAfter_succ sixtyOneFrames 0 60 sampleSixtiethFrame (Nat.zero_le _) rfl,
    sixtieth_timer_60]
  show fadd32 _ (8947849 / 536870912) = _
  unfold fadd32
  rw [roundF32_eval _ (0) 8528416 (by norm_num [abs_of_pos]) (by norm_num [abs_of_pos])
    (by norm_num) (by norm_num [roundEven])]
  norm_num

/-- Over the first sixty frames the timer stays below 1. -/
theorem sixtieth_timer_below (k : Nat) (h1 : 1 ≤ k) (h2 : k ≤ 60) :
    timerAfter sixtyOneFrames 0 k < 1 := by
  interval_cases k
  · rw [sixtieth_timer_1]
    norm_num
  · rw [sixtieth_timer_2]
    norm_num
  · rw [sixtieth_timer_3]
    norm_num
  · rw [sixtieth_timer_4]
    norm_num
  · rw [sixtieth_timer_5]
    norm_num
  · rw [sixtieth_timer_6]
    norm_num
  · rw [sixtieth_timer_7]
    norm_num
  · rw [sixtieth_timer_8]
    norm_num
  · rw [sixtieth_timer_9]
    norm_num
  · rw [sixtieth_timer_10]
    norm_num
  · rw [sixtieth_timer_11]
    norm_num
  · rw [sixtieth_timer_12]
    norm_num
  · rw [sixtieth_timer_13]
    norm_num
  · rw [sixtieth_timer_14]
    norm_num
  · rw [sixtieth_timer_15]
    norm_num
  · rw [sixtieth_timer_16]
    norm_num
  · rw [sixtieth_timer_17]
    norm_num
  · rw [sixtieth_timer_18]
    norm_num
  · rw [sixtieth_timer_19]
    norm_num
  · rw [sixtieth_timer_20]
    norm_num
  · rw [sixtieth_timer_21]
    norm_num
  · rw [sixtieth_timer_22]
    norm_num
  · rw [sixtieth_timer_23]
    norm_num
  · rw [sixtieth_timer_24]
    norm_num
  · rw [sixtieth_timer_25]
    norm_num
  · rw [sixtieth_timer_26]
    norm_num
  · rw [sixtieth_timer_27]
    norm_num
  · rw [sixtieth_timer_28]
    norm_num
  · rw [sixtieth_timer_29]
    norm_num
  · rw [sixtieth_timer_30]
    norm_num
  · rw [sixtieth_timer_31]
    norm_num
  · rw [sixtieth_timer_32]
    norm_num
  · rw [sixtieth_timer_33]
    norm_num
  · rw [sixtieth_timer_34]
    norm_num
  · rw [sixtieth_timer_35]
    norm_num
  · rw [sixtieth_timer_36]
    norm_num
  · rw [sixtieth_timer_37]
    norm_num
  · rw [sixtieth_timer_38]
    norm_num
  · rw [sixtieth_timer_39]
    norm_num
  · rw [sixtieth_timer_40]
    norm_num
  · rw [sixtieth_timer_41]
    norm_num
  · rw [sixtieth_timer_42]
    norm_num
  · rw [sixtieth_timer_43]
    norm_num
  · rw [sixtieth_timer_44]
    norm_num
  · rw [sixtieth_timer_45]
    norm_num
  · rw [sixtieth_timer_46]
    norm_num
  · rw [sixtieth_timer_47]
    norm_num
  · rw [sixtieth_timer_48]
    norm_num
  · rw [sixtieth_timer_49]
    norm_num
  · rw [sixtieth_timer_50]
    norm_num
  · rw [sixtieth_timer_51]
    norm_num
  · rw [sixtieth_timer_52]
    norm_num
  · rw [sixtieth_timer_53]
    norm_num
  · rw [sixtieth_timer_54]
    norm_num
  · rw [sixtieth_timer_55]
    norm_num
  · rw [sixtieth_timer_56]
    norm_num
  · rw [sixtieth_timer_57]
    norm_num
  · rw [sixtieth_timer_58]
    norm_num
  · rw [sixtieth_timer_59]
    norm_num
  · rw [sixtieth_timer_60]
    norm_num

/-- At 60 frames per second the block breaks in frame 61, not in frame 60. Sixty frame
times of `(float)(1.0 / 60)` sum to more than 1, but the `float` timer, rounded after every
addition, stands at `1 - 5 * 2 ^ (-24)` after frame 60: the first sixty frames break
nothing and the next one breaks the block. -/
theorem sixty_frames_do_not_break :
    HeldOn sampleBlockGame ⟨30, 20, 30⟩ sixtyOneFrames 60 ∧
    1 ≤ accumulated sixtyOneFrames 60 ∧
    timerAfter sixtyOneFrames 0 60 < 1 ∧
    breakCalls (sampleBlockGame.run (sixtyOneFrames.take 60)).calls = [] ∧
    breakCalls (sampleBlockGame.run (sixtyOneFrames.take (60 + 1))).calls =
      [⟨30, 20, 30⟩] := by
  have hget : ∀ (k : Nat) (inp : FrameInput),
      sixtyOneFrames[k]? = some inp → inp = sampleSixtiethFrame := by
    intro k inp h
    unfold sixtyOneFrames at h
    rw [List.getElem?_replicate] at h
    split_ifs at h
    exact (Option.some.inj h).symm
  have hheld : HeldOn sampleBlockGame ⟨30, 20, 30⟩ sixtyOneFrames 60 := by
    intro k inp _ hg
    rw [hget k inp hg]
    exact ⟨rfl, _, rfl, rfl⟩
  obtain ⟨h1, h2, _, h4, _⟩ := held_below sampleBlockGame ⟨30, 20, 30⟩ sixtyOneFrames rfl 60
    (by simp [sixtyOneFrames])
    (fun k hk k' inp' hk' hg => hheld k' inp' (by omega) hg) sixtieth_timer_below
  have hstep := (update_held (sampleBlockGame.run (sixtyOneFrames.take 60))
    sampleSixtiethFrame ⟨30, 20, 30⟩ _ rfl rfl rfl h2).2
  rw [h1, ← timerAfter_succ sixtyOneFrames 0 60 sampleSixtiethFrame (Nat.zero_le _) rfl,
    sixtieth_timer_61] at hstep
  refine ⟨hheld, ?_, ?_, h4, ?_⟩
  · simp only [accumulated, sixtyOneFrames, List.take_replicate, List.map_replicate,
      List.sum_replicate, sampleSixtiethFrame]
    norm_num
  · rw [sixtieth_timer_60]
    norm_num
  · rw [run_take_succ sampleBlockGame sixtyOneFrames 60 sampleSixtiethFrame rfl,
      (hstep (by norm_num)).2.2.2.1, h4]
    rfl

/-! ## Collision and physics -/

/-- `CheckCollision` reads the character's size only. -/
theorem checkCollision_congr_size (m m' : Motion) (w : OptimizedWorld) (p : Vector3)
    (h : m'.size = m.size) : m'.CheckCollision w p = m.CheckCollision w p := by
  unfold Motion.CheckCollision Motion.checkPoints
  rw [h]

/-- The x and z tries of `ResolveCollision` end at a position that does not collide, when
the current position does not. -/
theorem resolveXZ_no_collision (m : Motion) (w : OptimizedWorld) (newPos : Vector3)
    (hcur : m.CheckCollision w m.position = false) :
    m.CheckCollision w (m.resolveXZ w newPos) = false := by
  unfold Motion.resolveXZ
  simp only []
  by_cases hx : m.CheckCollision w { m.position with x := newPos.x } = true
  · simp only [hx, Bool.not_true, Bool.false_eq_true, if_false]
    by_cases hz : m.CheckCollision w { m.position with z := newPos.z } = true
    · simp only [hz, Bool.not_true, Bool.false_eq_true, if_false]
      exact hcur
    · simp only [Bool.not_eq_true] at hz
      simp only [hz, Bool.not_false, if_true]
  · simp only [Bool.not_eq_true] at hx
    simp only [hx, Bool.not_false, if_true]
    by_cases hz : m.CheckCollision w
        { ({ m.position with x := newPos.x } : Vector3) with z := newPos.z } = true
    · simp only [hz, Bool.not_true, Bool.false_eq_true, if_false]
      exact hx
    · simp only [Bool.not_eq_true] at hz
      simp only [hz, Bool.not_false, if_true]

/-- C15. For every world, every current position at which `CheckCollision` is false and
every candidate position: if `ResolveCollision` does not take the ground-snap branch, then
`CheckCollision` is false at the position it returns. -/
theorem resolve_no_collision (m : Motion) (w : OptimizedWorld) (newPos : Vector3)
    (hcur : m.CheckCollision w m.position = false)
    (hsnap : m.groundSnapTaken w newPos = false) :
    m.CheckCollision w (m.ResolveCollision w newPos) = false := by
  have hxz := resolveXZ_no_collision m w newPos hcur
  unfold Motion.groundSnapTaken at hsnap
  unfold Motion.ResolveCollision
  simp only [] at hsnap ⊢
  by_cases hy : m.CheckCollision w { m.resolveXZ w newPos with y := newPos.y } = true
  · rw [hy] at hsnap
    simp only [Bool.true_and, decide_eq_false_iff_not] at hsnap
    simp only [hy, Bool.not_true, Bool.false_eq_true, if_false, if_neg hsnap]
    exact hxz
  · simp only [Bool.not_eq_true] at hy
    simp only [hy, Bool.not_false, if_true]

/-- What `moveTo` leaves when the candidate position collides. -/
theorem moveTo_collide (m : Motion) (w : OptimizedWorld) (newPos : Vector3)
    (h : m.CheckCollision w newPos = true) :
    (m.moveTo w newPos).position = m.ResolveCollision w newPos ∧
    (m.moveTo w newPos).isGrounded =
      m.CheckCollision w { m.ResolveCollision w newPos with
        y := (m.ResolveCollision w newPos).y - 1 / 10 } ∧
    (m.moveTo w newPos).velocity.x =
      (if |(m.ResolveCollision w newPos).x - newPos.x| > 1 / 100 then 0 else m.velocity.x) ∧
    (m.moveTo w newPos).velocity.y =
      (if m.CheckCollision w { m.ResolveCollision w newPos with
        y := (m.ResolveCollision w newPos).y - 1 / 10 } then 0 else m.velocity.y) ∧
    (m.moveTo w newPos).velocity.z =
      (if |(m.ResolveCollision w newPos).z - newPos.z| > 1 / 100 then 0 else m.velocity.z) ∧
    (m.moveTo w newPos).isFlying = m.isFlying := by
  unfold Motion.moveTo
  rw [if_pos h]
  simp only []
  rw [checkCollision_congr_size m { m with position := m.ResolveCollision w newPos } w _ rfl]
  split_ifs <;> simp_all

/-- What `moveTo` leaves when the candidate position does not collide. -/
theorem moveTo_free (m : Motion) (w : OptimizedWorld) (newPos : Vector3)
    (h : m.CheckCollision w newPos = false) :
    m.moveTo w newPos = { m with position := newPos, isGrounded := false } := by
  unfold Motion.moveTo
  rw [if_neg (by simp [h])]

/-- Friction keeps position, grounded flag and vertical velocity, and scales the
horizontal velocity. -/
theorem applyFriction_fields (m : Motion) :
    m.applyFriction.position = m.position ∧ m.applyFriction.isGrounded = m.isGrounded ∧
    m.applyFriction.velocity.y = m.velocity.y ∧
    (m.velocity.x = 0 → m.applyFriction.velocity.x = 0) ∧
    (m.velocity.z = 0 → m.applyFriction.velocity.z = 0) := by
  unfold Motion.applyFriction
  split_ifs <;> simp_all

/-- The safety net: below -10 the position is put at height 20 and the velocity zeroed;
otherwise nothing changes. -/
theorem fallReset_fields (m : Motion) :
    m.fallReset.isGrounded = m.isGrounded ∧
    (m.position.y < -10 → m.fallReset.position.y = 20 ∧ m.fallReset.velocity = ⟨0, 0, 0⟩) ∧
    (¬ m.position.y < -10 → m.fallReset = m) := by
  unfold Motion.fallReset
  split_ifs with h
  · exact ⟨rfl, fun _ => ⟨rfl, rfl⟩, fun hn => absurd h hn⟩
  · exact ⟨rfl, fun hh => absurd hh h, fun _ => rfl⟩

/-- Below the world no sample point of the bounding box is in a block. -/
theorem checkCollision_below_world (m : Motion) (w : OptimizedWorld) (p : Vector3)
    (hsize : m.size.y ≤ 10) (hp : p.y < -10) : m.CheckCollision w p = false := by
  have hair : ∀ q : Vector3, q.y < 0 → w.IsBlockAt q = false := by
    intro q hq
    unfold OptimizedWorld.IsBlockAt OptimizedWorld.GetBlock
    have hf : ⌊q.y⌋ < 0 := Int.floor_lt.mpr (by simpa using hq)
    simp only []
    rw [if_pos (Or.inl hf)]
    rfl
  unfold Motion.CheckCollision Motion.checkPoints
  simp only [List.any_cons, List.any_nil, Bool.or_false, Vector3Scale]
  rw [hair, hair, hair, hair, hair, hair, hair, hair, hair]
  · rfl
  all_goals (simp only []; linarith)

/-- The collision test on the one-block fixture: some sample point has the block's cell as
its floor. -/
theorem checkCollision_sampleBlockWorld (m : Motion) (a b c : Int) (hin : InWorld a b c)
    (p : Vector3) :
    m.CheckCollision (sampleBlockWorld a b c) p =
      (m.checkPoints p).any (fun q => decide (⌊q.x⌋ = a ∧ ⌊q.y⌋ = b ∧ ⌊q.z⌋ = c)) := by
  unfold Motion.CheckCollision sampleBlockWorld
  congr 1
  funext q
  rw [isBlockAt_single 1337 a b c _ hin]
  simp [Block.IsSolid]

/-- Witness for C15: a block at `(33, 41, 32)` east of a character standing at
`(32.5, 41, 32.5)`; the candidate `(32.8, 41, 32.5)` collides, the x try is refused, and
the position returned does not collide. -/
theorem resolve_no_collision_witness :
    (Motion.new ⟨32 + 1 / 2, 41, 32 + 1 / 2⟩).CheckCollision (sampleBlockWorld 33 41 32)
      (Motion.new ⟨32 + 1 / 2, 41, 32 + 1 / 2⟩).position = false ∧
    (Motion.new ⟨32 + 1 / 2, 41, 32 + 1 / 2⟩).groundSnapTaken (sampleBlockWorld 33 41 32)
      ⟨32 + 4 / 5, 41, 32 + 1 / 2⟩ = false ∧
    (Motion.new ⟨32 + 1 / 2, 41, 32 + 1 / 2⟩).CheckCollision (sampleBlockWorld 33 41 32)
      ⟨32 + 4 / 5, 41, 32 + 1 / 2⟩ = true ∧
    (Motion.new ⟨32 + 1 / 2, 41, 32 + 1 / 2⟩).CheckCollision (sampleBlockWorld 33 41 32)
      ((Motion.new ⟨32 + 1 / 2, 41, 32 + 1 / 2⟩).ResolveCollision (sampleBlockWorld 33 41 32)
        ⟨32 + 4 / 5, 41, 32 + 1 / 2⟩) = false := by
  have hin : InWorld 33 41 32 := by unfold InWorld; decide
  have h1 : (Motion.new ⟨32 + 1 / 2, 41, 32 + 1 / 2⟩).CheckCollision (sampleBlockWorld 33 41 32)
      (Motion.new ⟨32 + 1 / 2, 41, 32 + 1 / 2⟩).position = false := by
    rw [checkCollision_sampleBlockWorld _ _ _ _ hin]
    norm_num [Motion.checkPoints, Motion.new, Vector3Scale]
  have h2 : (Motion.new ⟨32 + 1 / 2, 41, 32 + 1 / 2⟩).groundSnapTaken (sampleBlockWorld 33 41 32)
      ⟨32 + 4 / 5, 41, 32 + 1 / 2⟩ = false := by
    unfold Motion.groundSnapTaken Motion.resolveXZ
    simp only [checkCollision_sampleBlockWorld _ _ _ _ hin]
    norm_num [Motion.checkPoints, Motion.new, Vector3Scale]
  have h3 : (Motion.new ⟨32 + 1 / 2, 41, 32 + 1 / 2⟩).CheckCollision (sampleBlockWorld 33 41 32)
      ⟨32 + 4 / 5, 41, 32 + 1 / 2⟩ = true := by
    rw [checkCollision_sampleBlockWorld _ _ _ _ hin]
    norm_num [Motion.checkPoints, Motion.new, Vector3Scale]
  exact ⟨h1, h2, h3, resolve_no_collision _ _ _ h1 h2⟩

/-- C16, as the code has it. In `UpdatePhysics`, when the candidate position collides: if
the resolved x (z) coordinate differs from the candidate x (z) by more than 0.01, the x
(z) velocity is zero at the end of the step. For y there is no such test: the y velocity
is zero at the end of the step when `CheckCollision` holds 0.1 below the resolved
position, and when it does not and the resolved y is not below -10 the y velocity keeps
its value after gravity. -/
theorem physics_collision_velocity (m : Motion) (w : OptimizedWorld) (frameTime : ℚ)
    (hcol : (m.applyGravity frameTime).CheckCollision w
      ((m.applyGravity frameTime).candidate frameTime) = true) :
    (|((m.applyGravity frameTime).ResolveCollision w
          ((m.applyGravity frameTime).candidate frameTime)).x -
        ((m.applyGravity frameTime).candidate frameTime).x| > 1 / 100 →
      (m.UpdatePhysics w frameTime).velocity.x = 0) ∧
    (|((m.applyGravity frameTime).ResolveCollision w
          ((m.applyGravity frameTime).candidate frameTime)).z -
        ((m.applyGravity frameTime).candidate frameTime).z| > 1 / 100 →
      (m.UpdatePhysics w frameTime).velocity.z = 0) ∧
    ((m.applyGravity frameTime).CheckCollision w
        { (m.applyGravity frameTime).ResolveCollision w
            ((m.applyGravity frameTime).candidate frameTime) with
          y := ((m.applyGravity frameTime).ResolveCollision w
            ((m.applyGravity frameTime).candidate frameTime)).y - 1 / 10 } = true →
      (m.UpdatePhysics w frameTime).velocity.y = 0) ∧
    ((m.applyGravity frameTime).CheckCollision w
        { (m.applyGravity frameTime).ResolveCollision w
            ((m.applyGravity frameTime).candidate frameTime) with
          y := ((m.applyGravity frameTime).ResolveCollision w
            ((m.applyGravity frameTime).candidate frameTime)).y - 1 / 10 } = false →
      ¬ ((m.applyGravity frameTime).ResolveCollision w
          ((m.applyGravity frameTime).candidate frameTime)).y < -10 →
      (m.UpdatePhysics w frameTime).velocity.y = (m.applyGravity frameTime).velocity.y) := by
  unfold Motion.UpdatePhysics
  simp only []
  generalize m.applyGravity frameTime = m1 at hcol ⊢
  generalize m1.candidate frameTime = newPos at hcol ⊢
  obtain ⟨hp, _, hvx, hvy, hvz, _⟩ := moveTo_collide m1 w newPos hcol
  obtain ⟨hfp, _, hfy, hfx, hfz⟩ := applyFriction_fields (m1.moveTo w newPos)
  obtain ⟨_, hr1, hr2⟩ := fallReset_fields (m1.moveTo w newPos).applyFriction
  have hzero : (m1.moveTo w newPos).applyFriction.position.y < -10 →
      (m1.moveTo w newPos).applyFriction.fallReset.velocity = ⟨0, 0, 0⟩ := fun h => (hr1 h).2
  refine ⟨?_, ?_, ?_, ?_⟩
  · intro hx
    by_cases hlow : (m1.moveTo w newPos).applyFriction.position.y < -10
    · rw [hzero hlow]
    · rw [hr2 hlow]
      apply hfx
      rw [hvx, if_pos hx]
  · intro hz
    by_cases hlow : (m1.moveTo w newPos).applyFriction.position.y < -10
    · rw [hzero hlow]
    · rw [hr2 hlow]
      apply hfz
      rw [hvz, if_pos hz]
  · intro hg
    by_cases hlow : (m1.moveTo w newPos).applyFriction.position.y < -10
    · rw [hzero hlow]
    · rw [hr2 hlow, hfy, hvy, if_pos hg]
  · intro hg hlow
    rw [hfp, hp] at hr2
    rw [hr2 hlow, hfy, hvy, hg]
    simp

/-- Witness for C16 (as the code has it): a block at `(33, 41, 32)` east of a character
at `(32.5, 41, 32.5)` flying east at 6 units per second; after a step of 0.05 the
candidate `(32.8, 41, 32.5)` collides, the x try is refused, and the x velocity is 0. -/
theorem physics_collision_velocity_witness :
    ((({ Motion.new ⟨32 + 1 / 2, 41, 32 + 1 / 2⟩ with
          velocity := ⟨6, 0, 0⟩, isFlying := true } : Motion).applyGravity (1 / 20)).CheckCollision
        (sampleBlockWorld 33 41 32)
        ((({ Motion.new ⟨32 + 1 / 2, 41, 32 + 1 / 2⟩ with
          velocity := ⟨6, 0, 0⟩, isFlying := true } : Motion).applyGravity (1 / 20)).candidate
            (1 / 20)) = true) ∧
    (({ Motion.new ⟨32 + 1 / 2, 41, 32 + 1 / 2⟩ with
          velocity := ⟨6, 0, 0⟩, isFlying := true } : Motion).UpdatePhysics
        (sampleBlockWorld 33 41 32) (1 / 20)).velocity.x = 0 := by
  have hin : InWorld 33 41 32 := by unfold InWorld; decide
  have hcol : ((({ Motion.new ⟨32 + 1 / 2, 41, 32 + 1 / 2⟩ with
          velocity := ⟨6, 0, 0⟩, isFlying := true } : Motion).applyGravity (1 / 20)).CheckCollision
        (sampleBlockWorld 33 41 32)
        ((({ Motion.new ⟨32 + 1 / 2, 41, 32 + 1 / 2⟩ with
          velocity := ⟨6, 0, 0⟩, isFlying := true } : Motion).applyGravity (1 / 20)).candidate
            (1 / 20)) = true) := by
    rw [checkCollision_sampleBlockWorld _ _ _ _ hin]
    norm_num [Motion.checkPoints, Motion.new, Vector3Scale, Motion.applyGravity,
      Motion.candidate]
  refine ⟨hcol, (physics_collision_velocity _ _ _ hcol).1 ?_⟩
  unfold Motion.ResolveCollision Motion.resolveXZ
  simp only [checkCollision_sampleBlockWorld _ _ _ _ hin]
  norm_num [Motion.checkPoints, Motion.new, Vector3Scale, Motion.applyGravity,
    Motion.candidate, abs_of_neg]

/-- C16, the sentence as written fails on the y axis. A block at `(32, 43, 32)` above a
character at `(32.5, 41, 32.5)` moving up at 8 units per second; after a step of 0.05 the
candidate `(32.5, 41.35, 32.5)` collides, the resolved position is `(32.5, 41, 32.5)`, whose
y differs from the candidate y by 0.35, more than 0.01, and the y velocity at the end of
the step is 7, not 0. -/
theorem physics_head_bump_keeps_velocity :
    ((({ Motion.new ⟨32 + 1 / 2, 41, 32 + 1 / 2⟩ with velocity := ⟨0, 8, 0⟩ } : Motion).applyGravity
        (1 / 20)).CheckCollision (sampleBlockWorld 32 43 32)
      ((({ Motion.new ⟨32 + 1 / 2, 41, 32 + 1 / 2⟩ with velocity := ⟨0, 8, 0⟩ } : Motion).applyGravity
        (1 / 20)).candidate (1 / 20)) = true) ∧
    ((({ Motion.new ⟨32 + 1 / 2, 41, 32 + 1 / 2⟩ with velocity := ⟨0, 8, 0⟩ } : Motion).applyGravity
        (1 / 20)).candidate (1 / 20)) = ⟨32 + 1 / 2, 41 + 7 / 20, 32 + 1 / 2⟩ ∧
    ((({ Motion.new ⟨32 + 1 / 2, 41, 32 + 1 / 2⟩ with velocity := ⟨0, 8, 0⟩ } : Motion).applyGravity
        (1 / 20)).ResolveCollision (sampleBlockWorld 32 43 32)
      ((({ Motion.new ⟨32 + 1 / 2, 41, 32 + 1 / 2⟩ with velocity := ⟨0, 8, 0⟩ } : Motion).applyGravity
        (1 / 20)).candidate (1 / 20))) = ⟨32 + 1 / 2, 41, 32 + 1 / 2⟩ ∧
    |(41 : ℚ) - (41 + 7 / 20)| > 1 / 100 ∧
    (({ Motion.new ⟨32 + 1 / 2, 41, 32 + 1 / 2⟩ with velocity := ⟨0, 8, 0⟩ } : Motion).UpdatePhysics
      (sampleBlockWorld 32 43 32) (1 / 20)).velocity.y = 7 := by
  have hin : InWorld 32 43 32 := by unfold InWorld; decide
  refine ⟨?_, ?_, ?_, ?_, ?_⟩
  · rw [checkCollision_sampleBlockWorld _ _ _ _ hin]
    norm_num [Motion.checkPoints, Motion.new, Vector3Scale, Motion.applyGravity,
      Motion.candidate]
  · norm_num [Motion.new, Motion.applyGravity, Motion.candidate]
  · unfold Motion.ResolveCollision Motion.resolveXZ
    simp only [checkCollision_sampleBlockWorld _ _ _ _ hin]
    norm_num [Motion.checkPoints, Motion.new, Vector3Scale, Motion.applyGravity,
      Motion.candidate]
  · norm_num [abs_of_neg]
  · unfold Motion.UpdatePhysics Motion.moveTo Motion.ResolveCollision Motion.resolveXZ
    simp only [checkCollision_sampleBlockWorld _ _ _ _ hin]
    norm_num [Motion.checkPoints, Motion.new, Vector3Scale, Motion.applyGravity,
      Motion.candidate, Motion.applyFriction, Motion.fallReset]

/-- C17, as the code has it. After an `UpdatePhysics` step whose candidate position
collides, `isGrounded` is true exactly when `CheckCollision` holds at the point 0.1 below
the resolved position; after a step whose candidate position does not collide,
`isGrounded` is false, and the point below is not tested. -/
theorem physics_grounded (m : Motion) (w : OptimizedWorld) (frameTime : ℚ) :
    ((m.applyGravity frameTime).CheckCollision w
        ((m.applyGravity frameTime).candidate frameTime) = true →
      ((m.UpdatePhysics w frameTime).isGrounded = true ↔
        (m.applyGravity frameTime).CheckCollision w
          { (m.applyGravity frameTime).ResolveCollision w
              ((m.applyGravity frameTime).candidate frameTime) with
            y := ((m.applyGravity frameTime).ResolveCollision w
              ((m.applyGravity frameTime).candidate frameTime)).y - 1 / 10 } = true)) ∧
    ((m.applyGravity frameTime).CheckCollision w
        ((m.applyGravity frameTime).candidate frameTime) = false →
      (m.UpdatePhysics w frameTime).isGrounded = false) := by
  unfold Motion.UpdatePhysics
  simp only []
  generalize m.applyGravity frameTime = m1
  generalize m1.candidate frameTime = newPos
  obtain ⟨_, hfg, _⟩ := applyFriction_fields (m1.moveTo w newPos)
  obtain ⟨hrg, _⟩ := fallReset_fields (m1.moveTo w newPos).applyFriction
  constructor
  · intro hcol
    obtain ⟨_, hg, _⟩ := moveTo_collide m1 w newPos hcol
    rw [hrg, hfg, hg]
  · intro hfree
    rw [hrg, hfg, moveTo_free m1 w newPos hfree]

/-- C17, the sentence as written fails when the candidate does not collide. A block at
`(32, 20, 32)` under a character at rest at `(32.5, 21.05, 32.5)`; after a step of 0.01 the
candidate `(32.5, 21.048, 32.5)` does not collide and becomes the position, `CheckCollision`
holds 0.1 below it, and `isGrounded` is false. -/
theorem physics_not_grounded_above_block :
    ((Motion.new ⟨32 + 1 / 2, 21 + 1 / 20, 32 + 1 / 2⟩).applyGravity (1 / 100)).CheckCollision
        (sampleBlockWorld 32 20 32)
        (((Motion.new ⟨32 + 1 / 2, 21 + 1 / 20, 32 + 1 / 2⟩).applyGravity (1 / 100)).candidate
          (1 / 100)) = false ∧
    ((Motion.new ⟨32 + 1 / 2, 21 + 1 / 20, 32 + 1 / 2⟩).UpdatePhysics
        (sampleBlockWorld 32 20 32) (1 / 100)).position =
      ⟨32 + 1 / 2, 21 + 6 / 125, 32 + 1 / 2⟩ ∧
    (Motion.new ⟨32 + 1 / 2, 21 + 1 / 20, 32 + 1 / 2⟩).CheckCollision
        (sampleBlockWorld 32 20 32) ⟨32 + 1 / 2, 21 + 6 / 125 - 1 / 10, 32 + 1 / 2⟩ = true ∧
    ((Motion.new ⟨32 + 1 / 2, 21 + 1 / 20, 32 + 1 / 2⟩).UpdatePhysics
        (sampleBlockWorld 32 20 32) (1 / 100)).isGrounded = false := by
  have hin : InWorld 32 20 32 := by unfold InWorld; decide
  refine ⟨?_, ?_, ?_, ?_⟩
  · rw [checkCollision_sampleBlockWorld _ _ _ _ hin]
    norm_num [Motion.checkPoints, Motion.new, Vector3Scale, Motion.applyGravity,
      Motion.candidate]
  · unfold Motion.UpdatePhysics Motion.moveTo
    simp only [checkCollision_sampleBlockWorld _ _ _ _ hin]
    norm_num [Motion.checkPoints, Motion.new, Vector3Scale, Motion.applyGravity,
      Motion.candidate, Motion.applyFriction, Motion.fallReset]
  · rw [checkCollision_sampleBlockWorld _ _ _ _ hin]
    norm_num [Motion.checkPoints, Motion.new, Vector3Scale]
  · unfold Motion.UpdatePhysics Motion.moveTo
    simp only [checkCollision_sampleBlockWorld _ _ _ _ hin]
    norm_num [Motion.checkPoints, Motion.new, Vector3Scale, Motion.applyGravity,
      Motion.candidate, Motion.applyFriction, Motion.fallReset]

/-- C20. For a character whose height is at most 10 (the constructor sets 1.8 and nothing
changes it), after every `UpdatePhysics` step the y position is at least -10; when the
integrated y is below -10, or the candidate collides and the resolved y is below -10, the
step ends with y = 20 and velocity `(0, 0, 0)`. -/
theorem physics_safety_net (m : Motion) (w : OptimizedWorld) (frameTime : ℚ)
    (hsize : m.size.y ≤ 10) :
    -10 ≤ (m.UpdatePhysics w frameTime).position.y ∧
    (((m.applyGravity frameTime).candidate frameTime).y < -10 →
      (m.UpdatePhysics w frameTime).position.y = 20 ∧
      (m.UpdatePhysics w frameTime).velocity = ⟨0, 0, 0⟩) ∧
    ((m.applyGravity frameTime).CheckCollision w
        ((m.applyGravity frameTime).candidate frameTime) = true →
      ((m.applyGravity frameTime).ResolveCollision w
        ((m.applyGravity frameTime).candidate frameTime)).y < -10 →
      (m.UpdatePhysics w frameTime).position.y = 20 ∧
      (m.UpdatePhysics w frameTime).velocity = ⟨0, 0, 0⟩) := by
  have hsize1 : (m.applyGravity frameTime).size.y ≤ 10 := by
    unfold Motion.applyGravity
    split_ifs <;> exact hsize
  unfold Motion.UpdatePhysics
  simp only []
  generalize m.applyGravity frameTime = m1 at hsize1 ⊢
  generalize m1.candidate frameTime = newPos
  obtain ⟨hfp, _⟩ := applyFriction_fields (m1.moveTo w newPos)
  obtain ⟨_, hr1, hr2⟩ := fallReset_fields (m1.moveTo w newPos).applyFriction
  refine ⟨?_, ?_, ?_⟩
  · by_cases hlow : (m1.moveTo w newPos).applyFriction.position.y < -10
    · rw [(hr1 hlow).1]
      norm_num
    · rw [hr2 hlow]
      exact not_lt.mp hlow
  · intro hy
    apply hr1
    rw [hfp, moveTo_free m1 w newPos (checkCollision_below_world m1 w newPos hsize1 hy)]
    exact hy
  · intro hcol hy
    apply hr1
    rw [hfp, (moveTo_collide m1 w newPos hcol).1]
    exact hy

/-- Witness for C20: a character at `(32.5, -9.95, 32.5)` falling at 20 units per second;
after a step of 0.1 the integrated y is -12.15, and the step ends at y = 20 with velocity
`(0, 0, 0)`. -/
theorem physics_safety_net_witness :
    (({ Motion.new ⟨32 + 1 / 2, -(9 + 19 / 20), 32 + 1 / 2⟩ with
        velocity := ⟨0, -20, 0⟩ } : Motion).size.y ≤ 10) ∧
    ((({ Motion.new ⟨32 + 1 / 2, -(9 + 19 / 20), 32 + 1 / 2⟩ with
        velocity := ⟨0, -20, 0⟩ } : Motion).applyGravity (1 / 10)).candidate (1 / 10)).y =
      -(12 + 3 / 20) ∧
    (({ Motion.new ⟨32 + 1 / 2, -(9 + 19 / 20), 32 + 1 / 2⟩ with
        velocity := ⟨0, -20, 0⟩ } : Motion).UpdatePhysics (OptimizedWorld.init 1337)
        (1 / 10)).position.y = 20 ∧
    (({ Motion.new ⟨32 + 1 / 2, -(9 + 19 / 20), 32 + 1 / 2⟩ with
        velocity := ⟨0, -20, 0⟩ } : Motion).UpdatePhysics (OptimizedWorld.init 1337)
        (1 / 10)).velocity = ⟨0, 0, 0⟩ := by
  have hs : (({ Motion.new ⟨32 + 1 / 2, -(9 + 19 / 20), 32 + 1 / 2⟩ with
        velocity := ⟨0, -20, 0⟩ } : Motion).size.y ≤ 10) := by
    norm_num [Motion.new]
  have hy : ((({ Motion.new ⟨32 + 1 / 2, -(9 + 19 / 20), 32 + 1 / 2⟩ with
        velocity := ⟨0, -20, 0⟩ } : Motion).applyGravity (1 / 10)).candidate (1 / 10)).y =
      -(12 + 3 / 20) := by
    norm_num [Motion.new, Motion.applyGravity, Motion.candidate]
  have h := (physics_safety_net _ (OptimizedWorld.init 1337) (1 / 10) hs).2.1
    (by rw [hy]; norm_num)
  exact ⟨hs, hy, h.1, h.2⟩

/-! ## Terrain columns -/

/-- Reading an integer cell after a write at an integer cell. -/
theorem getBlock_setBlock_ofInt (w : OptimizedWorld) (a b c x y z : Int) (blk : Block) :
    (w.SetBlock (Vector3.ofInt a b c) blk).GetBlock (Vector3.ofInt x y z) =
      if InWorld a b c ∧ x = a ∧ y = b ∧ z = c then blk
      else w.GetBlock (Vector3.ofInt x y z) := by
  by_cases h : InWorld a b c ∧ x = a ∧ y = b ∧ z = c
  · rw [if_pos h]
    apply world_getBlock_setBlock_same
    · simpa only [floor_ofInt] using h.1
    · simpa only [floor_ofInt] using h.2
  · rw [if_neg h]
    apply world_getBlock_setBlock_other
    simpa only [floor_ofInt] using h

/-- A fold of steps each of which either paints the cell read at `q` with `b` (when `C`
holds of the step) or leaves it alone: the cell reads `b` if some step painted it, and is
unchanged otherwise. -/
theorem foldl_getBlock_paint {α : Type} (F : OptimizedWorld → α → OptimizedWorld)
    (C : α → Prop) (b : Block) (q : Vector3)
    (hF : ∀ w a, (C a → (F w a).GetBlock q = b) ∧ (¬ C a → (F w a).GetBlock q = w.GetBlock q))
    (l : List α) (w : OptimizedWorld) :
    ((∃ a ∈ l, C a) → (l.foldl F w).GetBlock q = b) ∧
    ((¬ ∃ a ∈ l, C a) → (l.foldl F w).GetBlock q = w.GetBlock q) := by
  induction l generalizing w with
  | nil =>
    constructor
    · rintro ⟨a, ha, _⟩
      cases ha
    · intro _
      rfl
  | cons a rest ih =>
    simp only [List.foldl_cons]
    constructor
    · rintro ⟨a', ha', hC⟩
      by_cases hr : ∃ a ∈ rest, C a
      · exact (ih (F w a)).1 hr
      · rw [(ih (F w a)).2 hr]
        rcases List.mem_cons.mp ha' with rfl | hm
        · exact (hF w a').1 hC
        · exact absurd ⟨a', hm, hC⟩ hr
    · intro hn
      have hr : ¬ ∃ a ∈ rest, C a := fun ⟨a', hm, hC⟩ => hn ⟨a', List.mem_cons_of_mem _ hm, hC⟩
      have ha : ¬ C a := fun hC => hn ⟨a, List.mem_cons_self _ _, hC⟩
      rw [(ih (F w a)).2 hr, (hF w a).2 ha]

/-- The body of the fill loop is one write of the block `columnBlock` selects. -/
theorem fillCell_eq (w : OptimizedWorld) (x z height y : Int) :
    fillCell w x z height y = w.SetBlock (Vector3.ofInt x y z) (columnBlock height y) := by
  unfold fillCell columnBlock
  simp only []
  split_ifs <;> rfl

/-- After the fill loop, an in-bounds cell of the column holds the block chosen for its
height; the loop body run for another height does not touch it. -/
theorem fillColumn_getBlock (w : OptimizedWorld) (x z height y : Int) (hin : InWorld x y z) :
    (fillColumn w x z height).GetBlock (Vector3.ofInt x y z) = columnBlock height y := by
  unfold fillColumn
  have hmem : y ∈ intRange 0 (WORLD_HEIGHT - 1) := by
    unfold InWorld at hin
    rw [mem_intRange]
    simp only [WORLD_HEIGHT]
    omega
  obtain ⟨l1, l2, hl⟩ := List.append_of_mem hmem
  have hnd := nodup_intRange 0 (WORLD_HEIGHT - 1)
  rw [hl] at hnd ⊢
  have hnot : y ∉ l2 := by
    have := (List.nodup_append.mp hnd).2.1
    exact (List.nodup_cons.mp this).1
  rw [List.foldl_append, List.foldl_cons]
  have hrest := (foldl_getBlock_paint (fun acc y' => fillCell acc x z height y')
    (fun y' => y' = y) (columnBlock height y) (Vector3.ofInt x y z)
    (by
      intro w' y'
      show (y' = y → (fillCell w' x z height y').GetBlock (Vector3.ofInt x y z) = _) ∧
        (¬ y' = y → (fillCell w' x z height y').GetBlock (Vector3.ofInt x y z) = _)
      rw [fillCell_eq, getBlock_setBlock_ofInt]
      constructor
      · intro h
        subst h
        rw [if_pos ⟨hin, rfl, rfl, rfl⟩]
      · intro h
        rw [if_neg (fun hh => h hh.2.2.1.symm)])
    l2 (fillCell (List.foldl (fun acc y' => fillCell acc x z height y') w l1) x z height y)).2
    (by
      rintro ⟨a, ha, rfl⟩
      exact hnot ha)
  rw [hrest, fillCell_eq, getBlock_setBlock_ofInt, if_pos ⟨hin, rfl, rfl, rfl⟩]

/-- The fill loop inside `generateColumn` is `fillColumn`. -/
theorem generateColumn_fill (noise : ℚ → ℚ → ℚ) (rand : Nat → Nat) (st : OptimizedWorld × Nat)
    (x z : Int) :
    generateColumn noise rand st x z =
      (let height : Int :=
          20 + truncToInt (noise ((x : ℚ) * (5 / 100)) ((z : ℚ) * (5 / 100)) * 15)
       let w1 := fillColumn st.1 x z height
       let st2 : OptimizedWorld × Nat :=
         if height ≥ 22 ∧ height ≤ 30 then
           if rand st.2 % 100 < 8 then w1.AddTree rand (st.2 + 1) x (height + 1) z
           else (w1, st.2 + 1)
         else (w1, st.2)
       ((intRange 0 15).foldl (fun acc y => waterCell acc x z height y) st2.1, st2.2)) := rfl

/-- C18, as the code has it. For an in-bounds column `(x, z)` of height `h` and every `y`
in `0..63`, right after the column's fill loop: the block is AIR when `y > h`; at `y = h`
it is SAND if `h < 22`, STONE if `h > 30`, GRASS otherwise; it is DIRT when
`1 ≤ h - y ≤ 3`; it is STONE when `h - y ≥ 4`. -/
theorem fill_column_layers (w : OptimizedWorld) (x z h y : Int) (hin : InWorld x y z) :
    (y > h → (fillColumn w x z h).GetBlock (Vector3.ofInt x y z) = ⟨BLOCK_AIR⟩) ∧
    (y = h → (fillColumn w x z h).GetBlock (Vector3.ofInt x y z) =
      if h < 22 then ⟨BLOCK_SAND⟩ else if h > 30 then ⟨BLOCK_STONE⟩ else ⟨BLOCK_GRASS⟩) ∧
    (1 ≤ h - y ∧ h - y ≤ 3 → (fillColumn w x z h).GetBlock (Vector3.ofInt x y z) = ⟨BLOCK_DIRT⟩) ∧
    (h - y ≥ 4 → (fillColumn w x z h).GetBlock (Vector3.ofInt x y z) = ⟨BLOCK_STONE⟩) := by
  rw [fillColumn_getBlock w x z h y hin]
  unfold columnBlock
  refine ⟨?_, ?_, ?_, ?_⟩
  · intro hy
    rw [if_pos hy]
  · intro hy
    rw [if_neg (by omega), if_pos hy]
  · intro hy
    rw [if_neg (by omega), if_neg (by omega), if_pos (by omega)]
  · intro hy
    rw [if_neg (by omega), if_neg (by omega), if_neg (by omega)]

/-- In the column `(32, 32)` of height 25, filled on the empty grid: AIR at 26, GRASS at
25, DIRT at 24 and at 22, STONE at 21 and at 0. -/
theorem fill_column_layers_witness :
    InWorld 32 22 32 ∧
    (1 ≤ (25 : Int) - 22 ∧ (25 : Int) - 22 ≤ 3) ∧
    (fillColumn (OptimizedWorld.init 1337) 32 32 25).GetBlock (Vector3.ofInt 32 22 32) =
      ⟨BLOCK_DIRT⟩ :=
  ⟨by unfold InWorld; decide, by decide,
    (fill_column_layers (OptimizedWorld.init 1337) 32 32 25 22 (by unfold InWorld; decide)).2.2.1
      (by decide)⟩

/-- C18, the sentence as written fails four blocks below the surface. In the column
`(32, 32)` with height `h = 25` (so `4 ≤ h < 64`), the block at `y = 21` has
`h - y = 4`, within `1 ≤ h - y ≤ 4`, and is STONE, not DIRT. -/
theorem fill_column_fourth_below_stone :
    (4 : Int) ≤ 25 ∧ (25 : Int) < 64 ∧ (1 : Int) ≤ 25 - 21 ∧ (25 : Int) - 21 ≤ 4 ∧
    (fillColumn (OptimizedWorld.init 1337) 32 32 25).GetBlock (Vector3.ofInt 32 21 32) =
      ⟨BLOCK_STONE⟩ ∧
    (⟨BLOCK_STONE⟩ : Block) ≠ ⟨BLOCK_DIRT⟩ := by
  refine ⟨by decide, by decide, by decide, by decide, ?_, by decide⟩
  rw [fillColumn_getBlock _ _ _ _ _ (by unfold InWorld; decide)]
  decide

/-! ## Trees -/

/-- The trunk height drawn is 3, 4 or 5. -/
theorem trunkHeightDrawn_range (rand : Nat → Nat) (drawn : Nat) :
    3 ≤ trunkHeightDrawn rand drawn ∧ trunkHeightDrawn rand drawn ≤ 5 := by
  unfold trunkHeightDrawn
  have := Nat.mod_lt (rand drawn) (by decide : 0 < 3)
  omega

/-- What `AddTree` leaves at an integer cell `(qx, qy, qz)`: LEAVES if a leaf write reached
it; else WOOD if a trunk write reached it; else what was there. Leaf writes come after
trunk writes. -/
theorem addTree_getBlock (w : OptimizedWorld) (rand : Nat → Nat) (drawn : Nat)
    (x y z qx qy qz : Int) :
    let t := trunkHeightDrawn rand drawn
    let leaf : Prop := ∃ dy ∈ intRange 0 2,
      ∃ dx ∈ intRange (-(if dy = 0 then 2 else if dy = 1 then 3 else 2))
          (if dy = 0 then 2 else if dy = 1 then 3 else 2),
      ∃ dz ∈ intRange (-(if dy = 0 then 2 else if dy = 1 then 3 else 2))
          (if dy = 0 then 2 else if dy = 1 then 3 else 2),
        dx * dx + dz * dz + dy * dy ≤
            (if dy = 0 then 2 else if dy = 1 then 3 else 2) *
              (if dy = 0 then 2 else if dy = 1 then 3 else 2) ∧
          InWorld (x + dx) (y + t - 1 + dy) (z + dz) ∧
          qx = x + dx ∧ qy = y + t - 1 + dy ∧ qz = z + dz
    let trunk : Prop := ∃ i ∈ intRange 0 (t - 1),
      InWorld x (y + i) z ∧ qx = x ∧ qy = y + i ∧ qz = z
    (leaf → (w.AddTree rand drawn x y z).1.GetBlock (Vector3.ofInt qx qy qz) = ⟨BLOCK_LEAVES⟩) ∧
    (¬ leaf → trunk →
      (w.AddTree rand drawn x y z).1.GetBlock (Vector3.ofInt qx qy qz) = ⟨BLOCK_WOOD⟩) ∧
    (¬ leaf → ¬ trunk →
      (w.AddTree rand drawn x y z).1.GetBlock (Vector3.ofInt qx qy qz) =
        w.GetBlock (Vector3.ofInt qx qy qz)) := by
  intro t leaf trunk
  have htrunk := foldl_getBlock_paint
    (fun acc i => acc.SetBlock (Vector3.ofInt x (y + i) z) ⟨BLOCK_WOOD⟩)
    (fun i => InWorld x (y + i) z ∧ qx = x ∧ qy = y + i ∧ qz = z) ⟨BLOCK_WOOD⟩
    (Vector3.ofInt qx qy qz)
    (by
      intro w' i
      show (_ → (w'.SetBlock _ _).GetBlock _ = _) ∧ (_ → (w'.SetBlock _ _).GetBlock _ = _)
      rw [getBlock_setBlock_ofInt]
      exact ⟨fun h => if_pos h, fun h => if_neg h⟩)
    (intRange 0 (t - 1)) w
  have hleaf := fun w1 => foldl_getBlock_paint
    (fun acc dy =>
      (intRange (-(if dy = 0 then 2 else if dy = 1 then 3 else 2))
          (if dy = 0 then 2 else if dy = 1 then 3 else 2)).foldl
        (fun acc dx =>
          (intRange (-(if dy = 0 then 2 else if dy = 1 then 3 else 2))
              (if dy = 0 then 2 else if dy = 1 then 3 else 2)).foldl
            (fun acc dz =>
              if dx * dx + dz * dz + dy * dy ≤
                  (if dy = 0 then 2 else if dy = 1 then 3 else 2) *
                    (if dy = 0 then 2 else if dy = 1 then 3 else 2) then
                acc.SetBlock (Vector3.ofInt (x + dx) (y + t - 1 + dy) (z + dz)) ⟨BLOCK_LEAVES⟩
              else acc)
            acc)
        acc)
    (fun dy => ∃ dx ∈ intRange (-(if dy = 0 then 2 else if dy = 1 then 3 else 2))
          (if dy = 0 then 2 else if dy = 1 then 3 else 2),
      ∃ dz ∈ intRange (-(if dy = 0 then 2 else if dy = 1 then 3 else 2))
          (if dy = 0 then 2 else if dy = 1 then 3 else 2),
        dx * dx + dz * dz + dy * dy ≤
            (if dy = 0 then 2 else if dy = 1 then 3 else 2) *
              (if dy = 0 then 2 else if dy = 1 then 3 else 2) ∧
          InWorld (x + dx) (y + t - 1 + dy) (z + dz) ∧
          qx = x + dx ∧ qy = y + t - 1 + dy ∧ qz = z + dz)
    ⟨BLOCK_LEAVES⟩ (Vector3.ofInt qx qy qz)
    (by
      intro w' dy
      exact foldl_getBlock_paint _
        (fun dx => ∃ dz ∈ intRange (-(if dy = 0 then 2 else if dy = 1 then 3 else 2))
            (if dy = 0 then 2 else if dy = 1 then 3 else 2),
          dx * dx + dz * dz + dy * dy ≤
              (if dy = 0 then 2 else if dy = 1 then 3 else 2) *
                (if dy = 0 then 2 else if dy = 1 then 3 else 2) ∧
            InWorld (x + dx) (y + t - 1 + dy) (z + dz) ∧
            qx = x + dx ∧ qy = y + t - 1 + dy ∧ qz = z + dz)
        ⟨BLOCK_LEAVES⟩ (Vector3.ofInt qx qy qz)
        (by
          intro w2 dx
          exact foldl_getBlock_paint _
            (fun dz => dx * dx + dz * dz + dy * dy ≤
                (if dy = 0 then 2 else if dy = 1 then 3 else 2) *
                  (if dy = 0 then 2 else if dy = 1 then 3 else 2) ∧
              InWorld (x + dx) (y + t - 1 + dy) (z + dz) ∧
              qx = x + dx ∧ qy = y + t - 1 + dy ∧ qz = z + dz)
            ⟨BLOCK_LEAVES⟩ (Vector3.ofInt qx qy qz)
            (by
              intro w3 dz
              show (_ → (if _ then w3.SetBlock _ _ else w3).GetBlock _ = _) ∧
                (_ → (if _ then w3.SetBlock _ _ else w3).GetBlock _ = _)
              by_cases hc : dx * dx + dz * dz + dy * dy ≤
                  (if dy = 0 then 2 else if dy = 1 then 3 else 2) *
                    (if dy = 0 then 2 else if dy = 1 then 3 else 2)
              · rw [if_pos hc, getBlock_setBlock_ofInt]
                exact ⟨fun h => if_pos h.2, fun h => if_neg (fun hh => h ⟨hc, hh⟩)⟩
              · rw [if_neg hc]
                exact ⟨fun h => absurd h.1 hc, fun _ => rfl⟩)
            _ w2)
        _ w')
    (intRange 0 2) w1
  refine ⟨?_, ?_, ?_⟩
  · intro hl
    exact (hleaf _).1 hl
  · intro hl ht
    exact ((hleaf _).2 hl).trans (htrunk.1 ht)
  · intro hl ht
    exact ((hleaf _).2 hl).trans (htrunk.2 ht)

/-- C19, what the code does. For every tree base `(x, y, z)` and drawn trunk height `t`
(3, 4 or 5) with the column cells `y .. y + t + 1` inside the world, right after `AddTree`:
the cells at heights `y .. y + t - 2` are WOOD, and the cells at heights `y + t - 1`,
`y + t` and `y + t + 1` are LEAVES. The trunk loop writes WOOD at `y + t - 1`; the first
leaf layer, which starts at `leavesStart = y + t - 1`, overwrites it. The column holds
`t - 1` WOOD blocks, between 2 and 4, not `t`. -/
theorem addTree_trunk_one_short (w : OptimizedWorld) (rand : Nat → Nat) (drawn : Nat)
    (x y z : Int) (hbase : InWorld x y z)
    (htop : InWorld x (y + trunkHeightDrawn rand drawn + 1) z) :
    (3 ≤ trunkHeightDrawn rand drawn ∧ trunkHeightDrawn rand drawn ≤ 5) ∧
    (∀ i : Int, 0 ≤ i → i < trunkHeightDrawn rand drawn - 1 →
      (w.AddTree rand drawn x y z).1.GetBlock (Vector3.ofInt x (y + i) z) = ⟨BLOCK_WOOD⟩) ∧
    (∀ k : Int, 0 ≤ k → k ≤ 2 →
      (w.AddTree rand drawn x y z).1.GetBlock
        (Vector3.ofInt x (y + trunkHeightDrawn rand drawn - 1 + k) z) = ⟨BLOCK_LEAVES⟩) := by
  have ht := trunkHeightDrawn_range rand drawn
  unfold InWorld at hbase htop
  refine ⟨ht, ?_, ?_⟩
  · intro i hi0 hi1
    apply (addTree_getBlock w rand drawn x y z x (y + i) z).2.1
    · rintro ⟨dy, hdy, dx, _, dz, _, _, _, _, hq, _⟩
      rw [mem_intRange] at hdy
      omega
    · refine ⟨i, ?_, ?_, rfl, rfl, rfl⟩
      · rw [mem_intRange]
        omega
      · unfold InWorld
        omega
  · intro k hk0 hk1
    apply (addTree_getBlock w rand drawn x y z x (y + trunkHeightDrawn rand drawn - 1 + k) z).1
    refine ⟨k, ?_, 0, ?_, 0, ?_, ?_, ?_, ?_, rfl, ?_⟩
    · rw [mem_intRange]
      omega
    · rw [mem_intRange]
      split_ifs <;> omega
    · rw [mem_intRange]
      split_ifs <;> omega
    · have hk : k = 0 ∨ k = 1 ∨ k = 2 := by omega
      rcases hk with rfl | rfl | rfl <;> decide
    · unfold InWorld
      omega
    · omega
    · omega

/-- Witness for C19 at the failing input: `AddTree(32, 26, 32)` with `rand() % 3 = 0`, so
`trunkHeight = 3`. Heights 26 and 27 are WOOD; heights 28, 29 and 30 are LEAVES. -/
theorem addTree_trunk_one_short_witness :
    InWorld 32 26 32 ∧ InWorld 32 (26 + trunkHeightDrawn (fun _ => 0) 0 + 1) 32 ∧
    trunkHeightDrawn (fun _ => 0) 0 = 3 ∧
    ((OptimizedWorld.init 1337).AddTree (fun _ => 0) 0 32 26 32).1.GetBlock
        (Vector3.ofInt 32 (26 + 1) 32) = ⟨BLOCK_WOOD⟩ ∧
    ((OptimizedWorld.init 1337).AddTree (fun _ => 0) 0 32 26 32).1.GetBlock
        (Vector3.ofInt 32 (26 + trunkHeightDrawn (fun _ => 0) 0 - 1 + 0) 32) = ⟨BLOCK_LEAVES⟩ :=
  ⟨by unfold InWorld; decide, by unfold InWorld; decide, by decide,
    (addTree_trunk_one_short (OptimizedWorld.init 1337) (fun _ => 0) 0 32 26 32
      (by unfold InWorld; decide) (by unfold InWorld; decide)).2.1 1 (by decide) (by decide),
    (addTree_trunk_one_short (OptimizedWorld.init 1337) (fun _ => 0) 0 32 26 32
      (by unfold InWorld; decide) (by unfold InWorld; decide)).2.2 0 (by decide) (by decide)⟩

/-! ## Cell addresses -/

/-- The chunk `GetChunk` returns for in-range coordinates. -/
theorem getChunk_of_inRange (x z : Int) (hx0 : 0 ≤ x) (hx1 : x < 64) (hz0 : 0 ≤ z)
    (hz1 : z < 64) :
    ∃ c : Fin 4 × Fin 4, GetChunk x z = some c ∧ (c.1.val : Int) = x / 16 ∧
      (c.2.val : Int) = z / 16 := by
  cases hc : GetChunk x z with
  | none =>
    have := getChunk_eq_none.mp hc
    omega
  | some c =>
    obtain ⟨cx, cz⟩ := c
    have := getChunk_eq_some hc
    rw [tdiv_chunk, tdiv_chunk, if_pos hx0, if_pos hz0] at this
    exact ⟨(cx, cz), rfl, this.1, this.2.1⟩

/-- The address of an in-bounds cell: a chunk of the grid and an index below the number of
cells of a chunk. -/
theorem cellAddress_inWorld (x y z : Int) (h : InWorld x y z) :
    ∃ c : Fin 4 × Fin 4, GetChunk x z = some c ∧ (c.1.val : Int) = x / 16 ∧
      (c.2.val : Int) = z / 16 ∧
      cellAddress x y z = some (c, (y * 16 + z % 16) * 16 + x % 16) ∧
      0 ≤ (y * 16 + z % 16) * 16 + x % 16 ∧
      (y * 16 + z % 16) * 16 + x % 16 < (CHUNK_CELLS : Int) := by
  unfold InWorld at h
  obtain ⟨c, hc, h1, h2⟩ := getChunk_of_inRange x z h.1 h.2.1 h.2.2.2.2.1 h.2.2.2.2.2
  refine ⟨c, hc, h1, h2, ?_, ?_, ?_⟩
  · unfold cellAddress
    have hy : ¬ (y < 0 ∨ y ≥ WORLD_HEIGHT) := by simp only [WORLD_HEIGHT]; omega
    rw [if_neg hy, hc]
    simp only [WorldToLocalPos, CHUNK_SIZE, tmod_chunk, WORLD_HEIGHT]
    rw [if_pos h.1, if_pos h.2.2.2.2.1, if_neg (by omega)]
  · omega
  · simp only [CHUNK_CELLS]
    omega

/-- C23. An in-bounds world write changes exactly one cell: for every world state,
in-bounds integer cells `p` and `q` with `q ≠ p` and every block `b`, the read at `q` is
the same before and after `SetBlock(p, b)`, and the read at `p` returns `b`. The chunk and
array index `(y * 16 + z mod 16) * 16 + x mod 16` reached for `q` differ from those
reached for `p`, and every such index is at least 0 and below the chunk's `16 * 64 * 16`
cells. -/
theorem setBlock_changes_one_cell (w : OptimizedWorld) (px py pz qx qy qz : Int) (b : Block)
    (hp : InWorld px py pz) (hq : InWorld qx qy qz)
    (hne : ¬ (qx = px ∧ qy = py ∧ qz = pz)) :
    (w.SetBlock (Vector3.ofInt px py pz) b).GetBlock (Vector3.ofInt qx qy qz) =
      w.GetBlock (Vector3.ofInt qx qy qz) ∧
    (w.SetBlock (Vector3.ofInt px py pz) b).GetBlock (Vector3.ofInt px py pz) = b ∧
    cellAddress qx qy qz ≠ cellAddress px py pz ∧
    (∃ (c : Fin 4 × Fin 4) (i : Int),
      cellAddress px py pz = some (c, i) ∧ 0 ≤ i ∧ i < (CHUNK_CELLS : Int)) := by
  obtain ⟨cp, _, hp1, hp2, hpa, hp0, hplt⟩ := cellAddress_inWorld px py pz hp
  obtain ⟨cq, _, hq1, hq2, hqa, _, _⟩ := cellAddress_inWorld qx qy qz hq
  refine ⟨?_, ?_, ?_, ⟨cp, _, hpa, hp0, hplt⟩⟩
  · rw [getBlock_setBlock_ofInt, if_neg (fun h => hne h.2)]
  · rw [getBlock_setBlock_ofInt, if_pos ⟨hp, rfl, rfl, rfl⟩]
  · rw [hpa, hqa]
    intro heq
    simp only [Option.some.injEq, Prod.mk.injEq] at heq
    obtain ⟨hc, hi⟩ := heq
    rw [hc] at hq1 hq2
    unfold InWorld at hp hq
    apply hne
    omega

/-- Witness for C23: a write at `(17, 5, 40)` leaves `(1, 5, 40)`, whose local coordinates
in its chunk are the same, as it was. -/
theorem setBlock_changes_one_cell_witness :
    (sampleBlockWorld 1 5 40).GetBlock (Vector3.ofInt 1 5 40) = ⟨BLOCK_STONE⟩ ∧
    ((sampleBlockWorld 1 5 40).SetBlock (Vector3.ofInt 17 5 40) ⟨BLOCK_DIRT⟩).GetBlock
      (Vector3.ofInt 1 5 40) = ⟨BLOCK_STONE⟩ ∧
    cellAddress 1 5 40 ≠ cellAddress 17 5 40 := by
  have h := setBlock_changes_one_cell (sampleBlockWorld 1 5 40) 17 5 40 1 5 40 ⟨BLOCK_DIRT⟩
    (by unfold InWorld; decide) (by unfold InWorld; decide) (by decide)
  have h0 : (sampleBlockWorld 1 5 40).GetBlock (Vector3.ofInt 1 5 40) = ⟨BLOCK_STONE⟩ := by
    unfold sampleBlockWorld
    rw [getBlock_setBlock_ofInt, if_pos ⟨by unfold InWorld; decide, rfl, rfl, rfl⟩]
  exact ⟨h0, h.1.trans h0, h.2.2.1⟩

/-! ## Where blocks are broken -/

/-- From a state whose break progress is below 1, the left-button code makes no world
call. -/
theorem handleBreakInput_no_call (g : Game) (inp : FrameInput)
    (hp : g.character.breakProgress < 1) :
    (g.handleBreakInput inp).world = g.world ∧ (g.handleBreakInput inp).calls = g.calls := by
  unfold Game.handleBreakInput
  simp only []
  by_cases hl : inp.leftDown = true
  · rw [if_pos hl]
    cases inp.raycast g.world g.character.reachDistance with
    | none => exact ⟨rfl, rfl⟩
    | some hit =>
      simp only []
      split_ifs <;> exact ⟨rfl, rfl⟩
  · rw [if_neg hl]
    by_cases hrel : inp.leftReleased = true
    · rw [if_pos hrel, if_neg]
      · exact ⟨rfl, rfl⟩
      · simp only [Bool.and_eq_true, decide_eq_true_eq, not_and, not_le]
        exact fun _ => hp
    · rw [if_neg hrel]
      exact ⟨rfl, rfl⟩

/-- The `BreakBlock` calls of a frame after `HandleInput`: none, or the one the timer check
makes on the block being broken once the timer has reached 1. -/
theorem update_breakCalls (g : Game) (inp : FrameInput) :
    breakCalls (g.Update inp).calls = breakCalls (g.HandleInput inp).calls ∨
    ((g.HandleInput inp).character.isBreaking = true ∧
      1 ≤ fadd32 (g.HandleInput inp).character.breakTimer inp.frameTime ∧
      breakCalls (g.Update inp).calls =
        breakCalls (g.HandleInput inp).calls ++ [(g.HandleInput inp).character.breakingBlock]) := by
  unfold Game.Update
  simp only []
  by_cases hb : (g.HandleInput inp).character.isBreaking = true
  · rw [if_pos hb]
    by_cases ht : fadd32 (g.HandleInput inp).character.breakTimer inp.frameTime ≥ 1
    · rw [if_pos ht]
      right
      refine ⟨hb, ht, ?_⟩
      simp [Game.BreakBlock, breakCalls, List.filterMap_append]
    · rw [if_neg ht]
      left
      rfl
  · rw [if_neg hb]
    left
    rfl

/-- C25. In every state the program can reach at the end of a frame, through any inputs
and frame times, `breakProgress < 1`; hence in the next frame `HandleInput`, and with it
its release branch, calls no `BreakBlock`, and a `BreakBlock` call of the frame is the one
the timer check of `Update` makes, on the block being broken, when the timer, advanced by
the frame time with a `float` addition, has reached 1. -/
theorem breaks_only_by_timer (g : Game) (inp : FrameInput) (hr : Game.Reachable g) :
    g.character.breakProgress < 1 ∧
    breakCalls (g.HandleInput inp).calls = breakCalls g.calls ∧
    (breakCalls (g.Update inp).calls = breakCalls g.calls ∨
      ((g.HandleInput inp).character.isBreaking = true ∧
        1 ≤ fadd32 (g.HandleInput inp).character.breakTimer inp.frameTime ∧
        breakCalls (g.Update inp).calls =
          breakCalls g.calls ++ [(g.HandleInput inp).character.breakingBlock])) := by
  have hp := reachable_breakProgress_lt_one g hr
  have hsel := selectBlock_fields g.character inp
  have hin : breakCalls (g.HandleInput inp).calls = breakCalls g.calls := by
    rw [(handleInput_eq g inp).2.1,
      (handleBreakInput_no_call ({ g with character := g.character.selectBlock inp }) inp
        (by simpa only [hsel.2.2.1] using hp)).2]
  refine ⟨hp, hin, ?_⟩
  rw [← hin]
  exact update_breakCalls g inp

/-- Witness for C25: after one held frame of 3/8 second the progress is below 1, and the
release in the next frame calls no `BreakBlock`. -/
theorem breaks_only_by_timer_witness :
    (sampleGame.Update sampleHeldFrame).character.breakProgress < 1 ∧
    breakCalls ((sampleGame.Update sampleHeldFrame).HandleInput sampleReleaseFrame).calls =
      breakCalls (sampleGame.Update sampleHeldFrame).calls :=
  ⟨(breaks_only_by_timer (sampleGame.Update sampleHeldFrame) sampleReleaseFrame
      (Game.Reachable.update _ _ (Game.Reachable.construct _ _ _))).1,
    (breaks_only_by_timer (sampleGame.Update sampleHeldFrame) sampleReleaseFrame
      (Game.Reachable.update _ _ (Game.Reachable.construct _ _ _))).2.1⟩

/-! ## The noise function and the surface height -/

/-- With sine and cosine values in `[-1, 1]`, the noise lies in `[1/16, 15/16]`. -/
theorem getNoise_bounds {R : Type} [LinearOrderedField R] (sinf cosf : R → R)
    (hs : ∀ t, -1 ≤ sinf t ∧ sinf t ≤ 1) (hc : ∀ t, -1 ≤ cosf t ∧ cosf t ≤ 1) (x z : R) :
    1 / 16 ≤ GetNoise sinf cosf x z ∧ GetNoise sinf cosf x z ≤ 15 / 16 := by
  have hprod : ∀ a b : R, -1 ≤ sinf a * cosf b ∧ sinf a * cosf b ≤ 1 := by
    intro a b
    have h := abs_mul (sinf a) (cosf b)
    have h1 : |sinf a| ≤ 1 := abs_le.mpr (hs a)
    have h2 : |cosf b| ≤ 1 := abs_le.mpr (hc b)
    have h3 : |sinf a * cosf b| ≤ 1 := by
      rw [h]
      calc |sinf a| * |cosf b| ≤ 1 * 1 :=
            mul_le_mul h1 h2 (abs_nonneg _) zero_le_one
        _ = 1 := one_mul 1
    exact abs_le.mp h3
  unfold GetNoise
  simp only []
  have h1 := hprod (x * (1 / 10)) (z * (1 / 10))
  have h2 := hprod (x * (3 / 10) + 1) (z * (3 / 10) + 1)
  have h3 := hprod (x * (9 / 10) + 2) (z * (9 / 10) + 2)
  constructor <;> linarith [h1.1, h1.2, h2.1, h2.2, h3.1, h3.2]

/-- On the rationals `truncTo` is `truncToInt`. -/
theorem truncTo_rat (f : ℚ) : truncTo f = truncToInt f := rfl

/-- The height computed from a noise value in `[0, 1]` lies in `20..35`. -/
theorem height_of_unit_noise {R : Type} [LinearOrderedField R] [FloorRing R] (n : R)
    (h0 : 0 ≤ n) (h1 : n ≤ 1) : 20 ≤ 20 + truncTo (n * 15) ∧ 20 + truncTo (n * 15) ≤ 35 := by
  unfold truncTo
  have hn : (0 : R) ≤ n * 15 := by positivity
  rw [if_pos hn]
  have hf0 : 0 ≤ ⌊n * 15⌋ := Int.floor_nonneg.mpr hn
  have hf1 : ⌊n * 15⌋ ≤ 15 := by
    have hle : n * 15 ≤ ((15 : Int) : R) := by
      push_cast
      linarith
    have h15 : ⌊n * 15⌋ ≤ ⌊((15 : Int) : R)⌋ := Int.floor_mono hle
    rw [Int.floor_intCast] at h15
    exact h15
  omega

/-- C22. With sine and cosine taken as the real functions, for all real `x` and `z` the
value of `GetNoise(x, z)` lies in `[0, 1]`, and for every column the surface height
`20 + trunc(15 * noise)` lies in `20..35`, a valid y coordinate below `WORLD_HEIGHT`. -/
theorem noise_and_height_range :
    (∀ x z : ℝ, 0 ≤ GetNoise Real.sin Real.cos x z ∧ GetNoise Real.sin Real.cos x z ≤ 1) ∧
    (∀ x z : Int, 20 ≤ surfaceHeight Real.sin Real.cos x z ∧
      surfaceHeight Real.sin Real.cos x z ≤ 35 ∧
      0 ≤ surfaceHeight Real.sin Real.cos x z ∧
      surfaceHeight Real.sin Real.cos x z < WORLD_HEIGHT) := by
  have hb : ∀ x z : ℝ,
      1 / 16 ≤ GetNoise Real.sin Real.cos x z ∧ GetNoise Real.sin Real.cos x z ≤ 15 / 16 :=
    getNoise_bounds Real.sin Real.cos
      (fun t => ⟨Real.neg_one_le_sin t, Real.sin_le_one t⟩)
      (fun t => ⟨Real.neg_one_le_cos t, Real.cos_le_one t⟩)
  constructor
  · intro x z
    have := hb x z
    constructor <;> linarith [this.1, this.2]
  · intro x z
    have := hb ((x : ℝ) * (5 / 100)) ((z : ℝ) * (5 / 100))
    have h := height_of_unit_noise (GetNoise Real.sin Real.cos ((x : ℝ) * (5 / 100))
      ((z : ℝ) * (5 / 100))) (by linarith [this.1]) (by linarith [this.2])
    unfold surfaceHeight
    simp only [WORLD_HEIGHT]
    omega

/-- The height `generateColumn` computes, for a noise function with values in `[0, 1]`,
lies in `20..35`. -/
theorem generateColumn_height_range (noise : ℚ → ℚ → ℚ)
    (hn : ∀ a b, 0 ≤ noise a b ∧ noise a b ≤ 1) (x z : Int) :
    20 ≤ 20 + truncToInt (noise ((x : ℚ) * (5 / 100)) ((z : ℚ) * (5 / 100)) * 15) ∧
    20 + truncToInt (noise ((x : ℚ) * (5 / 100)) ((z : ℚ) * (5 / 100)) * 15) ≤ 35 := by
  rw [← truncTo_rat]
  exact height_of_unit_noise _ (hn _ _).1 (hn _ _).2

/-! ## Terrain generation, column by column -/

/-- A fold keeps whatever each step on a member of the list keeps. -/
theorem foldl_preserves_mem {α σ : Type} (P : σ → Prop) (f : σ → α → σ) (l : List α)
    (h : ∀ s a, a ∈ l → P s → P (f s a)) (s : σ) (hs : P s) : P (l.foldl f s) := by
  induction l generalizing s with
  | nil => exact hs
  | cons a rest ih =>
    exact ih (fun s b hb => h s b (List.mem_cons_of_mem _ hb)) (f s a)
      (h s a (List.mem_cons_self _ _) hs)

/-- A fold over a list of lists laid end to end is the fold of the folds. -/
theorem foldl_flatMap_eq {α β σ : Type} (f : σ → β → σ) (g : α → List β) (l : List α)
    (s : σ) : (l.flatMap g).foldl f s = l.foldl (fun acc a => (g a).foldl f acc) s := by
  induction l generalizing s with
  | nil => rfl
  | cons a rest ih =>
    rw [List.flatMap_cons, List.foldl_append, ih]
    rfl

/-- `generateColumn` is `fillAndTree` followed by the water loop. -/
theorem generateColumn_eq_water (noise : ℚ → ℚ → ℚ) (rand : Nat → Nat)
    (st : OptimizedWorld × Nat) (x z : Int) :
    generateColumn noise rand st x z =
      ((intRange 0 15).foldl
          (fun acc y => waterCell acc x z (columnHeight noise x z) y)
          (fillAndTree noise rand st x z).1,
        (fillAndTree noise rand st x z).2) := rfl

/-- `GenerateTerrain` processes the columns of `columnOrder` in order, then sets
`cacheDirty`. -/
theorem generateTerrain_eq_columns (noise : ℚ → ℚ → ℚ) (rand : Nat → Nat)
    (w : OptimizedWorld) :
    OptimizedWorld.GenerateTerrain noise rand w =
      { (generateColumns noise rand (w, 0) columnOrder).1 with cacheDirty := true } := by
  unfold OptimizedWorld.GenerateTerrain generateColumns columnOrder
  simp only []
  rw [foldl_flatMap_eq]
  simp only [List.foldl_map]

/-- The columns visited are the in-range ones. -/
theorem mem_columnOrder {c : Int × Int} :
    c ∈ columnOrder ↔ 0 ≤ c.1 ∧ c.1 < 64 ∧ 0 ≤ c.2 ∧ c.2 < 64 := by
  unfold columnOrder GetWorldSize
  simp only [List.mem_flatMap, List.mem_map, mem_intRange, CHUNK_COUNT_X, CHUNK_SIZE]
  constructor
  · rintro ⟨x, hx, z, hz, rfl⟩
    simp only []
    omega
  · intro h
    exact ⟨c.1, by omega, c.2, by omega, rfl⟩

/-- What `AddTree` leaves at an integer cell, in terms of the cells its loops store in. -/
theorem addTree_getBlock_cells (w : OptimizedWorld) (rand : Nat → Nat) (drawn : Nat)
    (x y z qx qy qz : Int) :
    (leafCell (trunkHeightDrawn rand drawn) x y z qx qy qz →
      (w.AddTree rand drawn x y z).1.GetBlock (Vector3.ofInt qx qy qz) = ⟨BLOCK_LEAVES⟩) ∧
    (¬ leafCell (trunkHeightDrawn rand drawn) x y z qx qy qz →
      trunkCell (trunkHeightDrawn rand drawn) x y z qx qy qz →
      (w.AddTree rand drawn x y z).1.GetBlock (Vector3.ofInt qx qy qz) = ⟨BLOCK_WOOD⟩) ∧
    (¬ leafCell (trunkHeightDrawn rand drawn) x y z qx qy qz →
      ¬ trunkCell (trunkHeightDrawn rand drawn) x y z qx qy qz →
      (w.AddTree rand drawn x y z).1.GetBlock (Vector3.ofInt qx qy qz) =
        w.GetBlock (Vector3.ofInt qx qy qz)) :=
  addTree_getBlock w rand drawn x y z qx qy qz

/-- The cells `AddTree(x, y, z)` stores in lie at height `y` or above. -/
theorem tree_cells_above (t x y z qx qy qz : Int) (ht : 1 ≤ t)
    (h : leafCell t x y z qx qy qz ∨ trunkCell t x y z qx qy qz) : y ≤ qy := by
  rcases h with h | h
  · obtain ⟨dy, hdy, dx, _, dz, _, _, _, _, hq, _⟩ := h
    rw [mem_intRange] at hdy
    omega
  · obtain ⟨i, hi, _, _, hq, _⟩ := h
    rw [mem_intRange] at hi
    omega

/-- The block the fill loop writes is AIR, SAND, STONE, GRASS or DIRT; below the surface it
is DIRT or STONE. -/
theorem columnBlock_type (height y : Int) :
    (columnBlock height y).type ≠ BLOCK_WOOD ∧ (columnBlock height y).type ≠ BLOCK_LEAVES ∧
    (columnBlock height y).type ≠ BLOCK_WATER ∧
    (y < height → (columnBlock height y).type ≠ BLOCK_AIR) := by
  unfold columnBlock
  split_ifs <;> refine ⟨by decide, by decide, by decide, ?_⟩ <;> intro h <;>
    first | omega | decide

/-- After the fill loop and the tree of an in-range column, a cell of the column reads as
the fill loop wrote it unless the tree stored in it. -/
theorem fillAndTree_getBlock_column (noise : ℚ → ℚ → ℚ) (rand : Nat → Nat)
    (st : OptimizedWorld × Nat) (x z y : Int) (hin : InWorld x y z)
    (hy : y ≤ columnHeight noise x z) :
    (fillAndTree noise rand st x z).1.GetBlock (Vector3.ofInt x y z) =
      columnBlock (columnHeight noise x z) y := by
  unfold fillAndTree
  simp only []
  have hfill := fillColumn_getBlock st.1 x z (columnHeight noise x z) y hin
  split_ifs
  · have ht := trunkHeightDrawn_range rand (st.2 + 1)
    rw [(addTree_getBlock_cells _ rand (st.2 + 1) x (columnHeight noise x z + 1) z x y z).2.2
      (fun h => by
        have := tree_cells_above _ _ _ _ _ _ _ (by omega) (Or.inl h)
        omega)
      (fun h => by
        have := tree_cells_above _ _ _ _ _ _ _ (by omega) (Or.inr h)
        omega)]
    exact hfill
  · exact hfill
  · exact hfill

/-- The water loop changes nothing when no cell it inspects below the surface is AIR. -/
theorem water_loop_noop (w : OptimizedWorld) (x z height : Int) (l : List Int)
    (h : ∀ y ∈ l, y < height → (w.GetBlock (Vector3.ofInt x y z)).type ≠ BLOCK_AIR) :
    l.foldl (fun acc y => waterCell acc x z height y) w = w := by
  induction l with
  | nil => rfl
  | cons y rest ih =>
    rw [List.foldl_cons]
    have hy : waterCell w x z height y = w := by
      unfold waterCell
      simp only []
      rw [if_neg]
      rintro ⟨h1, h2⟩
      exact h y (List.mem_cons_self _ _) h1 h2
    rw [hy]
    exact ih (fun y' hy' => h y' (List.mem_cons_of_mem _ hy'))

/-- For an in-range column the water loop stores nothing: every cell it inspects below the
surface holds the DIRT or STONE of the fill loop. -/
theorem generateColumn_eq_fillAndTree (noise : ℚ → ℚ → ℚ) (rand : Nat → Nat)
    (st : OptimizedWorld × Nat) (x z : Int) (hx0 : 0 ≤ x) (hx1 : x < 64) (hz0 : 0 ≤ z)
    (hz1 : z < 64) :
    generateColumn noise rand st x z = fillAndTree noise rand st x z := by
  rw [generateColumn_eq_water, water_loop_noop]
  intro y hy hlt
  rw [mem_intRange] at hy
  rw [fillAndTree_getBlock_column noise rand st x z y (by unfold InWorld; omega) (by omega)]
  exact (columnBlock_type _ _).2.2.2 hlt

/-- Writing a block that is not WATER stores no WATER. -/
theorem noWater_setBlock (w : OptimizedWorld) (p : Vector3) (b : Block)
    (hv : NoWater w) (hb : b.type ≠ BLOCK_WATER) : NoWater (w.SetBlock p b) := by
  unfold OptimizedWorld.SetBlock
  simp only []
  split_ifs
  · exact hv
  · cases GetChunk ⌊p.x⌋ ⌊p.z⌋ with
    | none => exact hv
    | some cc =>
      obtain ⟨cx, cz⟩ := cc
      intro i j k
      simp only [Function.update_apply]
      by_cases ei : i = cx
      · by_cases ej : j = cz
        · subst ei ej
          simp only [if_true, Function.update_same, Chunk.SetBlock]
          split_ifs
          · exact hv _ _ _
          · simp only [Function.update_apply]
            split_ifs
            · exact hb
            · exact hv _ _ _
        · subst ei
          simp only [if_true, Function.update_noteq ej]
          exact hv _ _ _
      · simp only [ei, if_false]
        exact hv _ _ _

/-- A world that stores no WATER reads no WATER. -/
theorem noWater_getBlock (w : OptimizedWorld) (hv : NoWater w) (p : Vector3) :
    (w.GetBlock p).type ≠ BLOCK_WATER := by
  unfold OptimizedWorld.GetBlock
  simp only []
  split_ifs
  · exact (by decide : (0 : Nat) ≠ 6)
  · cases GetChunk ⌊p.x⌋ ⌊p.z⌋ with
    | none => exact (by decide : (0 : Nat) ≠ 6)
    | some cc =>
      simp only [Chunk.GetBlock]
      split_ifs
      · exact (by decide : (0 : Nat) ≠ 6)
      · exact hv _ _ _

/-- The fill loop and the tree store no WATER. -/
theorem noWater_fillAndTree (noise : ℚ → ℚ → ℚ) (rand : Nat → Nat)
    (st : OptimizedWorld × Nat) (x z : Int) (hv : NoWater st.1) :
    NoWater (fillAndTree noise rand st x z).1 := by
  have h1 : NoWater (fillColumn st.1 x z (columnHeight noise x z)) := by
    unfold fillColumn
    apply foldl_preserves NoWater _ _ _ _ hv
    intro s y hs
    rw [fillCell_eq]
    exact noWater_setBlock _ _ _ hs (columnBlock_type _ _).2.2.1
  unfold fillAndTree
  simp only []
  split_ifs
  · unfold OptimizedWorld.AddTree
    simp only []
    apply foldl_preserves NoWater
    · intro s dy hs
      apply foldl_preserves NoWater _ _ _ _ hs
      intro s dx hs
      apply foldl_preserves NoWater _ _ _ _ hs
      intro s dz hs
      split_ifs <;> first | exact hs | exact noWater_setBlock _ _ _ hs (by decide)
    · apply foldl_preserves NoWater _ _ _ _ h1
      intro s i hs
      exact noWater_setBlock _ _ _ hs (by decide)
  · exact h1
  · exact h1

/-- Processing in-range columns is processing them without their water loops. -/
theorem generateColumns_eq_fillAndTree (noise : ℚ → ℚ → ℚ) (rand : Nat → Nat)
    (cols : List (Int × Int)) (hcols : ∀ c ∈ cols, c ∈ columnOrder)
    (st : OptimizedWorld × Nat) :
    generateColumns noise rand st cols =
      cols.foldl (fun acc c => fillAndTree noise rand acc c.1 c.2) st := by
  unfold generateColumns
  induction cols generalizing st with
  | nil => rfl
  | cons c rest ih =>
    rw [List.foldl_cons, List.foldl_cons]
    have hc := mem_columnOrder.mp (hcols c (List.mem_cons_self _ _))
    rw [generateColumn_eq_fillAndTree noise rand st c.1 c.2 hc.1 hc.2.1 hc.2.2.1 hc.2.2.2]
    exact ih (fun c' hc' => hcols c' (List.mem_cons_of_mem _ hc')) _

/-- A freshly generated world stores no WATER. -/
theorem noWater_new (noise : ℚ → ℚ → ℚ) (rand : Nat → Nat) (worldSeed : Int) :
    NoWater (OptimizedWorld.new noise rand worldSeed) := by
  unfold OptimizedWorld.new
  rw [generateTerrain_eq_columns, generateColumns_eq_fillAndTree noise rand columnOrder
    (fun c hc => hc)]
  have h : NoWater (columnOrder.foldl (fun acc c => fillAndTree noise rand acc c.1 c.2)
      (OptimizedWorld.init worldSeed, 0)).1 := by
    apply foldl_preserves (fun (s : OptimizedWorld × Nat) => NoWater s.1)
    · intro s c hs
      exact noWater_fillAndTree noise rand s c.1 c.2 hs
    · show NoWater (OptimizedWorld.init worldSeed)
      intro i j k
      exact (by decide : (0 : Nat) ≠ 6)
  generalize columnOrder.foldl (fun acc c => fillAndTree noise rand acc c.1 c.2)
    (OptimizedWorld.init worldSeed, 0) = st at h ⊢
  exact h

/-- C24. `GenerateTerrain` never writes a WATER block. For every in-range column, every
noise function (so every height value) and every sequence of `rand()` values, each cell of
the column below the surface that the water loop inspects (`0 ≤ y < 16`, `y < height`)
holds the DIRT or STONE of the fill loop, not AIR, when the water loop runs, so the column
pass equals its fill loop and tree alone; and the freshly generated world stores and reads
no WATER. -/
theorem generateTerrain_no_water (noise : ℚ → ℚ → ℚ) (rand : Nat → Nat) :
    (∀ (st : OptimizedWorld × Nat) (x z : Int), 0 ≤ x → x < 64 → 0 ≤ z → z < 64 →
      (∀ y : Int, 0 ≤ y → y < 16 → y < columnHeight noise x z →
        ((fillAndTree noise rand st x z).1.GetBlock (Vector3.ofInt x y z)).type ≠ BLOCK_AIR ∧
        (((fillAndTree noise rand st x z).1.GetBlock (Vector3.ofInt x y z)).type = BLOCK_DIRT ∨
          ((fillAndTree noise rand st x z).1.GetBlock (Vector3.ofInt x y z)).type =
            BLOCK_STONE)) ∧
      generateColumn noise rand st x z = fillAndTree noise rand st x z) ∧
    (∀ worldSeed : Int, NoWater (OptimizedWorld.new noise rand worldSeed) ∧
      ∀ p : Vector3, ((OptimizedWorld.new noise rand worldSeed).GetBlock p).type ≠
        BLOCK_WATER) := by
  constructor
  · intro st x z hx0 hx1 hz0 hz1
    refine ⟨?_, generateColumn_eq_fillAndTree noise rand st x z hx0 hx1 hz0 hz1⟩
    intro y hy0 hy1 hlt
    rw [fillAndTree_getBlock_column noise rand st x z y (by unfold InWorld; omega) (by omega)]
    refine ⟨(columnBlock_type _ _).2.2.2 hlt, ?_⟩
    unfold columnBlock
    rw [if_neg (by omega), if_neg (by omega)]
    split_ifs
    · left; rfl
    · right; rfl
  · intro worldSeed
    exact ⟨noWater_new noise rand worldSeed,
      noWater_getBlock _ (noWater_new noise rand worldSeed)⟩

/-! ## Trees and the order of the columns -/

/-- The fill loop of one column leaves the cells of every other column as they were. -/
theorem fillColumn_getBlock_other (w : OptimizedWorld) (x z height qx qy qz : Int)
    (hne : ¬ (qx = x ∧ qz = z)) :
    (fillColumn w x z height).GetBlock (Vector3.ofInt qx qy qz) =
      w.GetBlock (Vector3.ofInt qx qy qz) := by
  unfold fillColumn
  apply foldl_preserves
    (fun s : OptimizedWorld => s.GetBlock (Vector3.ofInt qx qy qz) =
      w.GetBlock (Vector3.ofInt qx qy qz)) _ _ _ _ rfl
  intro s y hs
  show (fillCell s x z height y).GetBlock _ = _
  rw [fillCell_eq, getBlock_setBlock_ofInt, if_neg (fun h => hne ⟨h.2.1, h.2.2.2⟩)]
  exact hs

/-- After the fill loop and the tree of a column, an in-bounds cell reads WOOD or LEAVES if
the tree stored in it; otherwise it reads what the fill loop wrote if it is a cell of the
column, and what was there before if it is not. -/
theorem fillAndTree_getBlock (noise : ℚ → ℚ → ℚ) (rand : Nat → Nat)
    (st : OptimizedWorld × Nat) (x z qx qy qz : Int) (hin : InWorld qx qy qz) :
    (treeStores noise rand st x z qx qy qz →
      ((fillAndTree noise rand st x z).1.GetBlock (Vector3.ofInt qx qy qz)).type = BLOCK_WOOD ∨
      ((fillAndTree noise rand st x z).1.GetBlock (Vector3.ofInt qx qy qz)).type =
        BLOCK_LEAVES) ∧
    (¬ treeStores noise rand st x z qx qy qz →
      (fillAndTree noise rand st x z).1.GetBlock (Vector3.ofInt qx qy qz) =
        if qx = x ∧ qz = z then columnBlock (columnHeight noise x z) qy
        else st.1.GetBlock (Vector3.ofInt qx qy qz)) := by
  have hfill : (fillColumn st.1 x z (columnHeight noise x z)).GetBlock
      (Vector3.ofInt qx qy qz) =
      if qx = x ∧ qz = z then columnBlock (columnHeight noise x z) qy
      else st.1.GetBlock (Vector3.ofInt qx qy qz) := by
    by_cases hc : qx = x ∧ qz = z
    · rw [if_pos hc]
      obtain ⟨h1, h2⟩ := hc
      subst h1 h2
      exact fillColumn_getBlock _ _ _ _ _ hin
    · rw [if_neg hc]
      exact fillColumn_getBlock_other _ _ _ _ _ _ _ hc
  have htree := addTree_getBlock_cells (fillColumn st.1 x z (columnHeight noise x z)) rand
    (st.2 + 1) x (columnHeight noise x z + 1) z qx qy qz
  unfold treeStores fillAndTree
  simp only []
  constructor
  · rintro ⟨h1, h2, h3, h4⟩
    rw [if_pos ⟨h1, h2⟩, if_pos h3]
    by_cases hl : leafCell (trunkHeightDrawn rand (st.2 + 1)) x (columnHeight noise x z + 1) z
        qx qy qz
    · right
      rw [htree.1 hl]
    · left
      rw [htree.2.1 hl (h4.resolve_left hl)]
  · intro hn
    by_cases hh : columnHeight noise x z ≥ 22 ∧ columnHeight noise x z ≤ 30
    · rw [if_pos hh]
      by_cases hr : rand st.2 % 100 < 8
      · rw [if_pos hr]
        have hcell : ¬ (leafCell (trunkHeightDrawn rand (st.2 + 1)) x
            (columnHeight noise x z + 1) z qx qy qz ∨
            trunkCell (trunkHeightDrawn rand (st.2 + 1)) x
              (columnHeight noise x z + 1) z qx qy qz) :=
          fun hc => hn ⟨hh.1, hh.2, hr, hc⟩
        rw [htree.2.2 (fun h => hcell (Or.inl h)) (fun h => hcell (Or.inr h))]
        exact hfill
      · rw [if_neg hr]
        exact hfill
    · rw [if_neg hh]
      exact hfill

/-- Processing one more column. -/
theorem generateColumns_append_one (noise : ℚ → ℚ → ℚ) (rand : Nat → Nat)
    (st : OptimizedWorld × Nat) (cols : List (Int × Int)) (c : Int × Int) :
    generateColumns noise rand st (cols ++ [c]) =
      generateColumn noise rand (generateColumns noise rand st cols) c.1 c.2 := by
  unfold generateColumns
  rw [List.foldl_append]
  rfl

/-- A WOOD or LEAVES block read after in-range columns were processed either was there
before, in a column that was not processed, or was stored by the tree of a processed
column after which the block's own column was not processed again. -/
theorem tree_block_writer (noise : ℚ → ℚ → ℚ) (rand : Nat → Nat) (s0 : OptimizedWorld × Nat)
    (qx qy qz : Int) (hin : InWorld qx qy qz) (cols : List (Int × Int))
    (hcols : ∀ c ∈ cols, c ∈ columnOrder)
    (h : ((generateColumns noise rand s0 cols).1.GetBlock (Vector3.ofInt qx qy qz)).type =
        BLOCK_WOOD ∨
      ((generateColumns noise rand s0 cols).1.GetBlock (Vector3.ofInt qx qy qz)).type =
        BLOCK_LEAVES) :
    (((s0.1.GetBlock (Vector3.ofInt qx qy qz)).type = BLOCK_WOOD ∨
        (s0.1.GetBlock (Vector3.ofInt qx qy qz)).type = BLOCK_LEAVES) ∧ (qx, qz) ∉ cols) ∨
    ∃ (pre post : List (Int × Int)) (x z : Int),
      cols = pre ++ (x, z) :: post ∧ (qx, qz) ∉ post ∧
      treeStores noise rand (generateColumns noise rand s0 pre) x z qx qy qz := by
  induction cols using List.reverseRecOn with
  | nil =>
    left
    exact ⟨h, List.not_mem_nil _⟩
  | append_singleton l c ih =>
    have hc := mem_columnOrder.mp (hcols c (List.mem_append_right _ (List.mem_singleton_self c)))
    rw [generateColumns_append_one,
      generateColumn_eq_fillAndTree noise rand _ c.1 c.2 hc.1 hc.2.1 hc.2.2.1 hc.2.2.2] at h
    have hstep := fillAndTree_getBlock noise rand (generateColumns noise rand s0 l) c.1 c.2
      qx qy qz hin
    by_cases hts : treeStores noise rand (generateColumns noise rand s0 l) c.1 c.2 qx qy qz
    · right
      exact ⟨l, [], c.1, c.2, rfl, List.not_mem_nil _, hts⟩
    · rw [hstep.2 hts] at h
      by_cases hcol : qx = c.1 ∧ qz = c.2
      · rw [if_pos hcol] at h
        have hb := columnBlock_type (columnHeight noise c.1 c.2) qy
        rcases h with h | h
        · exact absurd h hb.1
        · exact absurd h hb.2.1
      · rw [if_neg hcol] at h
        have hne : (qx, qz) ≠ c := by
          intro he
          apply hcol
          rw [← he]
          exact ⟨rfl, rfl⟩
        rcases ih (fun c' hc' => hcols c' (List.mem_append_left _ hc')) h with
          ⟨h0, hnot⟩ | ⟨pre, post, x, z, hl, hpost, hst⟩
        · left
          refine ⟨h0, ?_⟩
          intro hm
          rcases List.mem_append.mp hm with hm | hm
          · exact hnot hm
          · exact hne (List.mem_singleton.mp hm)
        · right
          refine ⟨pre, post ++ [c], x, z, ?_, ?_, hst⟩
          · rw [hl]
            simp
          · intro hm
            rcases List.mem_append.mp hm with hm | hm
            · exact hpost hm
            · exact hne (List.mem_singleton.mp hm)

/-- The values of a counting loop come in ascending order. -/
theorem pairwise_lt_intRange (lo hi : Int) : (intRange lo hi).Pairwise (fun a b => a < b) := by
  unfold intRange
  rw [List.pairwise_map]
  exact (List.pairwise_lt_range _).imp (fun h => by omega)

/-- The columns are visited in ascending order of `x`, and of `z` within one `x`. -/
theorem pairwise_columnOrder :
    columnOrder.Pairwise (fun a b => a.1 < b.1 ∨ (a.1 = b.1 ∧ a.2 < b.2)) := by
  unfold columnOrder
  rw [List.pairwise_flatMap]
  constructor
  · intro x _
    rw [List.pairwise_map]
    exact (pairwise_lt_intRange _ _).imp (fun h => Or.inr ⟨rfl, h⟩)
  · exact (pairwise_lt_intRange _ _).imp (fun h a ha b hb => by
      simp only [List.mem_map] at ha hb
      obtain ⟨_, _, rfl⟩ := ha
      obtain ⟨_, _, rfl⟩ := hb
      exact Or.inl h)

/-- A visited column that is not visited after `(x, z)` is `(x, z)` or earlier in the
order. -/
theorem not_later_of_not_mem_post (pre post : List (Int × Int)) (x z qx qz : Int)
    (hsplit : columnOrder = pre ++ (x, z) :: post) (hmem : (qx, qz) ∈ columnOrder)
    (hpost : (qx, qz) ∉ post) : qx < x ∨ (qx = x ∧ qz ≤ z) := by
  have hp := pairwise_columnOrder
  rw [hsplit] at hp hmem
  rcases List.mem_append.mp hmem with hm | hm
  · have := (List.pairwise_append.mp hp).2.2 _ hm (x, z) (List.mem_cons_self _ _)
    simp only [] at this
    omega
  · rcases List.mem_cons.mp hm with he | hm
    · simp only [Prod.mk.injEq] at he
      omega
    · exact absurd hm hpost

/-- Reads of the generated world are reads of the state after all columns. -/
theorem new_getBlock (noise : ℚ → ℚ → ℚ) (rand : Nat → Nat) (worldSeed : Int)
    (p : Vector3) :
    (OptimizedWorld.new noise rand worldSeed).GetBlock p =
      (generateColumns noise rand (OptimizedWorld.init worldSeed, 0) columnOrder).1.GetBlock
        p := by
  unfold OptimizedWorld.new
  rw [generateTerrain_eq_columns]
  generalize generateColumns noise rand (OptimizedWorld.init worldSeed, 0) columnOrder = st
  exact getBlock_congr_blocks _ _ (fun _ _ => rfl) p

/-- C26. A column's fill loop overwrites all 64 cells of the column with blocks that are
neither WOOD nor LEAVES, whatever was there. At the end of `GenerateTerrain`, every WOOD
or LEAVES block was stored by the tree of a column `(x, z)` that was processed when its
own column `(qx, qz)` was processed for the last time or later: `(qx, qz)` is not among
the columns processed after `(x, z)`, that is, `qx < x`, or `qx = x` and `qz ≤ z`. -/
theorem tree_blocks_not_in_later_columns (noise : ℚ → ℚ → ℚ) (rand : Nat → Nat)
    (worldSeed : Int) (qx qy qz : Int)
    (h : ((OptimizedWorld.new noise rand worldSeed).GetBlock (Vector3.ofInt qx qy qz)).type =
        BLOCK_WOOD ∨
      ((OptimizedWorld.new noise rand worldSeed).GetBlock (Vector3.ofInt qx qy qz)).type =
        BLOCK_LEAVES) :
    (∀ (w : OptimizedWorld) (height y : Int), 0 ≤ y → y < 64 →
      (fillColumn w qx qz height).GetBlock (Vector3.ofInt qx y qz) = columnBlock height y ∧
      (columnBlock height y).type ≠ BLOCK_WOOD ∧ (columnBlock height y).type ≠ BLOCK_LEAVES) ∧
    ∃ (pre post : List (Int × Int)) (x z : Int),
      columnOrder = pre ++ (x, z) :: post ∧ (qx, qz) ∉ post ∧
      (qx < x ∨ (qx = x ∧ qz ≤ z)) ∧
      treeStores noise rand
        (generateColumns noise rand (OptimizedWorld.init worldSeed, 0) pre) x z qx qy qz := by
  have hin : InWorld qx qy qz := by
    by_contra hc
    rw [getBlock_air_of_not_inWorld _ _ _ _ hc] at h
    rcases h with h | h <;> exact absurd h (by decide)
  constructor
  · intro w height y hy0 hy1
    have hb := columnBlock_type height y
    refine ⟨fillColumn_getBlock w qx qz height y ?_, hb.1, hb.2.1⟩
    unfold InWorld at hin ⊢
    omega
  · rw [new_getBlock] at h
    rcases tree_block_writer noise rand (OptimizedWorld.init worldSeed, 0) qx qy qz hin
        columnOrder (fun c hc => hc) h with ⟨h0, _⟩ | ⟨pre, post, x, z, hsplit, hpost, hst⟩
    · rw [getBlock_init] at h0
      rcases h0 with h0 | h0 <;> exact absurd h0 (by decide)
    · refine ⟨pre, post, x, z, hsplit, hpost, ?_, hst⟩
      apply not_later_of_not_mem_post pre post x z qx qz hsplit _ hpost
      rw [mem_columnOrder]
      unfold InWorld at hin
      simp only []
      omega

/-- The last value of a counting loop from 0. -/
theorem intRange_succ (n : Nat) :
    intRange 0 ((n : Int) + 1) = intRange 0 (n : Int) ++ [(n : Int) + 1] := by
  unfold intRange
  have h1 : ((n : Int) + 1 + 1 - 0).toNat = (n + 1) + 1 := by omega
  have h2 : ((n : Int) + 1 - 0).toNat = n + 1 := by omega
  rw [h1, h2, List.range_succ, List.map_append]
  simp

/-- The column processed last is `(63, 63)`. -/
theorem columnOrder_last :
    ∃ pre : List (Int × Int), columnOrder = pre ++ [(63, 63)] := by
  have h : intRange 0 (GetWorldSize - 1) = intRange 0 62 ++ [63] := intRange_succ 62
  unfold columnOrder
  rw [h, List.flatMap_append]
  refine ⟨(intRange 0 62).flatMap (fun x => ((intRange 0 62 ++ [63]).map (fun z => (x, z)))) ++
    (intRange 0 62).map (fun z => ((63 : Int), z)), ?_⟩
  simp

/-- With the noise constant at 1/2, so every surface at height 27, and every `rand()`
value 0, so a tree of trunk height 3 on every column: the cell `(63, 28, 63)`, the foot of
the trunk of the column processed last, is WOOD in the generated world. -/
theorem sample_last_trunk :
    ((OptimizedWorld.new (fun _ _ => 1 / 2) (fun _ => 0) 1337).GetBlock
      (Vector3.ofInt 63 28 63)).type = BLOCK_WOOD := by
  obtain ⟨pre, hpre⟩ := columnOrder_last
  rw [new_getBlock, hpre, generateColumns_append_one,
    generateColumn_eq_fillAndTree _ _ _ _ _ (by decide) (by decide) (by decide) (by decide)]
  generalize generateColumns (fun _ _ => 1 / 2) (fun _ => 0) (OptimizedWorld.init 1337, 0) pre
    = st
  have hh : columnHeight (fun _ _ => 1 / 2) 63 63 = 27 := by
    norm_num [columnHeight, truncToInt]
  have ht : trunkHeightDrawn (fun _ => 0) (st.2 + 1) = 3 := by
    simp [trunkHeightDrawn]
  unfold fillAndTree
  simp only [hh]
  rw [if_pos (by decide), if_pos (by decide)]
  rw [(addTree_getBlock_cells _ _ _ _ _ _ _ _ _).2.1]
  · rw [ht]
    rintro ⟨dy, hdy, dx, _, dz, _, _, _, _, hq, _⟩
    rw [mem_intRange] at hdy
    omega
  · rw [ht]
    exact ⟨0, by rw [mem_intRange]; omega, by unfold InWorld; omega, rfl, by omega, rfl⟩

/-- Witness for C26: in the sample world the WOOD block at `(63, 28, 63)` was stored by a
tree of a column not earlier than `(63, 63)`. -/
theorem tree_blocks_not_in_later_columns_witness :
    ((OptimizedWorld.new (fun _ _ => 1 / 2) (fun _ => 0) 1337).GetBlock
      (Vector3.ofInt 63 28 63)).type = BLOCK_WOOD ∧
    ∃ (pre post : List (Int × Int)) (x z : Int),
      columnOrder = pre ++ (x, z) :: post ∧ ((63 : Int), (63 : Int)) ∉ post ∧
      (63 < x ∨ (63 = x ∧ 63 ≤ z)) ∧
      treeStores (fun _ _ => 1 / 2) (fun _ => 0)
        (generateColumns (fun _ _ => 1 / 2) (fun _ => 0) (OptimizedWorld.init 1337, 0) pre)
        x z 63 28 63 :=
  ⟨sample_last_trunk,
    (tree_blocks_not_in_later_columns (fun _ _ => 1 / 2) (fun _ => 0) 1337 63 28 63
      (Or.inl sample_last_trunk)).2⟩

/-! ## The break timer and its target -/

/-- The left-button code, from a state that is idle or has break progress below 1: it
makes no world call, and it leaves the controller idle, or breaking a target acquired in
this frame with the timer at 0, or breaking the target it was breaking with the timer
untouched. -/
theorem handleBreakInput_cases (g : Game) (inp : FrameInput)
    (hI : g.character.isBreaking = true → g.character.breakProgress < 1) :
    (g.handleBreakInput inp).calls = g.calls ∧
    ((g.handleBreakInput inp).character.isBreaking = false ∨
      ((g.handleBreakInput inp).character.isBreaking = true ∧
        (g.handleBreakInput inp).character.breakTimer = 0 ∧
        Acquires g inp (g.handleBreakInput inp).character.breakingBlock) ∨
      ((g.handleBreakInput inp).character.isBreaking = true ∧
        g.character.isBreaking = true ∧
        (g.handleBreakInput inp).character.breakTimer = g.character.breakTimer ∧
        (g.handleBreakInput inp).character.breakingBlock = g.character.breakingBlock ∧
        KeepsTarget g inp g.character.breakingBlock)) := by
  unfold Game.handleBreakInput
  simp only []
  by_cases hl : inp.leftDown = true
  · rw [if_pos hl]
    cases hray : inp.raycast g.world g.character.reachDistance with
    | none => exact ⟨rfl, Or.inl rfl⟩
    | some hit =>
      simp only []
      by_cases hc : (!g.character.isBreaking || !Vector3Equals g.character.breakingBlock
          hit.blockPos) = true
      · rw [if_pos hc]
        refine ⟨rfl, Or.inr (Or.inl ⟨rfl, rfl, hl, hit, hray, rfl, ?_⟩)⟩
        simpa using hc
      · rw [if_neg hc]
        have hc2 : g.character.isBreaking = true ∧
            Vector3Equals g.character.breakingBlock hit.blockPos = true := by
          simpa using hc
        exact ⟨rfl, Or.inr (Or.inr ⟨hc2.1, hc2.1, rfl, rfl, Or.inl ⟨hl, hit, hray, hc2.2⟩⟩)⟩
  · rw [if_neg hl]
    by_cases hrel : inp.leftReleased = true
    · rw [if_pos hrel]
      refine ⟨?_, Or.inl rfl⟩
      rw [if_neg]
      simp only [Bool.and_eq_true, decide_eq_true_eq, not_and, not_le]
      exact hI
    · rw [if_neg hrel]
      refine ⟨rfl, ?_⟩
      by_cases hb : g.character.isBreaking = true
      · exact Or.inr (Or.inr ⟨hb, hb, rfl, rfl,
          Or.inr ⟨by simpa using hl, by simpa using hrel⟩⟩)
      · exact Or.inl (by simpa using hb)

/-- The left-button code when the button is held and the raycast misses: idle, progress
0, no world call. -/
theorem handleBreakInput_miss (g : Game) (inp : FrameInput) (hl : inp.leftDown = true)
    (hray : inp.raycast g.world g.character.reachDistance = none) :
    (g.handleBreakInput inp).calls = g.calls ∧
    (g.handleBreakInput inp).character.isBreaking = false ∧
    (g.handleBreakInput inp).character.breakProgress = 0 := by
  unfold Game.handleBreakInput
  simp only [hl, if_true, hray]
  exact ⟨trivial, trivial, trivial⟩

/-- Block selection changes nothing `Acquires` and `KeepsTarget` read. -/
theorem acquires_selectBlock (g : Game) (inp : FrameInput) (p : Vector3) :
    (Acquires ({ g with character := g.character.selectBlock inp }) inp p ↔ Acquires g inp p) ∧
    (KeepsTarget ({ g with character := g.character.selectBlock inp }) inp p ↔
      KeepsTarget g inp p) := by
  have hsel := selectBlock_fields g.character inp
  unfold Acquires KeepsTarget
  rw [hsel.2.1, hsel.2.2.2.2.1, hsel.2.2.2.2.2]
  exact ⟨Iff.rfl, Iff.rfl⟩

/-- The rest of a frame after `HandleInput`: an idle controller stays as it is; a breaking
one adds the frame time to the timer with a `float` addition, and either keeps breaking
with progress equal to the timer, below 1, or breaks the block and returns to idle. -/
theorem update_after_input (g : Game) (inp : FrameInput) :
    ((g.HandleInput inp).character.isBreaking = false →
      (g.Update inp).character.isBreaking = false ∧
      (g.Update inp).character.breakProgress = (g.HandleInput inp).character.breakProgress ∧
      breakCalls (g.Update inp).calls = breakCalls (g.HandleInput inp).calls) ∧
    ((g.HandleInput inp).character.isBreaking = true →
      fadd32 (g.HandleInput inp).character.breakTimer inp.frameTime < 1 →
      (g.Update inp).character.isBreaking = true ∧
      (g.Update inp).character.breakingBlock = (g.HandleInput inp).character.breakingBlock ∧
      (g.Update inp).character.breakTimer =
        fadd32 (g.HandleInput inp).character.breakTimer inp.frameTime ∧
      (g.Update inp).character.breakProgress =
        fadd32 (g.HandleInput inp).character.breakTimer inp.frameTime ∧
      breakCalls (g.Update inp).calls = breakCalls (g.HandleInput inp).calls) ∧
    ((g.HandleInput inp).character.isBreaking = true →
      1 ≤ fadd32 (g.HandleInput inp).character.breakTimer inp.frameTime →
      (g.Update inp).character.isBreaking = false ∧
      (g.Update inp).character.breakProgress = 0 ∧
      (g.Update inp).character.breakTimer = 0 ∧
      breakCalls (g.Update inp).calls =
        breakCalls (g.HandleInput inp).calls ++
          [(g.HandleInput inp).character.breakingBlock]) := by
  unfold Game.Update
  simp only []
  refine ⟨?_, ?_, ?_⟩
  · intro hb
    rw [if_neg (by simp [hb])]
    exact ⟨hb, rfl, rfl⟩
  · intro hb ht
    rw [if_pos hb, if_neg (not_le.mpr ht)]
    exact ⟨hb, rfl, rfl, by simp, rfl⟩
  · intro hb ht
    rw [if_pos hb, if_pos ht]
    refine ⟨rfl, rfl, rfl, ?_⟩
    simp [Game.BreakBlock, breakCalls, List.filterMap_append]

/-- On the coordinates of blocks inside the world `Vector3Equals` is equality: two
different blocks are told apart. -/
theorem vector3Equals_ofInt_iff (a b c x y z : Int) (h1 : InWorld a b c) (h2 : InWorld x y z) :
    Vector3Equals (Vector3.ofInt a b c) (Vector3.ofInt x y z) = true ↔
      a = x ∧ b = y ∧ c = z := by
  have key : ∀ u v : Int, 0 ≤ u → u < 64 → 0 ≤ v → v < 64 →
      |(u : ℚ) - (v : ℚ)| ≤ (1 / 1000000) * max 1 (max |(u : ℚ)| |(v : ℚ)|) → u = v := by
    intro u v hu0 hu1 hv0 hv1 h
    have hu : |(u : ℚ)| ≤ 64 := by
      rw [abs_of_nonneg (by exact_mod_cast hu0)]
      exact_mod_cast le_of_lt hu1
    have hv : |(v : ℚ)| ≤ 64 := by
      rw [abs_of_nonneg (by exact_mod_cast hv0)]
      exact_mod_cast le_of_lt hv1
    have hm : max 1 (max |(u : ℚ)| |(v : ℚ)|) ≤ 64 := max_le (by norm_num) (max_le hu hv)
    have hlt : |(u : ℚ) - (v : ℚ)| < 1 := by
      have : (1 / 1000000 : ℚ) * max 1 (max |(u : ℚ)| |(v : ℚ)|) ≤ (1 / 1000000) * 64 :=
        mul_le_mul_of_nonneg_left hm (by norm_num)
      linarith
    have hint : |((u - v : Int) : ℚ)| < 1 := by
      push_cast
      exact hlt
    rw [← Int.cast_abs] at hint
    have : |u - v| < 1 := by exact_mod_cast hint
    rw [abs_lt] at this
    omega
  unfold InWorld at h1 h2
  constructor
  · intro h
    unfold Vector3Equals Vector3.ofInt at h
    simp only [Bool.and_eq_true, decide_eq_true_eq] at h
    exact ⟨key a x h1.1 h1.2.1 h2.1 h2.2.1 h.1.1,
      key b y h1.2.2.1 h1.2.2.2.1 h2.2.2.1 h2.2.2.2.1 h.1.2,
      key c z h1.2.2.2.2.1 h1.2.2.2.2.2 h2.2.2.2.2.1 h2.2.2.2.2.2 h.2⟩
  · rintro ⟨rfl, rfl, rfl⟩
    exact vector3Equals_self _

/-- One frame, from a state that is idle or has break progress below 1. If the controller
ends the frame breaking, its progress is below 1 and it either acquired its target in this
frame, the timer now at 0 plus the frame time, or kept the target it had, the timer
advanced by the frame time; the additions are `float` additions. A `BreakBlock` call of
the frame is on a target acquired in this frame when the frame time alone reaches 1, or
on the target kept when the advanced timer reaches 1. -/
theorem update_frame (g : Game) (inp : FrameInput)
    (hI : g.character.isBreaking = true → g.character.breakProgress < 1) :
    ((g.Update inp).character.isBreaking = true →
      (g.Update inp).character.breakProgress < 1 ∧
      ((Acquires g inp (g.Update inp).character.breakingBlock ∧
          (g.Update inp).character.breakTimer = fadd32 0 inp.frameTime) ∨
        (g.character.isBreaking = true ∧
          (g.Update inp).character.breakingBlock = g.character.breakingBlock ∧
          KeepsTarget g inp g.character.breakingBlock ∧
          (g.Update inp).character.breakTimer = fadd32 g.character.breakTimer inp.frameTime))) ∧
    (breakCalls (g.Update inp).calls = breakCalls g.calls ∨
      ∃ p, breakCalls (g.Update inp).calls = breakCalls g.calls ++ [p] ∧
        ((Acquires g inp p ∧ 1 ≤ fadd32 0 inp.frameTime) ∨
          (g.character.isBreaking = true ∧ g.character.breakingBlock = p ∧
            KeepsTarget g inp p ∧ 1 ≤ fadd32 g.character.breakTimer inp.frameTime))) := by
  obtain ⟨hc, hcalls, _⟩ := handleInput_eq g inp
  have hsel := selectBlock_fields g.character inp
  obtain ⟨hbc, hcase⟩ := handleBreakInput_cases
    ({ g with character := g.character.selectBlock inp }) inp
    (by simpa only [hsel.2.2.1, hsel.2.2.2.2.1] using hI)
  rw [hbc] at hcalls
  rw [← hc] at hcase
  simp only [(acquires_selectBlock g inp _).1, (acquires_selectBlock g inp _).2,
    hsel.2.2.2.1, hsel.2.2.2.2.1, hsel.2.2.2.2.2] at hcase
  obtain ⟨hu1, hu2, hu3⟩ := update_after_input g inp
  rw [hcalls] at hu1 hu2 hu3
  rcases hcase with hidle | ⟨hb, ht, hacq⟩ | ⟨hb, hgb, ht, hbb, hkeep⟩
  · obtain ⟨h1, _, h3⟩ := hu1 hidle
    refine ⟨fun h => ?_, Or.inl h3⟩
    rw [h1] at h
    cases h
  · rw [ht] at hu2 hu3
    by_cases hlt : fadd32 0 inp.frameTime < 1
    · obtain ⟨_, h2, h3, h4, h5⟩ := hu2 hb hlt
      refine ⟨fun _ => ⟨by rw [h4]; exact hlt, Or.inl ⟨by rw [h2]; exact hacq, h3⟩⟩, Or.inl h5⟩
    · obtain ⟨h1, _, _, h4⟩ := hu3 hb (not_lt.mp hlt)
      refine ⟨fun h => ?_, Or.inr ⟨_, h4, Or.inl ⟨hacq, not_lt.mp hlt⟩⟩⟩
      rw [h1] at h
      cases h
  · rw [ht] at hu2 hu3
    by_cases hlt : fadd32 g.character.breakTimer inp.frameTime < 1
    · obtain ⟨_, h2, h3, h4, h5⟩ := hu2 hb hlt
      refine ⟨fun _ => ⟨by rw [h4]; exact hlt,
        Or.inr ⟨hgb, by rw [h2, hbb], hkeep, h3⟩⟩, Or.inl h5⟩
    · obtain ⟨h1, _, _, h4⟩ := hu3 hb (not_lt.mp hlt)
      refine ⟨fun h => ?_, Or.inr ⟨_, h4, Or.inr ⟨hgb, hbb.symm, ?_, not_lt.mp hlt⟩⟩⟩
      · rw [h1] at h
        cases h
      · rw [hbb]
        exact hkeep

/-- Along a run from an idle state, whenever the controller is breaking at the end of a
frame its progress is below 1 and its timer holds the `float` sum, from 0, of the frame
times since the frame that acquired its target, every frame in between having kept that
target. -/
theorem run_counted (g0 : Game) (inputs : List FrameInput)
    (hidle : g0.character.isBreaking = false) (m : Nat) (hm : m ≤ inputs.length) :
    (g0.run (inputs.take m)).character.isBreaking = true →
      (g0.run (inputs.take m)).character.breakProgress < 1 ∧
      ∃ k, k < m ∧
        CountedOn g0 inputs (g0.run (inputs.take m)).character.breakingBlock k m ∧
        (g0.run (inputs.take m)).character.breakTimer = timerAfter inputs k m := by
  induction m with
  | zero =>
    intro h
    simp only [List.take_zero, Game.run, List.foldl_nil] at h
    rw [hidle] at h
    cases h
  | succ m ih =>
    have hlt : m < inputs.length := hm
    have hget : inputs[m]? = some (inputs[m]) := List.getElem?_eq_getElem hlt
    have ihm := ih (Nat.le_of_lt hlt)
    rw [run_take_succ g0 inputs m _ hget]
    intro hb
    obtain ⟨hp, hcase⟩ := (update_frame (g0.run (inputs.take m)) inputs[m]
      (fun h => (ihm h).1)).1 hb
    refine ⟨hp, ?_⟩
    rcases hcase with ⟨hacq, ht⟩ | ⟨hgb, hbb, hkeep, ht⟩
    · refine ⟨m, Nat.lt_succ_self m, ⟨⟨_, hget, hacq⟩, ?_⟩, ?_⟩
      · intro i inpi h1 h2
        omega
      · rw [ht, timerAfter_succ inputs m m _ (le_refl m) hget, timerAfter_self]
    · obtain ⟨_, k, hk, ⟨hfirst, hrest⟩, htm⟩ := ihm hgb
      rw [hbb]
      refine ⟨k, Nat.lt_succ_of_lt hk, ⟨hfirst, ?_⟩, ?_⟩
      · intro i inpi h1 h2 hgi
        by_cases him : i < m
        · exact hrest i inpi h1 him hgi
        · have hi : i = m := by omega
          subst hi
          rw [hget] at hgi
          cases hgi
          exact hkeep
      · rw [ht, htm, timerAfter_succ inputs k m _ (Nat.le_of_lt hk) hget]

/-- A frame in which the primary action is held and the raycast misses: no `BreakBlock`
call, and the controller ends the frame idle with progress 0. -/
theorem update_miss (g : Game) (inp : FrameInput) (hl : inp.leftDown = true)
    (hray : inp.raycast g.world g.character.reachDistance = none) :
    breakCalls (g.Update inp).calls = breakCalls g.calls ∧
    (g.Update inp).character.isBreaking = false ∧
    (g.Update inp).character.breakProgress = 0 := by
  obtain ⟨hc, hcalls, _⟩ := handleInput_eq g inp
  have hsel := selectBlock_fields g.character inp
  obtain ⟨hu1, _, _⟩ := update_after_input g inp
  obtain ⟨h1, h2, h3⟩ := handleBreakInput_miss
    ({ g with character := g.character.selectBlock inp }) inp hl
    (by simpa only [hsel.2.1] using hray)
  rw [h1] at hcalls
  rw [← hc] at h2 h3
  obtain ⟨h4, h5, h6⟩ := hu1 h2
  exact ⟨by rw [h6, hcalls], h4, by rw [h5, h3]⟩

/-- A frame that acquires the target `p`: the timer restarts from 0, so the frame ends
breaking `p` with timer and progress at `0.0f` plus the frame time, or, if that alone is
at least 1, with `BreakBlock` called on `p`. -/
theorem update_acquire (g : Game) (inp : FrameInput) (p : Vector3) (h : Acquires g inp p) :
    (fadd32 0 inp.frameTime < 1 →
      (g.Update inp).character.isBreaking = true ∧
      (g.Update inp).character.breakingBlock = p ∧
      (g.Update inp).character.breakTimer = fadd32 0 inp.frameTime ∧
      (g.Update inp).character.breakProgress = fadd32 0 inp.frameTime ∧
      breakCalls (g.Update inp).calls = breakCalls g.calls) ∧
    (1 ≤ fadd32 0 inp.frameTime →
      breakCalls (g.Update inp).calls = breakCalls g.calls ++ [p]) := by
  obtain ⟨hc, hcalls, _⟩ := handleInput_eq g inp
  have hsel := selectBlock_fields g.character inp
  obtain ⟨_, hu2, hu3⟩ := update_after_input g inp
  obtain ⟨hl, hit, hray, hp, hst⟩ := h
  have hbr : ({ g with character := g.character.selectBlock inp } : Game).handleBreakInput
      inp = { g with character :=
        { g.character.selectBlock inp with
          isBreaking := true, breakingBlock := hit.blockPos, breakTimer := 0 } } := by
    unfold Game.handleBreakInput
    simp only [hl, if_true, hsel.2.1, hray, hsel.2.2.2.2.1, hsel.2.2.2.2.2]
    rw [if_pos]
    rcases hst with h | h <;> simp [h]
  rw [hbr] at hc hcalls
  have hb : (g.HandleInput inp).character.isBreaking = true := by rw [hc]
  have ht : (g.HandleInput inp).character.breakTimer = 0 := by rw [hc]
  have hbb : (g.HandleInput inp).character.breakingBlock = p := by rw [hc]; exact hp
  rw [ht, hbb, hcalls] at hu2 hu3
  exact ⟨fun hlt => hu2 hb hlt, fun hge => (hu3 hb hge).2.2.2⟩

/-- C21, as the code has it. Along any run from an idle state; the timer is a `float`,
rounded after every addition. In a frame where the primary action is held and the raycast
misses, no block is broken and the controller ends the frame idle with progress 0. In a
frame that acquires a target (from idle, or because the raycast target differs from the
current one) the time counted starts from 0: the frame ends with the timer at `0.0f` plus
the frame time, or breaks the block if that alone is at least 1. And a frame breaks a
block `p` only if, for some earlier or equal frame `k`, frame `k` acquired `p`, every frame
after it up to this one kept `p`, and the timer, the `float` sum from 0 of the frame times
of the frames `k` up to this one, has reached 1. -/
theorem break_needs_full_second (g0 : Game) (inputs : List FrameInput) (n : Nat)
    (inp : FrameInput)
    (hidle : g0.character.isBreaking = false)
    (hget : inputs[n]? = some inp) :
    (inp.leftDown = true →
      inp.raycast (g0.run (inputs.take n)).world
        (g0.run (inputs.take n)).character.reachDistance = none →
      breakCalls (g0.run (inputs.take (n + 1))).calls =
        breakCalls (g0.run (inputs.take n)).calls ∧
      (g0.run (inputs.take (n + 1))).character.isBreaking = false ∧
      (g0.run (inputs.take (n + 1))).character.breakProgress = 0) ∧
    (∀ p, Acquires (g0.run (inputs.take n)) inp p →
      (fadd32 0 inp.frameTime < 1 →
        (g0.run (inputs.take (n + 1))).character.isBreaking = true ∧
        (g0.run (inputs.take (n + 1))).character.breakingBlock = p ∧
        (g0.run (inputs.take (n + 1))).character.breakTimer = fadd32 0 inp.frameTime ∧
        (g0.run (inputs.take (n + 1))).character.breakProgress = fadd32 0 inp.frameTime ∧
        breakCalls (g0.run (inputs.take (n + 1))).calls =
          breakCalls (g0.run (inputs.take n)).calls) ∧
      (1 ≤ fadd32 0 inp.frameTime →
        breakCalls (g0.run (inputs.take (n + 1))).calls =
          breakCalls (g0.run (inputs.take n)).calls ++ [p])) ∧
    (breakCalls (g0.run (inputs.take (n + 1))).calls =
        breakCalls (g0.run (inputs.take n)).calls ∨
      ∃ p k, k ≤ n ∧ CountedOn g0 inputs p k (n + 1) ∧
        1 ≤ timerAfter inputs k (n + 1) ∧
        breakCalls (g0.run (inputs.take (n + 1))).calls =
          breakCalls (g0.run (inputs.take n)).calls ++ [p]) := by
  have hn : n < inputs.length := by
    by_contra hc
    rw [List.getElem?_eq_none (not_lt.mp hc)] at hget
    cases hget
  have hinv := run_counted g0 inputs hidle n (Nat.le_of_lt hn)
  rw [run_take_succ g0 inputs n inp hget]
  refine ⟨fun hl hray => update_miss _ inp hl hray, fun p hacq => update_acquire _ inp p hacq,
    ?_⟩
  rcases (update_frame (g0.run (inputs.take n)) inp (fun h => (hinv h).1)).2 with
    h | ⟨p, hp, hcase⟩
  · exact Or.inl h
  · right
    rcases hcase with ⟨hacq, hge⟩ | ⟨hgb, hbb, hkeep, hge⟩
    · refine ⟨p, n, le_refl n, ⟨⟨inp, hget, hacq⟩, ?_⟩, ?_, hp⟩
      · intro i inpi h1 h2
        omega
      · rw [timerAfter_succ inputs n n _ (le_refl n) hget, timerAfter_self]
        exact hge
    · obtain ⟨_, k, hk, ⟨hfirst, hrest⟩, htm⟩ := hinv hgb
      rw [hbb] at hfirst hrest
      refine ⟨p, k, Nat.le_of_lt hk, ⟨hfirst, ?_⟩, ?_, hp⟩
      · intro i inpi h1 h2 hgi
        by_cases him : i < n
        · exact hrest i inpi h1 him hgi
        · have hi : i = n := by omega
          subst hi
          rw [hget] at hgi
          cases hgi
          exact hkeep
      · rw [timerAfter_succ inputs k n _ (Nat.le_of_lt hk) hget, ← htm]
        exact hge

/-- The third of three sample frames held on the block `(30, 20, 30)` breaks it. -/
theorem sample_third_frame_breaks :
    breakCalls (sampleGame.run
        ([sampleHeldFrame, sampleHeldFrame, sampleHeldFrame].take (2 + 1))).calls =
      breakCalls (sampleGame.run
        ([sampleHeldFrame, sampleHeldFrame, sampleHeldFrame].take 2)).calls ++
        [⟨30, 20, 30⟩] := by
  obtain ⟨h1, h2, _⟩ := held_below sampleGame ⟨30, 20, 30⟩
    [sampleHeldFrame, sampleHeldFrame, sampleHeldFrame] rfl 2 (by decide)
    (fun k hk k' inp' hk' hg => sample_heldOn k' inp' (by omega) hg)
    (by
      intro k hk1 hk2
      interval_cases k
      · rw [sample_timer.1]; norm_num
      · rw [sample_timer.2.1]; norm_num)
  have hstep := (update_held (sampleGame.run
    ([sampleHeldFrame, sampleHeldFrame, sampleHeldFrame].take 2)) sampleHeldFrame ⟨30, 20, 30⟩
    _ rfl rfl rfl h2).2
  rw [h1, sample_timer.2.1] at hstep
  rw [run_take_succ sampleGame _ 2 sampleHeldFrame rfl]
  exact (hstep (by
    show (1 : ℚ) ≤ fadd32 (3 / 4) (3 / 8)
    rw [fadd32_samples.2.2.1]
    norm_num)).2.2.2.1

/-- Witness for C21: three frames of 3/8 second each held on the block `(30, 20, 30)` from
the constructed controller. The first frame acquires the block and ends with the timer at
3/8; the third frame breaks a block that some frame `k` acquired and every frame since
kept, the timer over the frames `k .. 2` having reached 1. -/
theorem break_needs_full_second_witness :
    ((sampleGame.run ([sampleHeldFrame, sampleHeldFrame, sampleHeldFrame].take (0 + 1))).character.isBreaking
        = true ∧
      (sampleGame.run ([sampleHeldFrame, sampleHeldFrame, sampleHeldFrame].take (0 + 1))).character.breakingBlock
        = ⟨30, 20, 30⟩ ∧
      (sampleGame.run ([sampleHeldFrame, sampleHeldFrame, sampleHeldFrame].take (0 + 1))).character.breakTimer
        = 3 / 8) ∧
    ∃ p k, k ≤ 2 ∧
      CountedOn sampleGame [sampleHeldFrame, sampleHeldFrame, sampleHeldFrame] p k (2 + 1) ∧
      1 ≤ timerAfter [sampleHeldFrame, sampleHeldFrame, sampleHeldFrame] k (2 + 1) ∧
      breakCalls (sampleGame.run
          ([sampleHeldFrame, sampleHeldFrame, sampleHeldFrame].take (2 + 1))).calls =
        breakCalls (sampleGame.run
          ([sampleHeldFrame, sampleHeldFrame, sampleHeldFrame].take 2)).calls ++ [p] := by
  have h0 := ((break_needs_full_second sampleGame
    [sampleHeldFrame, sampleHeldFrame, sampleHeldFrame] 0 sampleHeldFrame rfl rfl).2.1
    ⟨30, 20, 30⟩ ⟨rfl, _, rfl, rfl, Or.inl rfl⟩).1 (by
      show fadd32 0 (3 / 8) < 1
      rw [fadd32_samples.1]
      norm_num)
  refine ⟨⟨h0.1, h0.2.1, h0.2.2.1.trans fadd32_samples.1⟩,
    (break_needs_full_second sampleGame [sampleHeldFrame, sampleHeldFrame, sampleHeldFrame] 2
      sampleHeldFrame rfl rfl).2.2.resolve_left ?_⟩
  rw [sample_third_frame_breaks]
  intro h
  have := congrArg List.length h
  simp at this

/-- Counterexample to C21 as stated: two frames held on the block `(30, 20, 30)` from the
constructed controller on the one-block world, of 0.5 second and of `0.5 - 2 ^ (-25)` second, both binary32
values. The first frame acquires the block and the second keeps it; the sum of the two
frame times is below 1, from whichever frame it is counted, but the `float` addition
`0.5f + (0.5f - 2 ^ (-25))` rounds to `1.0f`, so the second frame finds
`breakTimer >= 1.0f` and breaks the block. -/
theorem break_before_full_second :
    CountedOn sampleBlockGame [sampleHalfFrame, sampleShortHalfFrame] ⟨30, 20, 30⟩ 0 (1 + 1) ∧
    (∀ k, accumulated [sampleHalfFrame, sampleShortHalfFrame] (1 + 1) -
      accumulated [sampleHalfFrame, sampleShortHalfFrame] k < 1) ∧
    timerAfter [sampleHalfFrame, sampleShortHalfFrame] 0 (1 + 1) = 1 ∧
    breakCalls (sampleBlockGame.run ([sampleHalfFrame, sampleShortHalfFrame].take (1 + 1))).calls =
      breakCalls (sampleBlockGame.run ([sampleHalfFrame, sampleShortHalfFrame].take 1)).calls ++
        [⟨30, 20, 30⟩] := by
  have hT0 : fadd32 (if sampleBlockGame.character.isBreaking then
      sampleBlockGame.character.breakTimer else 0) sampleHalfFrame.frameTime = 1 / 2 :=
    fadd32_samples.2.2.2.1
  obtain ⟨h1, h2, h3, _, _⟩ := (update_held sampleBlockGame sampleHalfFrame ⟨30, 20, 30⟩ _
    rfl rfl rfl (Or.inl rfl)).1 (by rw [hT0]; norm_num)
  rw [hT0] at h3
  have hT1 : fadd32 (if (sampleBlockGame.Update sampleHalfFrame).character.isBreaking then
      (sampleBlockGame.Update sampleHalfFrame).character.breakTimer else 0)
      sampleShortHalfFrame.frameTime = 1 := by
    rw [h1, if_pos rfl, h3]
    exact fadd32_samples.2.2.2.2
  have hbreak := ((update_held (sampleBlockGame.Update sampleHalfFrame) sampleShortHalfFrame
    ⟨30, 20, 30⟩ _ rfl rfl rfl (Or.inr h2)).2 (by rw [hT1])).2.2.2.1
  refine ⟨⟨⟨sampleHalfFrame, rfl, rfl, _, rfl, rfl, Or.inl rfl⟩, ?_⟩, ?_, ?_, ?_⟩
  · intro i inpi hi1 hi2 hget
    have hi : i = 1 := by omega
    subst hi
    have hinp : inpi = sampleShortHalfFrame := by simpa using hget.symm
    subst hinp
    refine Or.inl ⟨rfl, _, rfl, ?_⟩
    simp [Vector3Equals]
  · intro k
    rcases k with _ | _ | k
    · norm_num [accumulated, sampleHalfFrame, sampleShortHalfFrame, sampleNearFrame, sampleHeldFrame]
    · norm_num [accumulated, sampleHalfFrame, sampleShortHalfFrame, sampleNearFrame, sampleHeldFrame]
    · norm_num [accumulated, sampleHalfFrame, sampleShortHalfFrame, sampleNearFrame, sampleHeldFrame]
  · show fadd32 (fadd32 0 (1 / 2)) (1 / 2 - 1 / 33554432) = 1
    rw [fadd32_samples.2.2.2.1, fadd32_samples.2.2.2.2]
  · exact hbreak

end Raycraft
